import Mathlib

/-!
Shallow embedding of the UCTP Simulated-Annealing solver (main_comentada.c)
and verification of its specification claims.

The timetable grid `n[total_periodos][salas]` is a list of rows of `Int`
cells (`-1` = empty, otherwise a course id).  C `int[2]` pairs are modelled
as `Int × Int`; the C arrays indexed out of range are modelled with `getD`
defaults (the C program only reaches those reads through undefined
behaviour).  `%` and `/` on C ints are modelled with `Int.tmod` / `Int.tdiv`
(truncated, as in C) where signs can matter, and with `Nat` operations where
the operands are loop counters.  The process-wide PRNG (`rand`) is modelled
by an oracle list of naturals: `randomInt(0, n-1)` becomes `head % n`, an
arbitrary in-range draw.
-/

namespace Grades

/-- Timetable grid: rows are periods, columns are rooms, a cell is `-1`
(empty) or a course id — the C `int** n` of `Matriz`. -/
abbrev Grid := List (List Int)

/-- Course data — the C struct `disciplina` (name fields dropped; `cursos`
is the 0/1 curriculum-membership vector of length `cursos`). -/
structure Disciplina where
  prof : Nat
  aulas : Int
  minDias : Int
  alunos : Int
  tipo_sala : Int
  cursos : List Int
  deriving DecidableEq, Inhabited, Repr

/-- Room data — the C struct `sala`. -/
structure Sala where
  capacidade : Int
  tipo_sala : Int
  deriving DecidableEq, Inhabited, Repr

/-- Unavailability record — the C struct `restricao`. -/
structure Restricao where
  disciplina : Int
  dia : Int
  per : Int
  deriving DecidableEq, Inhabited, Repr

/-- The immutable instance data: the file-scope problem variables of the C
program (`dias`, `periodos_dia`, `sala`, `disc`, `cursos`, `professores`,
`restricao`, `posicao_restricao[0/1]`). -/
structure Problem where
  dias : Nat
  periodos_dia : Nat
  salas : List Sala
  disc : List Disciplina
  cursos : Nat
  professores : Nat
  restricao : List Restricao
  posicao0 : List Int
  posicao1 : List Int
  deriving DecidableEq, Inhabited, Repr

/-- `total_periodos = periodos_dia * dias`. -/
def TP (P : Problem) : Nat := P.periodos_dia * P.dias

/-- Number of rooms. -/
def NS (P : Problem) : Nat := P.salas.length

/-- Number of courses. -/
def ND (P : Problem) : Nat := P.disc.length

/-- Read a grid cell `n[i][j]`; out-of-range reads default to `-1`. -/
def getCell (g : Grid) (i j : Nat) : Int := (g.getD i []).getD j (-1)

/-- Write a grid cell `n[i][j] = v`; out-of-range writes are dropped. -/
def setCell (g : Grid) (i j : Nat) (v : Int) : Grid :=
  g.set i ((g.getD i []).set j v)

/-- Read entry `m[i][j]` of an int matrix with default `d`. -/
def getII (m : List (List Int)) (i j : Nat) (d : Int) : Int :=
  (m.getD i []).getD j d

/-- Write entry `m[i][j] = v` of an int matrix. -/
def setII (m : List (List Int)) (i j : Nat) (v : Int) : List (List Int) :=
  m.set i ((m.getD i []).set j v)

/-- Add `d` to entry `m[i][j]`. -/
def bumpII (m : List (List Int)) (i j : Nat) (d : Int) : List (List Int) :=
  setII m i j (getII m i j 0 + d)

/-- Add `d` to entry `l[i]`. -/
def bumpI (l : List Int) (i : Nat) (d : Int) : List Int :=
  l.set i (l.getD i 0 + d)

/-- Constant vector, as produced by `setVetor`. -/
def fill (n : Nat) (v : Int) : List Int := List.replicate n v

/-- Constant matrix, as produced by `setMatriz`. -/
def mat (a b : Nat) (v : Int) : List (List Int) :=
  List.replicate a (List.replicate b v)

/-- The C helper `modulo`: absolute difference computed by comparison. -/
def modulo (n1 n2 : Int) : Int := if n1 > n2 then n1 - n2 else n2 - n1

/-- Packed witness position `(j * total_periodos) + i` for room `j`,
period `i`. -/
def codPos (P : Problem) (j i : Nat) : Int := ((j * TP P + i : Nat) : Int)

/-- The phase-2 seeding configuration: the globals
`usar_restricao_integral`, `dias_ocupados_integral` (`none` = NULL) and
`num_profs_da_integral`. -/
structure Cfg where
  usar : Bool
  seed : Option (List (List Int))
  numProfs : Nat
  deriving DecidableEq, Inhabited, Repr

/-- The configuration of phase 1: no seeding. -/
def cfgSemSemente : Cfg := ⟨false, none, 0⟩

/-- The mutable evaluator/move bookkeeping: every file-scope index array
the evaluator owns (`r1`, `r21`, `r22`, `r5`, `r8`, `r9`, `r11`,
`restricoes_violadas` and the `aux_mov_*` witness arrays; the `int[2]`
rows of `aux_mov_r7` / `aux_mov_r10` are pairs). -/
structure Est where
  r1 : List Int
  r21 : List (List Int)
  r22 : List (List Int)
  r5 : List (List Int)
  r8 : List Int
  r9 : List (List Int)
  r11 : List (List Int)
  viol : List Int
  amR21 : List Int
  amR22 : List Int
  amR4 : List Int
  amR5 : List Int
  amR6 : List (List Int)
  amR7 : List (Int × Int)
  amR8 : List Int
  amR9 : List Int
  amR10 : List (Int × Int)
  amR11 : List (List Int)
  deriving DecidableEq, Inhabited, Repr

/-- The seeded initial `r9`: zeroed by `setMatriz`, then overlaid with
`dias_ocupados_integral[i][j]` for `i < num_profs_da_integral` when
`usar_restricao_integral` is set and the seed pointer is non-NULL. -/
def seedR9 (P : Problem) (cfg : Cfg) : List (List Int) :=
  match cfg.seed, cfg.usar with
  | some dsi, true =>
      (List.range P.professores).map (fun i =>
        (List.range P.dias).map (fun j =>
          if i < cfg.numProfs then getII dsi i j 0 else 0))
  | _, _ => mat P.professores P.dias 0

/-- The initialization block at the top of `calcula_FO`: every index is
zeroed (or set to `-1`), `r9` is optionally seeded, and
`restricoes_violadas` is set to `-1` throughout.  The previous contents of
the state are discarded entirely, which is why the evaluator is a function
of the grid alone. -/
def resetEst (P : Problem) (cfg : Cfg) : Est where
  r21 := mat (TP P) P.professores 0
  r22 := mat (TP P) P.cursos 0
  r5 := mat (ND P) P.dias 0
  r9 := seedR9 P cfg
  r11 := mat P.dias (ND P) 0
  amR6 := mat (TP P) (NS P) (-1)
  amR7 := List.replicate (ND P) (-1, -1)
  amR10 := List.replicate (ND P) (-1, -1)
  amR11 := mat (TP P) (NS P) (-1)
  amR21 := fill (ND P) (-1)
  amR22 := fill (ND P) (-1)
  amR4 := fill (ND P) (-1)
  amR5 := fill (ND P) (-1)
  amR8 := fill (TP P) (-1)
  amR9 := fill P.professores (-1)
  r1 := fill (ND P) 0
  r8 := fill (ND P) (-1)
  viol := fill 12 (-1)

/-- The C `restricaoR4`: scans the per-course contiguous range of
unavailability records for a match on `(course, day, period-of-day)`. -/
def restricaoR4 (P : Problem) (dis : Int) (per : Nat) : Bool :=
  let dia : Int := (per / P.periodos_dia : Nat)
  let diaPer : Int := (per % P.periodos_dia : Nat)
  if P.posicao0.getD dis.toNat (-1) = -1 then false
  else
    let lo := (P.posicao0.getD dis.toNat (-1)).toNat
    let hi := (P.posicao1.getD dis.toNat (-1)).toNat
    ((List.range (hi + 1 - lo)).map (fun t => lo + t)).any (fun i =>
      let r := P.restricao.getD i default
      decide (r.disciplina = dis ∧ r.dia = dia ∧ r.per = diaPer))

/-- Adjacency scan of `restricaoR6`: does some room of the next or
previous period of the same day hold another member of curriculum `k`? -/
def temAdjacente (P : Problem) (g : Grid) (k per : Nat) : Bool :=
  (List.range (NS P)).any (fun j =>
    decide ((per % P.periodos_dia < P.periodos_dia - 1 ∧
              getCell g (per + 1) j ≠ -1 ∧
              (P.disc.getD (getCell g (per + 1) j).toNat default).cursos.getD k 0 = 1)
      ∨ (0 < per % P.periodos_dia ∧
              getCell g (per - 1) j ≠ -1 ∧
              (P.disc.getD (getCell g (per - 1) j).toNat default).cursos.getD k 0 = 1)))

/-- The C `restricaoR6`: for each curriculum containing `dis`, penalty 2
if no same-curriculum lecture sits in an adjacent period of the same day;
also bumps `restricoes_violadas[6]` and records the witness in
`aux_mov_r6[per][sal]`. -/
def restricaoR6Step (P : Problem) (g : Grid) (dis : Int) (per sal : Nat)
    (acc : Int × Est) (k : Nat) : Int × Est :=
  if (P.disc.getD dis.toNat default).cursos.getD k 0 = 1 then
    if temAdjacente P g k per then acc
    else (acc.1 + 2,
          { acc.2 with viol := bumpI acc.2.viol 6 1,
                       amR6 := setII acc.2.amR6 per sal dis })
  else acc

def restricaoR6 (P : Problem) (g : Grid) (dis : Int) (per sal : Nat) (s : Est) :
    Int × Est :=
  (List.range P.cursos).foldl (restricaoR6Step P g dis per sal) (0, s)

/-- Cell pass, R1: `r1[c]++`. -/
def passoR1 (cn : Nat) (s : Est) : Est := { s with r1 := bumpI s.r1 cn 1 }

/-- Cell pass, R2 (teacher): increment `r21[i][prof]`, record a witness in
`aux_mov_r21[c]` if the count exceeds 1. -/
def passoR21 (P : Problem) (i j cn pr : Nat) (s : Est) : Est :=
  let s := { s with r21 := bumpII s.r21 i pr 1 }
  if 1 < getII s.r21 i pr 0 then { s with amR21 := s.amR21.set cn (codPos P j i) }
  else s

/-- Cell pass, R2 (curriculum): for every curriculum `k`, increment
`r22[i][k]` when the course belongs to it; the witness test `r22[i][k] > 1`
is performed for every `k`, in the source as well. -/
def passoR22Step (P : Problem) (i j cn : Nat) (dsc : Disciplina) (s : Est) (k : Nat) :
    Est :=
  let s := if dsc.cursos.getD k 0 = 1 then { s with r22 := bumpII s.r22 i k 1 } else s
  if 1 < getII s.r22 i k 0 then { s with amR22 := s.amR22.set cn (codPos P j i) }
  else s

def passoR22 (P : Problem) (i j cn : Nat) (dsc : Disciplina) (s : Est) : Est :=
  (List.range P.cursos).foldl (passoR22Step P i j cn dsc) s

/-- Cell pass, R4: unavailable slot costs 1e6, bumps the counter and
records the witness. -/
def passoR4 (P : Problem) (c : Int) (i j : Nat) (acc : Int × Est) : Int × Est :=
  if restricaoR4 P c i then
    (acc.1 + 1000000,
     { acc.2 with amR4 := acc.2.amR4.set c.toNat (codPos P j i),
                  viol := bumpI acc.2.viol 4 1 })
  else acc

/-- Cell pass, R7: over-capacity excess is added to `fo` and to the
counter; the largest excess per course is kept as witness. -/
def passoR7 (P : Problem) (cn i j : Nat) (dsc : Disciplina) (acc : Int × Est) :
    Int × Est :=
  let sub := dsc.alunos - (P.salas.getD j default).capacidade
  if 0 < sub then
    let s := { acc.2 with viol := bumpI acc.2.viol 7 sub }
    let s := if (s.amR7.getD cn (-1, -1)).1 < sub
             then { s with amR7 := s.amR7.set cn (sub, codPos P j i) } else s
    (acc.1 + sub, s)
  else acc

/-- Cell pass, R8: first room is recorded in `r8[c]`; a different room
costs 1 and appends a packed position to `aux_mov_r8` (guarded by
`total_periodos`). -/
def passoR8 (P : Problem) (cn i j : Nat) (acc : Int × Est) : Int × Est :=
  if acc.2.r8.getD cn (-1) = -1 then
    (acc.1, { acc.2 with r8 := acc.2.r8.set cn (j : Int) })
  else if acc.2.r8.getD cn (-1) ≠ (j : Int) then
    let s := { acc.2 with viol := bumpI acc.2.viol 8 1 }
    let s := if s.viol.getD 8 0 < (TP P : Int)
             then { s with amR8 := s.amR8.set (s.viol.getD 8 0).toNat (codPos P j i) }
             else s
    (acc.1 + 1, s)
  else acc

/-- Cell pass, R9: mark the teacher's day, never unmarking. -/
def passoR9 (P : Problem) (pr i : Nat) (s : Est) : Est :=
  if getII s.r9 pr (i / P.periodos_dia) 0 < 1 then
    { s with r9 := setII s.r9 pr (i / P.periodos_dia) 1 }
  else s

/-- Cell pass, R10: room-type mismatch (strict `≠`) costs 1e6. -/
def passoR10 (P : Problem) (cn i j : Nat) (dsc : Disciplina) (acc : Int × Est) :
    Int × Est :=
  if dsc.tipo_sala ≠ (P.salas.getD j default).tipo_sala then
    (acc.1 + 1000000,
     { acc.2 with viol := bumpI acc.2.viol 10 1,
                  amR10 := acc.2.amR10.set cn (dsc.tipo_sala, codPos P j i) })
  else acc

/-- Cell pass, R11: count the course's lectures on the day, recording a
witness position once the count exceeds 1. -/
def passoR11 (P : Problem) (c : Int) (cn i j : Nat) (s : Est) : Est :=
  let s := { s with r11 := bumpII s.r11 (i / P.periodos_dia) cn 1 }
  if 1 < getII s.r11 (i / P.periodos_dia) cn 0 then
    { s with amR11 := setII s.amR11 i j c }
  else s

/-- One grid cell of the main evaluation loop of `calcula_FO`: all the
per-cell updates, in source order, skipped if the cell is empty. -/
def passo (P : Problem) (g : Grid) (acc : Int × Est) (i j : Nat) : Int × Est :=
  let c := getCell g i j
  if c = -1 then acc
  else
    let cn := c.toNat
    let dsc := P.disc.getD cn default
    let s := passoR1 cn acc.2
    let s := passoR21 P i j cn dsc.prof s
    let s := passoR22 P i j cn dsc s
    let acc2 := passoR4 P c i j (acc.1, s)
    let s := { acc2.2 with r5 := bumpII acc2.2.r5 cn (i / P.periodos_dia) 1 }
    let r6 := restricaoR6 P g c i j s
    let acc3 := passoR7 P cn i j dsc (acc2.1 + r6.1, r6.2)
    let acc4 := passoR8 P cn i j acc3
    let s := passoR9 P dsc.prof i acc4.2
    let acc5 := passoR10 P cn i j dsc (acc4.1, s)
    (acc5.1, passoR11 P c cn i j acc5.2)

/-- The cell visit order of the nested `for` loops: period-major. -/
def celulas (P : Problem) : List (Nat × Nat) :=
  (List.range (TP P)).bind (fun i => (List.range (NS P)).map (fun j => (i, j)))

/-- The `restricoes_violadas[2]` update: `= d` when still negative,
`+= d` otherwise (`d` is 1 for a teacher conflict, 1000 for one of
curriculum). -/
def bump2 (viol : List Int) (d : Int) : List Int :=
  if viol.getD 2 0 < 0 then viol.set 2 d else viol.set 2 (viol.getD 2 0 + d)

/-- Post-pass R2 accumulation from `r21`/`r22`: each conflicting
(period, teacher) pair costs `1e6·(count−1)` and bumps the low component;
each (period, curriculum) pair bumps the high radix-1000 component. -/
def posR2Prof (P : Problem) (i : Nat) (acc : Int × Est) (j : Nat) : Int × Est :=
  let v := getII acc.2.r21 i j 0
  if 1 < v then
    (acc.1 + 1000000 * (v - 1), { acc.2 with viol := bump2 acc.2.viol 1 })
  else acc

def posR2Cur (P : Problem) (i : Nat) (acc : Int × Est) (j : Nat) : Int × Est :=
  let v := getII acc.2.r22 i j 0
  if 1 < v then
    (acc.1 + 1000000 * (v - 1), { acc.2 with viol := bump2 acc.2.viol 1000 })
  else acc

def posR2Per (P : Problem) (acc : Int × Est) (i : Nat) : Int × Est :=
  (List.range P.cursos).foldl (posR2Cur P i)
    ((List.range P.professores).foldl (posR2Prof P i) acc)

def posR2 (P : Problem) (acc : Int × Est) : Int × Est :=
  (List.range (TP P)).foldl (posR2Per P) acc

/-- Post-pass R1 and R5 per course: `1e6·|r1[i]−aulas|` plus
`5·(minDias − used_days)` when positive. -/
def posR1R5Step (P : Problem) (acc : Int × Est) (i : Nat) : Int × Est :=
  let d := P.disc.getD i default
  let fo := if acc.2.r1.getD i 0 ≠ d.aulas
            then acc.1 + 1000000 * modulo (acc.2.r1.getD i 0) d.aulas
            else acc.1
  let r5aux : Int :=
    (((List.range P.dias).filter (fun j => 0 < getII acc.2.r5 i j 0)).length : Nat)
  if r5aux < d.minDias then
    (fo + 5 * (d.minDias - r5aux),
     { acc.2 with viol := bumpI acc.2.viol 5 r5aux,
                  amR5 := acc.2.amR5.set i r5aux })
  else (fo, acc.2)

def posR1R5 (P : Problem) (acc : Int × Est) : Int × Est :=
  (List.range (ND P)).foldl (posR1R5Step P) acc

/-- Post-pass R9 per teacher: more than two teaching days cost
`5·(days−2)`. -/
def posR9Step (P : Problem) (acc : Int × Est) (i : Nat) : Int × Est :=
  let dca : Int :=
    (((List.range P.dias).filter (fun j => 0 < getII acc.2.r9 i j 0)).length : Nat)
  if 2 < dca then
    (acc.1 + 5 * (dca - 2),
     { acc.2 with viol := bumpI acc.2.viol 9 (dca - 2),
                  amR9 := acc.2.amR9.set i dca })
  else acc

def posR9 (P : Problem) (acc : Int × Est) : Int × Est :=
  (List.range P.professores).foldl (posR9Step P) acc

/-- Post-pass R11: residual same-day duplicates cost `1e6·(count−1)`. -/
def posR11Disc (P : Problem) (i : Nat) (acc : Int × Est) (j : Nat) : Int × Est :=
  let v := getII acc.2.r11 i j 0
  if 1 < v then
    (acc.1 + 1000000 * (v - 1), { acc.2 with viol := bumpI acc.2.viol 11 (v - 1) })
  else acc

def posR11Dia (P : Problem) (acc : Int × Est) (i : Nat) : Int × Est :=
  (List.range (ND P)).foldl (posR11Disc P i) acc

def posR11 (P : Problem) (acc : Int × Est) : Int × Est :=
  (List.range P.dias).foldl (posR11Dia P) acc

/-- One cell visit, uncurried over the `(period, room)` pair. -/
def passoCel (P : Problem) (g : Grid) (acc : Int × Est) (ij : Nat × Nat) : Int × Est :=
  passo P g acc ij.1 ij.2

/-- The full evaluator `calcula_FO`: reset every index (discarding the
previous contents `s0` entirely, as the C initialization block does), run
the single pass over the grid, then the post-processing accumulations.
Returns the objective together with the refreshed index state. -/
def calcula_FO (P : Problem) (cfg : Cfg) (s0 : Est) (g : Grid) : Int × Est :=
  let inicio : Int × Est := (0, resetEst P cfg)
  let acc := (celulas P).foldl (passoCel P g) inicio
  posR11 P (posR9 P (posR1R5 P (posR2 P acc)))

/-- The all-empty grid produced by `criaMatriz`. -/
def gradeVazia (P : Problem) : Grid := mat (TP P) (NS P) (-1)

/-- The 32-bit two's-complement wrap: the value a C `int` stores when
assigned the mathematical total `x` on the common targets. -/
def wrap32 (x : Int) : Int := (x + 2 ^ 31) % 2 ^ 32 - 2 ^ 31

/-- The objective as the C program stores it: `calcula_FO` returns `int`
and `Matriz.fo` is `int`, both 32-bit on the targeted platforms, so the
mathematical total is wrapped. -/
def calcula_FO_int (P : Problem) (cfg : Cfg) (s0 : Est) (g : Grid) : Int :=
  wrap32 (calcula_FO P cfg s0 g).1

/-! ### Claim-facing derived quantities for the evaluator -/

/-- Number of lectures of teacher `t` in period `p` of grid `g` (columns
are the rooms). -/
def contaProf (P : Problem) (g : Grid) (p t : Nat) : Nat :=
  (List.range (NS P)).countP (fun j =>
    decide (getCell g p j ≠ -1 ∧ (P.disc.getD (getCell g p j).toNat default).prof = t))

/-- Number of lectures of curriculum `k` in period `p` of grid `g`. -/
def contaCurso (P : Problem) (g : Grid) (p k : Nat) : Nat :=
  (List.range (NS P)).countP (fun j =>
    decide (getCell g p j ≠ -1 ∧ (P.disc.getD (getCell g p j).toNat default).cursos.getD k 0 = 1))

/-- Number of (period, teacher) pairs with more than one lecture. -/
def tpG (P : Problem) (g : Grid) : Nat :=
  ((List.range (TP P)).map (fun p =>
    (List.range P.professores).countP (fun t => decide (1 < contaProf P g p t)))).sum

/-- Number of (period, curriculum) pairs with more than one lecture. -/
def cpG (P : Problem) (g : Grid) : Nat :=
  ((List.range (TP P)).map (fun p =>
    (List.range P.cursos).countP (fun k => decide (1 < contaCurso P g p k)))).sum

/-- The agreed radix-1000 composition of `violations[2]`: `-1` when there
is no conflict, otherwise teacher conflicts plus 1000 times curriculum
conflicts. -/
def encPar (a b : Nat) : Int := if a + b = 0 then -1 else (a : Int) + 1000 * b

/-- One course's contribution to the objective of the all-empty grid: the
R1 term `1e6·|lecture_count|` plus the R5 term `5·minDias` when positive. -/
def custoVazio (P : Problem) (i : Nat) : Int :=
  let d := P.disc.getD i default
  1000000 * (d.aulas.natAbs : Int) + if 0 < d.minDias then 5 * d.minDias else 0

/-- Objective of the all-empty grid as the code computes it: the R1 term
plus the R5 minimum-days term, per course. -/
def foVazia (P : Problem) : Int :=
  ((List.range (ND P)).map (custoVazio P)).sum

/-- Objective of the all-empty grid as the specification claims it:
`Σ_c 1e6 · lecture_count[c]` and nothing else. -/
def foVaziaSpec (P : Problem) : Int :=
  ((List.range (ND P)).map (fun i =>
    1000000 * ((P.disc.getD i default).aulas.natAbs : Int))).sum

/-! ### Simulated Annealing driver

The inner-loop body of `SA`.  The neighbor `viz` (produced in the C code
by `copiaMatriz`, `geraViz` and `calcula_FO`) and the Metropolis draw
outcome (`randomDouble < exp(-delta/T)`, a floating-point comparison) are
oracle inputs; everything `SA` does with them is modelled exactly. -/

/-- A solution: the `Matriz` struct (`fo` plus the grid). -/
structure Sol where
  fo : Int
  n : Grid
  deriving DecidableEq, Inhabited, Repr

/-- One iteration of the inner SA loop: `delta = (viz.fo - atual.fo) * 4`;
accept improving moves, updating `melhor` only when the new `atual`
strictly improves on it; otherwise accept with the Metropolis draw.  The
state is the pair `(atual, melhor)`. -/
def passoSA (st : Sol × Sol) (viz : Sol) (aceitaPior : Bool) : Sol × Sol :=
  let delta := (viz.fo - st.1.fo) * 4
  if delta < 0 then
    if viz.fo < st.2.fo then (viz, viz) else (viz, st.2)
  else if aceitaPior then (viz, st.2) else st

/-- Run the SA iterations over a list of oracle events. -/
def execSA (st : Sol × Sol) (evs : List (Sol × Bool)) : Sol × Sol :=
  evs.foldl (fun st ev => passoSA st ev.1 ev.2) st

/-- The `SA` function: `atual` and `melhor` both start as copies of the
initial solution; the best solution found is returned. -/
def SA (inicial : Sol) (evs : List (Sol × Bool)) : Sol :=
  (execSA (inicial, inicial) evs).2

/-! ### Initial constructor `solucaoInicial` -/

/-- Draw `randomInt(0, n-1)` from the oracle stream. -/
def rnd0 (o : List Nat) (n : Nat) : Nat × List Nat := (o.headD 0 % n, o.tail)

/-- Draw `randomInt(1, n)` from the oracle stream. -/
def rnd1 (o : List Nat) (n : Nat) : Nat × List Nat := (1 + o.headD 0 % n, o.tail)

/-- One draw of the `solucaoInicial` placement loop for course `j`: the
primary test accepts an empty cell with sufficient capacity, room type
`>=` the required type and no R4 unavailability (placing decrements the
failure counter by 3); a failed draw increments the counter, and once the
counter exceeds 2 any empty cell is taken regardless of compatibility. -/
def passoInicial (P : Problem) (j : Nat) (g : Grid) (atr cont : Int) (o : List Nat) :
    Grid × Int × Int × List Nat :=
  let (i, o) := rnd0 o (TP P)
  let (k, o) := rnd0 o (NS P)
  let r :=
    if getCell g i k = -1 ∧
       (P.salas.getD k default).capacidade ≥ (P.disc.getD j default).alunos ∧
       restricaoR4 P (j : Int) i = false ∧
       (P.salas.getD k default).tipo_sala ≥ (P.disc.getD j default).tipo_sala
    then (setCell g i k (j : Int), atr - 1, cont - 3)
    else (g, atr, cont + 1)
  if 2 < r.2.2 ∧ getCell r.1 i k = -1 then
    (setCell r.1 i k (j : Int), r.2.1 - 1, r.2.2 - 3, o)
  else (r.1, r.2.1, r.2.2, o)

/-- The `while(atribuicoes > 0)` loop of `solucaoInicial` for one course,
with fuel for the unbounded retries. -/
def alocaCurso (P : Problem) (j : Nat) :
    Grid → Int → Int → List Nat → Nat → Grid × List Nat
  | g, _, _, o, 0 => (g, o)
  | g, atr, cont, o, fuel + 1 =>
    if 0 < atr then
      let r := passoInicial P j g atr cont o
      alocaCurso P j r.1 r.2.1 r.2.2.1 r.2.2.2 fuel
    else (g, o)

/-- The constructor `solucaoInicial`: for each course in order, place its
lectures starting from an empty grid with failure counter 0. -/
def solucaoInicial (P : Problem) (o : List Nat) (fuel : Nat) : Grid × List Nat :=
  (List.range (ND P)).foldl (fun (acc : Grid × List Nat) j =>
    alocaCurso P j acc.1 (P.disc.getD j default).aulas 0 acc.2 fuel)
    (gradeVazia P, o)

/-! ### Neighborhood generator `geraViz`

Every loop `while(cond)` that retries random draws is given a fuel
argument; exhausting the fuel corresponds to the C loop not having
terminated yet, and returns the work done so far without the
post-loop bookkeeping.  The temperature only determines `tentativas`
(2..6), which is taken as a parameter. -/

/-- Swap `n[i][j]` and `n[k][l]` (the three-assignment pattern of the C
code). -/
def troca (g : Grid) (i j k l : Nat) : Grid :=
  let a := getCell g i j
  let b := getCell g k l
  setCell (setCell g i j b) k l a

/-- Relocation `aux2 = n[pi][pj]; n[pi][pj] = -1; n[qi][qj] = aux2`. -/
def moveCell (g : Grid) (pi2 pj qi qj : Nat) : Grid :=
  let a := getCell g pi2 pj
  setCell (setCell g pi2 pj (-1)) qi qj a

/-- Relocation `n[qi][qj] = n[pi][pj]; n[pi][pj] = -1`. -/
def moveCell2 (g : Grid) (pi2 pj qi qj : Nat) : Grid :=
  setCell (setCell g qi qj (getCell g pi2 pj)) pi2 pj (-1)

/-- Decode the room from a packed witness `w = sal·total_periodos + per`. -/
def decodSal (P : Problem) (w : Int) : Nat := (w.tdiv (TP P : Int)).toNat

/-- Decode the period from a packed witness. -/
def decodPer (P : Problem) (w : Int) : Nat :=
  (w - w.tdiv (TP P : Int) * (TP P : Int)).toNat

/-- The witness-picking loop shared by the R2/R7/R10 move classes: draw a
random index and accept it if it holds a witness, falling back to a
linearly advancing scan index `i`. -/
def buscaTest (tst : Nat → Bool) (nd : Nat) :
    List Nat → Nat → Nat → Option (Nat × List Nat)
  | _, _, 0 => none
  | o, i, fuel + 1 =>
    let r := rnd0 o nd
    if tst r.1 then some (r.1, r.2)
    else if tst i then some (i, r.2)
    else buscaTest tst nd r.2 (i + 1) fuel

/-- The fully random swap loop (movement 11 and the R2 fallbacks):
performs `cnt` swaps, each requiring one of the two drawn cells to be
non-empty. -/
def trocasQualquer (P : Problem) : Grid → List Nat → Nat → Nat → Grid × List Nat
  | g, o, _, 0 => (g, o)
  | g, o, cnt, fuel + 1 =>
    if cnt = 0 then (g, o)
    else
      let (i, o) := rnd0 o (TP P)
      let (j, o) := rnd0 o (NS P)
      let (k, o) := rnd0 o (TP P)
      let (l, o) := rnd0 o (NS P)
      if getCell g i j ≠ -1 ∨ getCell g k l ≠ -1 then
        trocasQualquer P (troca g i j k l) o (cnt - 1) fuel
      else trocasQualquer P g o cnt fuel

/-- Random swaps within the same period (movement 9). -/
def trocasMesmoPeriodo (P : Problem) : Grid → List Nat → Nat → Nat → Grid × List Nat
  | g, o, _, 0 => (g, o)
  | g, o, cnt, fuel + 1 =>
    if cnt = 0 then (g, o)
    else
      let (i, o) := rnd0 o (TP P)
      let (j, o) := rnd0 o (NS P)
      let (l, o) := rnd0 o (NS P)
      if getCell g i j ≠ -1 ∨ getCell g i l ≠ -1 then
        trocasMesmoPeriodo P (troca g i j i l) o (cnt - 1) fuel
      else trocasMesmoPeriodo P g o cnt fuel

/-- Random swaps within the same room (movement 10). -/
def trocasMesmaSala (P : Problem) : Grid → List Nat → Nat → Nat → Grid × List Nat
  | g, o, _, 0 => (g, o)
  | g, o, cnt, fuel + 1 =>
    if cnt = 0 then (g, o)
    else
      let (i, o) := rnd0 o (TP P)
      let (j, o) := rnd0 o (NS P)
      let (k, o) := rnd0 o (TP P)
      if getCell g i j ≠ -1 ∨ getCell g k j ≠ -1 then
        trocasMesmaSala P (troca g i j k j) o (cnt - 1) fuel
      else trocasMesmaSala P g o cnt fuel

/-- Target loop of the R2-teacher move: empty cell (relocate) or a cell
whose teacher is idle in that period (swap); the loop exits once the
sentinel `aux2` differs from `-2`. -/
def alvo1 (P : Problem) (s : Est) (per sal : Nat) :
    Grid → List Nat → Nat → Option (Grid × List Nat)
  | _, _, 0 => none
  | g, o, fuel + 1 =>
    let (k, o) := rnd0 o (TP P)
    let (l, o) := rnd0 o (NS P)
    if getCell g k l = -1 then
      let aux2 := getCell g per sal
      let g1 := moveCell g per sal k l
      if aux2 = -2 then alvo1 P s per sal g1 o fuel else some (g1, o)
    else if getII s.r21 k (P.disc.getD (getCell g k l).toNat default).prof 0 = 0 then
      let aux2 := getCell g k l
      let g1 := troca g k l per sal
      if aux2 = -2 then alvo1 P s per sal g1 o fuel else some (g1, o)
    else alvo1 P s per sal g o fuel

/-- Movement 1 (fix a teacher conflict): when the low radix-1000 part of
`violations[2]` exceeds 1, pick an `aux_mov_r21` witness, relocate or
swap it, then clear the witness and decrement `violations[2]`; otherwise
perform random swaps. -/
def mov1 (P : Problem) (tent : Nat) (g : Grid) (s : Est) (o : List Nat) (fuel : Nat) :
    Grid × Est × List Nat :=
  if 1 < (s.viol.getD 2 0).tmod 1000 then
    match buscaTest (fun j => decide (s.amR21.getD j (-1) ≠ -1)) (ND P) o 0 fuel with
    | none => (g, s, o)
    | some (aux, o) =>
      let w := s.amR21.getD aux (-1)
      match alvo1 P s (decodPer P w) (decodSal P w) g o fuel with
      | none => (g, s, o)
      | some (g1, o) =>
        (g1, { s with amR21 := s.amR21.set aux (-1),
                      viol := s.viol.set 2 (s.viol.getD 2 0 - 1) }, o)
  else
    let (cnt, o) := rnd1 o tent
    let r := trocasQualquer P g o cnt fuel
    (r.1, s, r.2)

/-- Target loop of the R2-curriculum move: empty cell, or any cell in a
different period. -/
def alvo2 (P : Problem) (per sal : Nat) :
    Grid → List Nat → Nat → Option (Grid × List Nat)
  | _, _, 0 => none
  | g, o, fuel + 1 =>
    let (k, o) := rnd0 o (TP P)
    let (l, o) := rnd0 o (NS P)
    if getCell g k l = -1 then
      let aux2 := getCell g per sal
      let g1 := moveCell g per sal k l
      if aux2 = -2 then alvo2 P per sal g1 o fuel else some (g1, o)
    else if k ≠ per then
      let aux2 := getCell g k l
      let g1 := troca g k l per sal
      if aux2 = -2 then alvo2 P per sal g1 o fuel else some (g1, o)
    else alvo2 P per sal g o fuel

/-- Movement 2 (fix a curriculum conflict): when `violations[2] > 1000`,
pick an `aux_mov_r22` witness, move it, clear it and subtract 1000;
otherwise perform random swaps. -/
def mov2 (P : Problem) (tent : Nat) (g : Grid) (s : Est) (o : List Nat) (fuel : Nat) :
    Grid × Est × List Nat :=
  if 1000 < s.viol.getD 2 0 then
    match buscaTest (fun j => decide (s.amR22.getD j (-1) ≠ -1)) (ND P) o 0 fuel with
    | none => (g, s, o)
    | some (aux, o) =>
      let w := s.amR22.getD aux (-1)
      match alvo2 P (decodPer P w) (decodSal P w) g o fuel with
      | none => (g, s, o)
      | some (g1, o) =>
        (g1, { s with amR22 := s.amR22.set aux (-1),
                      viol := s.viol.set 2 (s.viol.getD 2 0 - 1000) }, o)
  else
    let (cnt, o) := rnd1 o tent
    let r := trocasQualquer P g o cnt fuel
    (r.1, s, r.2)

/-- Witness pick for the R6 move: a random probe plus a deterministic
row-major scan counter `(k, l)`. -/
def buscaR6 (am6 : List (List Int)) (tp ns : Nat) :
    List Nat → Nat → Nat → Nat → Option ((Nat × Nat) × List Nat)
  | _, _, _, 0 => none
  | o, k, l, fuel + 1 =>
    let (i, o) := rnd0 o tp
    let (j, o) := rnd0 o ns
    if getII am6 i j (-1) ≠ -1 then some ((i, j), o)
    else if getII am6 k l (-1) ≠ -1 then some ((k, l), o)
    else
      let l2 := (l + 1) % ns
      let k2 := if l2 = 0 then (k + 1) % tp else k
      buscaR6 am6 tp ns o k2 l2 fuel

/-- Target loop of the R6 move: empty cell in another period, another R6
witness, or (after `tentativas` draws) any cell; swapping with another
witness also clears that witness. -/
def alvoR6 (P : Problem) (tent ri rj : Nat) :
    Grid → List (List Int) → List Nat → Nat → Nat →
      Bool × Grid × List (List Int) × List Nat
  | g, am6, o, _, 0 => (false, g, am6, o)
  | g, am6, o, aux3, fuel + 1 =>
    let (k, o) := rnd0 o (TP P)
    let (l, o) := rnd0 o (NS P)
    if getCell g k l = -1 ∧ ri ≠ k then
      (true, moveCell2 g ri rj k l, am6, o)
    else if getII am6 k l (-1) ≠ -1 ∧ ri ≠ k then
      let aux2 := getCell g k l
      let g1 := troca g k l ri rj
      let am1 := setII am6 k l (-1)
      if aux2 = -2 then alvoR6 P tent ri rj g1 am1 o (aux3 + 1) fuel
      else (true, g1, am1, o)
    else if tent ≤ aux3 ∧ ri ≠ k then
      let aux2 := getCell g k l
      let g1 := troca g k l ri rj
      let am1 := setII am6 k l (-1)
      if aux2 = -2 then alvoR6 P tent ri rj g1 am1 o (aux3 + 1) fuel
      else (true, g1, am1, o)
    else if tent ≤ aux3 then
      let aux2 := getCell g ri rj
      let g1 := troca g ri rj k l
      if aux2 = -2 then alvoR6 P tent ri rj g1 am6 o (aux3 + 1) fuel
      else (true, g1, am6, o)
    else alvoR6 P tent ri rj g am6 o (aux3 + 1) fuel

/-- Movement 3 (fix an isolated lecture, R6): on success clear the used
witness and subtract 2 from `violations[6]`. -/
def mov3 (P : Problem) (tent : Nat) (g : Grid) (s : Est) (o : List Nat) (fuel : Nat) :
    Grid × Est × List Nat :=
  match buscaR6 s.amR6 (TP P) (NS P) o 0 0 fuel with
  | none => (g, s, o)
  | some ((ri, rj), o) =>
    let r := alvoR6 P tent ri rj g s.amR6 o 0 fuel
    if r.1 then
      (r.2.1, { s with amR6 := setII r.2.2.1 ri rj (-1),
                       viol := s.viol.set 6 (s.viol.getD 6 0 - 2) }, r.2.2.2)
    else (r.2.1, { s with amR6 := r.2.2.1 }, r.2.2.2)

/-- Target loop of the R7 move: the acceptance ladder on capacities, with
forced swaps after `tentativas` draws. -/
def alvo4 (P : Problem) (tent : Nat) (s : Est) (auxd per sal : Nat) :
    Grid → List Nat → Nat → Nat → Bool × Grid × List Nat
  | g, o, _, 0 => (false, g, o)
  | g, o, aux3, fuel + 1 =>
    let (k, o) := rnd0 o (TP P)
    let (l, o) := rnd0 o (NS P)
    let cap := (P.salas.getD l default).capacidade
    let alunosA := (P.disc.getD auxd default).alunos
    if getCell g k l = -1 ∧ cap ≥ alunosA then
      let aux2 := getCell g per sal
      let g1 := moveCell g per sal k l
      if aux2 = -2 then alvo4 P tent s auxd per sal g1 o (aux3 + 1) fuel
      else (true, g1, o)
    else if getCell g k l ≠ -1 ∧ cap ≥ alunosA ∧
            (s.amR7.getD auxd (-1, -1)).1 <
              (P.disc.getD (getCell g k l).toNat default).alunos - cap then
      let aux2 := getCell g per sal
      let g1 := troca g per sal k l
      if aux2 = -2 then alvo4 P tent s auxd per sal g1 o (aux3 + 1) fuel
      else (true, g1, o)
    else if getCell g k l ≠ -1 ∧
            cap < (P.disc.getD (getCell g k l).toNat default).alunos then
      let aux2 := getCell g per sal
      let g1 := troca g per sal k l
      if aux2 = -2 then alvo4 P tent s auxd per sal g1 o (aux3 + 1) fuel
      else (true, g1, o)
    else if tent ≤ aux3 ∧ cap < (P.salas.getD sal default).capacidade then
      let aux2 := getCell g per sal
      let g1 := troca g per sal k l
      if aux2 = -2 then alvo4 P tent s auxd per sal g1 o (aux3 + 1) fuel
      else (true, g1, o)
    else if tent ≤ aux3 then
      let aux2 := getCell g per sal
      let g1 := troca g per sal k l
      if aux2 = -2 then alvo4 P tent s auxd per sal g1 o (aux3 + 1) fuel
      else (true, g1, o)
    else alvo4 P tent s auxd per sal g o (aux3 + 1) fuel

/-- Movement 4 (fix over-capacity, R7): on success decrement
`violations[7]` and clear the `aux_mov_r7` witness. -/
def mov4 (P : Problem) (tent : Nat) (g : Grid) (s : Est) (o : List Nat) (fuel : Nat) :
    Grid × Est × List Nat :=
  match buscaTest (fun j => decide ((s.amR7.getD j (-1, -1)).1 ≠ -1)) (ND P) o 0 fuel with
  | none => (g, s, o)
  | some (aux, o) =>
    let w := (s.amR7.getD aux (-1, -1)).2
    let r := alvo4 P tent s aux (decodPer P w) (decodSal P w) g o 0 fuel
    if r.1 then
      (r.2.1, { s with viol := s.viol.set 7 (s.viol.getD 7 0 - 1),
                       amR7 := s.amR7.set aux (-1, -1) }, r.2.2)
    else (r.2.1, s, r.2.2)

/-- Target loop of the R8 move: the target room is always `r8` of the
witnessed course; empty cell relocates, otherwise a forced swap after
`tentativas` draws. -/
def alvo5 (P : Problem) (tent : Nat) (s : Est) (per sal : Nat) :
    Grid → List Nat → Nat → Nat → Bool × Grid × List Nat
  | g, o, _, 0 => (false, g, o)
  | g, o, aux3, fuel + 1 =>
    let (i, o) := rnd0 o (TP P)
    let j := (s.r8.getD (getCell g per sal).toNat (-1)).toNat
    if getCell g i j = -1 then
      (true, moveCell2 g per sal i j, o)
    else if tent ≤ aux3 then
      let aux2 := getCell g per sal
      let g1 := troca g per sal i j
      if aux2 = -2 then alvo5 P tent s per sal g1 o (aux3 + 1) fuel
      else (true, g1, o)
    else alvo5 P tent s per sal g o (aux3 + 1) fuel

/-- Movement 5 (fix room instability, R8): picks a random entry of
`aux_mov_r8`, moves the lecture, then decrements `violations[8]` but
clears `r8[aux]` (not the witness array). -/
def mov5 (P : Problem) (tent : Nat) (g : Grid) (s : Est) (o : List Nat) (fuel : Nat) :
    Grid × Est × List Nat :=
  let v8 := s.viol.getD 8 0
  let r0 := if (TP P : Int) ≤ v8 then rnd0 o (TP P) else rnd0 o (v8.toNat + 1)
  let aux := r0.1
  let w := s.amR8.getD aux (-1)
  let r := alvo5 P tent s (decodPer P w) (decodSal P w) g r0.2 0 fuel
  if r.1 then
    (r.2.1, { s with viol := s.viol.set 8 (v8 - 1), r8 := s.r8.set aux (-1) }, r.2.2)
  else (r.2.1, s, r.2.2)

/-- The bounded (100 draws) search for a teacher violating R9. -/
def buscaProf (am : List Int) (np : Nat) : List Nat → Nat → Option Nat × List Nat
  | o, 0 => (none, o)
  | o, fuel + 1 =>
    let (i, o) := rnd0 o np
    if 2 < am.getD i (-1) then (some i, o)
    else buscaProf am np o fuel

/-- The redraw loop choosing a destination day different from the source
day (when the teacher works more than one day). -/
def escolheDestino (dt : List Nat) (df : Nat) (nd : Nat) :
    Nat → List Nat → Nat → Nat × List Nat
  | dd, o, 0 => (dd, o)
  | dd, o, fuel + 1 =>
    if dd = df ∧ 1 < nd then
      let (r, o) := rnd0 o nd
      escolheDestino dt df nd (dt.getD r 0) o fuel
    else (dd, o)

/-- Deterministic scan for a lecture of teacher `pv` on day `df`. -/
def achaAula (P : Problem) (g : Grid) (pv df : Nat) : Option (Nat × Nat) :=
  ((List.range P.periodos_dia).bind (fun q =>
    (List.range (NS P)).map (fun sl => (df * P.periodos_dia + q, sl)))).find?
    (fun ps => decide (getCell g ps.1 ps.2 ≠ -1 ∧
      (P.disc.getD (getCell g ps.1 ps.2).toNat default).prof = pv))

/-- Target loop of the R9 move, bounded by `tentativas * 2` draws inside
the destination day. -/
def alvo6 (P : Problem) (tent : Nat) (am9 : List Int) (pf sf dd : Nat) :
    Grid → List Nat → Nat → Nat → Grid × List Nat
  | g, o, _, 0 => (g, o)
  | g, o, aux3, fuel + 1 =>
    let (k0, o) := rnd0 o P.periodos_dia
    let k := dd * P.periodos_dia + k0
    let (l, o) := rnd0 o (NS P)
    if getCell g k l = -1 then
      (moveCell2 g pf sf k l, o)
    else if am9.getD (P.disc.getD (getCell g k l).toNat default).prof (-1) ≤ 2 then
      let aux2 := getCell g k l
      let g1 := troca g k l pf sf
      if aux2 = -2 then alvo6 P tent am9 pf sf dd g1 o (aux3 + 1) fuel else (g1, o)
    else if tent ≤ aux3 then
      let aux2 := getCell g k l
      let g1 := troca g k l pf sf
      if aux2 = -2 then alvo6 P tent am9 pf sf dd g1 o (aux3 + 1) fuel else (g1, o)
    else alvo6 P tent am9 pf sf dd g o (aux3 + 1) fuel

/-- Movement 6 (fix teacher spread, R9): find a violating teacher, move
one of its lectures into another of its working days.  No witness is
cleared and no violation counter is decremented by this move class. -/
def mov6 (P : Problem) (tent : Nat) (g : Grid) (s : Est) (o : List Nat) (fuel : Nat) :
    Grid × Est × List Nat :=
  let r := buscaProf s.amR9 P.professores o 100
  match r.1 with
  | none => (g, s, r.2)
  | some pv =>
    let dt := (List.range P.dias).filter (fun d => decide (getII s.r9 pv d 0 = 1))
    let nd := dt.length
    let (rf, o) := rnd0 r.2 nd
    let df := dt.getD rf 0
    let (rd, o) := rnd0 o nd
    let r2 := escolheDestino dt df nd (dt.getD rd 0) o fuel
    match achaAula P g pv df with
    | none => (g, s, r2.2)
    | some (pf, sf) =>
      let r3 := alvo6 P tent s.amR9 pf sf r2.1 g r2.2 0 (tent * 2)
      (r3.1, s, r3.2)

/-- Target loop of the R10 move: the room-type acceptance ladder. -/
def alvo7 (P : Problem) (tent auxd per sal : Nat) :
    Grid → List Nat → Nat → Nat → Bool × Grid × List Nat
  | g, o, _, 0 => (false, g, o)
  | g, o, aux3, fuel + 1 =>
    let (k, o) := rnd0 o (TP P)
    let (l, o) := rnd0 o (NS P)
    let tl := (P.salas.getD l default).tipo_sala
    if getCell g k l = -1 ∧ tl = (P.disc.getD auxd default).tipo_sala then
      let aux2 := getCell g per sal
      let g1 := moveCell g per sal k l
      if aux2 = -2 then alvo7 P tent auxd per sal g1 o (aux3 + 1) fuel
      else (true, g1, o)
    else if getCell g k l ≠ -1 ∧ tl = (P.disc.getD auxd default).tipo_sala ∧
            (P.disc.getD (getCell g k l).toNat default).tipo_sala =
              (P.salas.getD sal default).tipo_sala then
      let aux2 := getCell g per sal
      let g1 := troca g per sal k l
      if aux2 = -2 then alvo7 P tent auxd per sal g1 o (aux3 + 1) fuel
      else (true, g1, o)
    else if getCell g k l ≠ -1 ∧
            (P.disc.getD (getCell g k l).toNat default).tipo_sala ≠ tl then
      let aux2 := getCell g per sal
      let g1 := troca g per sal k l
      if aux2 = -2 then alvo7 P tent auxd per sal g1 o (aux3 + 1) fuel
      else (true, g1, o)
    else if tent ≤ aux3 then
      let aux2 := getCell g per sal
      let g1 := troca g per sal k l
      if aux2 = -2 then alvo7 P tent auxd per sal g1 o (aux3 + 1) fuel
      else (true, g1, o)
    else alvo7 P tent auxd per sal g o (aux3 + 1) fuel

/-- Movement 7 (fix room type, R10): on success decrement
`violations[10]` and clear the `aux_mov_r10` witness. -/
def mov7 (P : Problem) (tent : Nat) (g : Grid) (s : Est) (o : List Nat) (fuel : Nat) :
    Grid × Est × List Nat :=
  match buscaTest (fun j => decide ((s.amR10.getD j (-1, -1)).1 ≠ -1)) (ND P) o 0 fuel with
  | none => (g, s, o)
  | some (aux, o) =>
    let w := (s.amR10.getD aux (-1, -1)).2
    let r := alvo7 P tent aux (decodPer P w) (decodSal P w) g o 0 fuel
    if r.1 then
      (r.2.1, { s with viol := s.viol.set 10 (s.viol.getD 10 0 - 1),
                       amR10 := s.amR10.set aux (-1, -1) }, r.2.2)
    else (r.2.1, s, r.2.2)

/-- Deterministic row-major scan for an R11 witness. -/
def buscaR11 (am11 : List (List Int)) (tp ns : Nat) : Option (Nat × Nat) :=
  ((List.range tp).bind (fun per =>
    (List.range ns).map (fun sl => (per, sl)))).find?
    (fun ps => decide (getII am11 ps.1 ps.2 (-1) ≠ -1))

/-- Target loop of the R11 move, bounded by `tentativas * 3` draws: only
targets in a different day are accepted. -/
def alvo8 (P : Problem) (tent pr sr dia : Nat) :
    Grid → List Nat → Nat → Nat → Grid × List Nat
  | g, o, _, 0 => (g, o)
  | g, o, aux3, fuel + 1 =>
    let (k, o) := rnd0 o (TP P)
    let (l, o) := rnd0 o (NS P)
    let d := k / P.periodos_dia
    if d ≠ dia ∧ getCell g k l = -1 then
      let aux2 := getCell g pr sr
      let g1 := moveCell g pr sr k l
      if aux2 = -2 then alvo8 P tent pr sr dia g1 o (aux3 + 1) fuel else (g1, o)
    else if d ≠ dia then
      let aux2 := getCell g k l
      let g1 := troca g k l pr sr
      if aux2 = -2 then alvo8 P tent pr sr dia g1 o (aux3 + 1) fuel else (g1, o)
    else if tent ≤ aux3 ∧ d ≠ dia then
      let aux2 := getCell g k l
      let g1 := troca g k l pr sr
      if aux2 = -2 then alvo8 P tent pr sr dia g1 o (aux3 + 1) fuel else (g1, o)
    else alvo8 P tent pr sr dia g o (aux3 + 1) fuel

/-- Movement 8 (fix same-day duplicate, R11): after the bounded target
loop the witness is cleared, but `violations[11]` is not decremented. -/
def mov8 (P : Problem) (tent : Nat) (g : Grid) (s : Est) (o : List Nat) :
    Grid × Est × List Nat :=
  match buscaR11 s.amR11 (TP P) (NS P) with
  | none => (g, s, o)
  | some (pr, sr) =>
    let r := alvo8 P tent pr sr (pr / P.periodos_dia) g o 0 (tent * 3)
    (r.1, { s with amR11 := setII s.amR11 pr sr (-1) }, r.2)

/-- The neighborhood generator `geraViz`: draw `movimento ∈ [0, 1000]`,
then walk the guard cascade in source order; `tentativas` abbreviates the
temperature-derived retry count. -/
def geraViz (P : Problem) (tent : Nat) (g : Grid) (s : Est) (o : List Nat) (fuel : Nat) :
    Grid × Est × List Nat :=
  let (m0, o) := rnd0 o 1001
  let m : Int := (m0 : Nat)
  if s.viol.getD 2 0 ≠ -1 ∧ m < 100 + (s.viol.getD 2 0).tmod 1000 * 128 then
    mov1 P tent g s o fuel
  else if s.viol.getD 2 0 ≠ -1 ∧ m < 100 + (s.viol.getD 2 0).tdiv 8 then
    mov2 P tent g s o fuel
  else if s.viol.getD 6 0 ≠ -1 ∧ 100 ≤ m ∧ m < 200 + 2 * s.viol.getD 6 0 then
    mov3 P tent g s o fuel
  else if s.viol.getD 7 0 ≠ -1 ∧ 200 ≤ m ∧ m < 300 + s.viol.getD 7 0 then
    mov4 P tent g s o fuel
  else if s.viol.getD 8 0 ≠ -1 ∧ 300 ≤ m ∧ m < 400 + s.viol.getD 8 0 then
    mov5 P tent g s o fuel
  else if s.viol.getD 9 0 ≠ -1 ∧ 400 ≤ m ∧ m < 500 + s.viol.getD 9 0 * 20 then
    mov6 P tent g s o fuel
  else if s.viol.getD 10 0 ≠ -1 ∧ 500 ≤ m ∧ m < 600 + s.viol.getD 10 0 then
    mov7 P tent g s o fuel
  else if s.viol.getD 11 0 ≠ -1 ∧ 600 ≤ m ∧ m < 700 + s.viol.getD 11 0 * 100 then
    mov8 P tent g s o
  else if 700 ≤ m ∧ m < 800 then
    let (cnt, o) := rnd1 o (tent * 2)
    let r := trocasMesmoPeriodo P g o cnt fuel
    (r.1, s, r.2)
  else if 800 ≤ m ∧ m < 900 then
    let (cnt, o) := rnd1 o (tent * 2)
    let r := trocasMesmaSala P g o cnt fuel
    (r.1, s, r.2)
  else
    let (cnt, o) := rnd1 o tent
    let r := trocasQualquer P g o cnt fuel
    (r.1, s, r.2)

/-! ### Two-phase composition -/

/-- A solution built from a grid by evaluating it (`matriz.fo =
calcula_FO(matriz)`). -/
def mkSol (P : Problem) (cfg : Cfg) (g : Grid) : Sol :=
  { fo := (calcula_FO P cfg default g).1, n := g }

/-- The phase-1 → phase-2 handoff `extraiDiasDaMatriz`: a bitmap marking
for every teacher the days on which some lecture of theirs appears. -/
def extraiDiasDaMatriz (P : Problem) (g : Grid) (numProfs numDias perTotal perDia : Nat) :
    List (List Int) :=
  (List.range perTotal).foldl (fun dso i =>
    (List.range (NS P)).foldl (fun dso jj =>
      let dis := getCell g i jj
      if dis ≠ -1 then
        let pr := (P.disc.getD dis.toNat default).prof
        let dia := i / perDia
        if pr < numProfs ∧ dia < numDias then setII dso pr dia 1 else dso
      else dso) dso) (mat numProfs numDias 0)

/-- One phase of `construcao`: an unreadable input file (modelled as
`none`) yields the sentinel solution with `fo = -1` before any
construction; otherwise build the initial solution and run SA over the
oracle events (each event grid is evaluated by `calcula_FO` exactly as the
inner loop does). -/
def construcao (entrada : Option Problem) (cfg : Cfg) (o : List Nat) (fuel : Nat)
    (evs : List (Grid × Bool)) : Sol :=
  match entrada with
  | none => { fo := -1, n := [] }
  | some P =>
    let ini := mkSol P cfg (solucaoInicial P o fuel).1
    SA ini (evs.map (fun ev => (mkSol P cfg ev.1, ev.2)))

/-- The phase-2 configuration derived from the phase-1 result. -/
def fase2Cfg (P1 : Problem) (g1 : Grid) : Cfg :=
  ⟨true, some (extraiDiasDaMatriz P1 g1 P1.professores P1.dias (TP P1) P1.periodos_dia),
   P1.professores⟩

/-- The exit code of `main`: 1 as soon as a phase returns the `fo = -1`
sentinel, 0 when both phases complete. -/
def mainExit (e1 e2 : Option Problem) (o1 o2 : List Nat) (fuel : Nat)
    (evs1 evs2 : List (Grid × Bool)) : Nat :=
  let integral := construcao e1 cfgSemSemente o1 fuel evs1
  if integral.fo = -1 then 1
  else
    let cfg2 := match e1 with
      | some P1 => fase2Cfg P1 integral.n
      | none => cfgSemSemente
    let noturno := construcao e2 cfg2 o2 fuel evs2
    if noturno.fo = -1 then 1 else 0

/-! ### Well-formedness predicates for `geraViz` states

The C program indexes arrays with packed witness values and with `r8`
contents; states whose witnesses point outside the grid make it read and
write out of bounds (undefined behaviour).  The grid-preservation claims
are therefore stated for states whose witnesses are packed positions
inside the grid. -/

/-- Instance dimensions are positive. -/
def EntradaOK (P : Problem) : Prop :=
  1 ≤ P.periodos_dia ∧ 1 ≤ P.dias ∧ 1 ≤ NS P

/-- A packed witness value: cleared, or a position inside the grid. -/
def TestemunhaOK (P : Problem) (v : Int) : Prop :=
  v = -1 ∨ (0 ≤ v ∧ v < ((NS P * TP P : Nat) : Int))

/-- The witness arrays hold packed in-grid positions and `r8` holds room
ids below the room count. -/
def EstadoOK (P : Problem) (s : Est) : Prop :=
  (∀ v ∈ s.amR21, TestemunhaOK P v) ∧
  (∀ v ∈ s.amR22, TestemunhaOK P v) ∧
  (∀ v ∈ s.amR7, TestemunhaOK P v.2) ∧
  (∀ v ∈ s.amR10, TestemunhaOK P v.2) ∧
  (∀ v ∈ s.amR8, TestemunhaOK P v) ∧
  (∀ v ∈ s.r8, v.toNat < NS P)

/-- The grid has exactly `total_periodos` rows of exactly `salas` cells. -/
def GradeOK (P : Problem) (g : Grid) : Prop :=
  g.length = TP P ∧ ∀ r ∈ g, r.length = NS P

/-- Occurrences of value `v` in a list of cells. -/
def conta (v : Int) : List Int → Nat
  | [] => 0
  | a :: l => conta v l + (if a = v then 1 else 0)

/-- Occurrences of value `v` in the whole grid. -/
def contaG (v : Int) (g : Grid) : Nat := (g.map (conta v)).sum

/-- A matrix with `a` rows of `b` entries each. -/
def Shape2 (m : List (List Int)) (a b : Nat) : Prop :=
  m.length = a ∧ ∀ r ∈ m, r.length = b

/-- The result of applying the `restricoes_violadas[2]` update (`= d` when
negative, else `+= d`) `n` times with a positive `d`. -/
def applyN (v d : Int) (n : Nat) : Int :=
  if n = 0 then v else if v < 0 then (n : Int) * d else v + (n : Int) * d

/-- Teacher-conflict count read off an index state's `r21` table. -/
def tpEst (P : Problem) (s : Est) : Nat :=
  ((List.range (TP P)).map (fun i =>
    (List.range P.professores).countP (fun j => decide (1 < getII s.r21 i j 0)))).sum

/-- Curriculum-conflict count read off an index state's `r22` table. -/
def cpEst (P : Problem) (s : Est) : Nat :=
  ((List.range (TP P)).map (fun i =>
    (List.range P.cursos).countP (fun j => decide (1 < getII s.r22 i j 0)))).sum

/-! ### Concrete instances used by the counterexamples and witnesses -/

/-- A 1-day, 1-period, 1-room instance with one course (1 lecture,
min-days 1). -/
def Pa : Problem :=
  { dias := 1, periodos_dia := 1,
    salas := [{ capacidade := 1, tipo_sala := 1 }],
    disc := [{ prof := 0, aulas := 1, minDias := 1, alunos := 1, tipo_sala := 1,
               cursos := [] }],
    cursos := 0, professores := 1, restricao := [], posicao0 := [-1], posicao1 := [-1] }

/-- A 1×1 instance whose single course requires 3000 lectures, so the
all-empty grid already costs 3·10⁹ > 2³¹−1. -/
def P8 : Problem :=
  { dias := 1, periodos_dia := 1,
    salas := [{ capacidade := 1, tipo_sala := 1 }],
    disc := [{ prof := 0, aulas := 3000, minDias := 0, alunos := 1, tipo_sala := 1,
               cursos := [] }],
    cursos := 0, professores := 1, restricao := [], posicao0 := [-1], posicao1 := [-1] }

/-- A 3-day, 1-period, 1-room instance with one teacher. -/
def Pb : Problem :=
  { dias := 3, periodos_dia := 1,
    salas := [{ capacidade := 1, tipo_sala := 1 }],
    disc := [{ prof := 0, aulas := 1, minDias := 1, alunos := 1, tipo_sala := 1,
               cursos := [] }],
    cursos := 0, professores := 1, restricao := [], posicao0 := [-1], posicao1 := [-1] }

/-- Phase-2 seeding: teacher 0 already works on days 0 and 1. -/
def cfgB : Cfg := ⟨true, some [[1, 1, 0]], 1⟩

/-- A 1-day, 2-period, 2-room instance: room 0 has capacity 0 (too small
for the course's 5 students), room 1 fits. -/
def P7 : Problem :=
  { dias := 1, periodos_dia := 2,
    salas := [{ capacidade := 0, tipo_sala := 1 }, { capacidade := 10, tipo_sala := 1 }],
    disc := [{ prof := 0, aulas := 2, minDias := 1, alunos := 5, tipo_sala := 1,
               cursos := [] }],
    cursos := 0, professores := 1, restricao := [], posicao0 := [-1], posicao1 := [-1] }

/-- State for the R9-move counterexample: teacher 0 works on all 3 days
(`amR9[0] = 3`, `violations[9] = 1`), all witnesses clear. -/
def s6 : Est :=
  { r1 := [1], r21 := mat 3 1 0, r22 := mat 3 0 0, r5 := mat 1 3 0,
    r8 := [-1], r9 := [[1, 1, 1]], r11 := mat 3 1 0,
    viol := [-1, -1, -1, -1, -1, -1, -1, -1, -1, 1, -1, -1],
    amR21 := [-1], amR22 := [-1], amR4 := [-1], amR5 := [-1],
    amR6 := mat 3 1 (-1), amR7 := [(-1, -1)], amR8 := fill 3 (-1),
    amR9 := [3], amR10 := [(-1, -1)], amR11 := mat 3 1 (-1) }

/-- Its grid: the single lecture sits on day 0. -/
def g6 : Grid := [[0], [-1], [-1]]

/-- `s6` with a teacher conflict recorded: `violations[2] = 2` and an
`aux_mov_r21` witness at packed position 0. -/
def sb1 : Est := { s6 with viol := s6.viol.set 2 2, amR21 := [0] }

/-- `s6` with a curriculum conflict recorded: `violations[2] = 2000` and
an `aux_mov_r22` witness at packed position 0. -/
def sb2 : Est := { s6 with viol := s6.viol.set 2 2000, amR22 := [0] }

/-- `s6` with an R6 violation recorded at cell (0, 0). -/
def sb3 : Est := { s6 with viol := s6.viol.set 6 2, amR6 := [[5], [-1], [-1]] }

/-- `s6` with an R7 (capacity) violation recorded for course 0. -/
def sb4 : Est := { s6 with viol := s6.viol.set 7 1, amR7 := [(1, 0)] }

/-- `s6` with an R8 (room stability) violation recorded. -/
def sb5 : Est :=
  { s6 with viol := s6.viol.set 8 1, amR8 := [0, -1, -1], r8 := [0] }

/-- `s6` with an R10 (room type) violation recorded for course 0. -/
def sb7 : Est := { s6 with viol := s6.viol.set 10 1, amR10 := [(1, 0)] }

/-- `s6` with an R11 witness recorded at cell (0, 0). -/
def sb8 : Est := { s6 with viol := s6.viol.set 11 1, amR11 := [[7], [-1], [-1]] }

/-! ## Generic list and fold lemmas -/

theorem getD_set_self {α : Type} (l : List α) (i : Nat) (v d : α) (h : i < l.length) :
    (l.set i v).getD i d = v := by
  induction l generalizing i with
  | nil => simp at h
  | cons a t ih =>
    cases i with
    | zero => simp
    | succ n => simpa using ih n (by simpa using h)

theorem getD_set_ne {α : Type} (l : List α) (i j : Nat) (v d : α) (h : i ≠ j) :
    (l.set i v).getD j d = l.getD j d := by
  induction l generalizing i j with
  | nil => simp
  | cons a t ih =>
    cases i with
    | zero =>
      cases j with
      | zero => exact absurd rfl h
      | succ m => simp
    | succ n =>
      cases j with
      | zero => simp
      | succ m => simpa using ih n m (by omega)

theorem set_oob {α : Type} (l : List α) (i : Nat) (v : α) (h : l.length ≤ i) :
    l.set i v = l := by
  induction l generalizing i with
  | nil => simp
  | cons a t ih =>
    cases i with
    | zero => simp at h
    | succ n => simpa using ih n (by simpa using h)

theorem getD_cons_succ {α : Type} (a : α) (l : List α) (n : Nat) (d : α) :
    (a :: l).getD (n + 1) d = l.getD n d := rfl

theorem getD_replicate {α : Type} (n i : Nat) (v d : α) :
    (List.replicate n v).getD i d = if i < n then v else d := by
  induction n generalizing i with
  | zero => simp
  | succ m ih =>
    cases i with
    | zero => simp [List.replicate_succ]
    | succ k =>
      rw [List.replicate_succ, getD_cons_succ, ih]
      simp [Nat.succ_lt_succ_iff]

theorem getII_mat {a b i j : Nat} {v d : Int} :
    getII (mat a b v) i j d = if i < a ∧ j < b then v else d := by
  unfold getII mat
  rw [getD_replicate]
  by_cases h : i < a
  · rw [if_pos h, getD_replicate]
    by_cases hj : j < b
    · rw [if_pos hj, if_pos ⟨h, hj⟩]
    · rw [if_neg hj, if_neg (by tauto)]
  · rw [if_neg h]
    simp [h]

theorem getII_mat0 (a b i j : Nat) : getII (mat a b 0) i j 0 = 0 := by
  rw [getII_mat]; split <;> rfl

theorem getII_setII_self (m : List (List Int)) (i j : Nat) (v d : Int)
    (hi : i < m.length) (hj : j < (m.getD i []).length) :
    getII (setII m i j v) i j d = v := by
  unfold getII setII
  rw [getD_set_self _ _ _ _ hi, getD_set_self _ _ _ _ hj]

theorem getII_setII_ne (m : List (List Int)) (i j k l : Nat) (v d : Int)
    (h : i ≠ k ∨ j ≠ l) :
    getII (setII m i j v) k l d = getII m k l d := by
  unfold getII setII
  rcases h with h | h
  · rw [getD_set_ne _ _ _ _ _ h]
  · by_cases hik : i = k
    · subst hik
      by_cases hlen : i < m.length
      · rw [getD_set_self _ _ _ _ hlen, getD_set_ne _ _ _ _ _ h]
      · rw [set_oob _ _ _ (le_of_not_lt hlen)]
    · rw [getD_set_ne _ _ _ _ _ hik]

theorem foldl_fixed {α β : Type} (f : α → β → α) (a : α) (l : List β)
    (h : ∀ x, f a x = a) : l.foldl f a = a := by
  induction l with
  | nil => rfl
  | cons x t ih => rw [List.foldl_cons, h x]; exact ih

theorem foldl_pres {α β γ : Type} (p : α → γ) (f : α → β → α) (l : List β) (a : α)
    (h : ∀ a x, p (f a x) = p a) : p (l.foldl f a) = p a := by
  induction l generalizing a with
  | nil => rfl
  | cons x t ih => rw [List.foldl_cons, ih, h]

theorem foldl_inv {α β : Type} (Inv : α → Prop) (f : α → β → α) (l : List β) (a : α)
    (h : ∀ a x, Inv a → Inv (f a x)) (ha : Inv a) : Inv (l.foldl f a) := by
  induction l generalizing a with
  | nil => exact ha
  | cons x t ih => exact ih _ (h a x ha)

theorem foldl_fst_mono {β : Type} (f : Int × Est → β → Int × Est) (l : List β)
    (a : Int × Est) (h : ∀ a x, a.1 ≤ (f a x).1) : a.1 ≤ (l.foldl f a).1 := by
  induction l generalizing a with
  | nil => exact le_refl _
  | cons x t ih => exact le_trans (h a x) (ih (f a x))

/-! ## C1 — determinism and idempotence of the evaluator -/

/-- C1: for a fixed `Problem` and fixed seed configuration, `calcula_FO`
is a function of the grid alone — the initialization block overwrites
every auxiliary index and `violations[]` before the pass, so evaluating
the same grid from any two prior index states gives the same `fo` and
bit-identical index contents, and re-evaluating is idempotent on the full
state. -/
theorem c1_determinismo (P : Problem) (cfg : Cfg) (s1 s2 : Est) (g : Grid) :
    calcula_FO P cfg s1 g = calcula_FO P cfg s2 g ∧
    calcula_FO P cfg (calcula_FO P cfg s1 g).2 g = calcula_FO P cfg s1 g :=
  ⟨rfl, rfl⟩

/-! ## C5 — objective of the all-empty grid -/

theorem getD_fill0 (n i : Nat) : (fill n 0).getD i 0 = 0 := by
  unfold fill; rw [getD_replicate]; split <;> rfl

theorem getCell_vazia (P : Problem) (i j : Nat) : getCell (gradeVazia P) i j = -1 := by
  show getII (gradeVazia P) i j (-1) = -1
  unfold gradeVazia
  rw [getII_mat]; split <;> rfl

theorem passo_vazia (P : Problem) (acc : Int × Est) (i j : Nat) :
    passo P (gradeVazia P) acc i j = acc := by
  simp [passo, getCell_vazia]

theorem seedR9_sem (P : Problem) : seedR9 P cfgSemSemente = mat P.professores P.dias 0 :=
  rfl

theorem posR2_zeros (P : Problem) (fo : Int) (s : Est)
    (h1 : s.r21 = mat (TP P) P.professores 0)
    (h2 : s.r22 = mat (TP P) P.cursos 0) :
    posR2 P (fo, s) = (fo, s) := by
  unfold posR2
  apply foldl_fixed
  intro i
  unfold posR2Per
  rw [foldl_fixed (posR2Prof P i) (fo, s) _ (fun j => by simp [posR2Prof, h1, getII_mat0])]
  exact foldl_fixed (posR2Cur P i) (fo, s) _ (fun j => by simp [posR2Cur, h2, getII_mat0])

theorem posR1R5Step_vazio (P : Problem) (fo : Int) (s : Est) (i : Nat)
    (h1 : s.r1 = fill (ND P) 0) (h5 : s.r5 = mat (ND P) P.dias 0) :
    (posR1R5Step P (fo, s) i).1 = fo + custoVazio P i ∧
    (posR1R5Step P (fo, s) i).2.r1 = s.r1 ∧
    (posR1R5Step P (fo, s) i).2.r5 = s.r5 := by
  have hr5 : ∀ j, getII s.r5 i j 0 = 0 := fun j => by rw [h5]; exact getII_mat0 _ _ _ _
  refine ⟨?_, ?_, ?_⟩
  · simp only [posR1R5Step, hr5, h1, getD_fill0]
    simp only [lt_self_iff_false, decide_False, List.filter_false, List.length_nil,
      Nat.cast_zero]
    simp only [custoVazio, modulo]
    split_ifs <;> omega
  · simp only [posR1R5Step]; split_ifs <;> rfl
  · simp only [posR1R5Step]; split_ifs <;> rfl

theorem posR1R5_vazio (P : Problem) (l : List Nat) (fo : Int) (s : Est)
    (h1 : s.r1 = fill (ND P) 0) (h5 : s.r5 = mat (ND P) P.dias 0) :
    (l.foldl (posR1R5Step P) (fo, s)).1 = fo + (l.map (custoVazio P)).sum := by
  induction l generalizing fo s with
  | nil => simp
  | cons i t ih =>
    obtain ⟨ha, hb, hc⟩ := posR1R5Step_vazio P fo s i h1 h5
    rw [List.foldl_cons]
    have hrec := ih (posR1R5Step P (fo, s) i).1 (posR1R5Step P (fo, s) i).2
      (hb.trans h1) (hc.trans h5)
    rw [Prod.mk.eta] at hrec
    rw [hrec, ha]
    simp [add_assoc]

theorem posR1R5Step_r9 (P : Problem) (acc : Int × Est) (i : Nat) :
    (posR1R5Step P acc i).2.r9 = acc.2.r9 := by
  simp only [posR1R5Step]
  split_ifs <;> rfl

theorem posR1R5Step_r11 (P : Problem) (acc : Int × Est) (i : Nat) :
    (posR1R5Step P acc i).2.r11 = acc.2.r11 := by
  simp only [posR1R5Step]
  split_ifs <;> rfl

theorem posR9Step_r11 (P : Problem) (acc : Int × Est) (i : Nat) :
    (posR9Step P acc i).2.r11 = acc.2.r11 := by
  simp only [posR9Step]
  split_ifs <;> rfl

theorem posR9_fo_zeros (P : Problem) (fo : Int) (s : Est)
    (h : s.r9 = mat P.professores P.dias 0) :
    posR9 P (fo, s) = (fo, s) := by
  unfold posR9
  exact foldl_fixed _ _ _ (fun i => by simp [posR9Step, h, getII_mat0])

theorem posR11_fo_zeros (P : Problem) (fo : Int) (s : Est)
    (h : s.r11 = mat P.dias (ND P) 0) :
    posR11 P (fo, s) = (fo, s) := by
  unfold posR11
  apply foldl_fixed
  intro i
  unfold posR11Dia
  exact foldl_fixed _ _ _ (fun j => by simp [posR11Disc, h, getII_mat0])

/-- C5 (amended): the objective of the all-empty grid, with no phase-2
seeding, is `Σ_c (1e6·lecture_count[c] + 5·minDias[c] when positive)` —
the R1 shortfall plus the R5 minimum-days penalty, not the R1 term
alone. -/
theorem c5_fo_grade_vazia (P : Problem) (s0 : Est) :
    (calcula_FO P cfgSemSemente s0 (gradeVazia P)).1 = foVazia P := by
  simp only [calcula_FO]
  rw [foldl_fixed _ _ _ (fun ij => by simp [passoCel, passo_vazia])]
  rw [posR2_zeros P 0 _ rfl rfl]
  set A := posR1R5 P (0, resetEst P cfgSemSemente) with hA
  have h1 : A.1 = foVazia P := by
    rw [hA]
    unfold posR1R5
    rw [posR1R5_vazio P _ 0 _ rfl rfl]
    simp [foVazia]
  have hr9 : A.2.r9 = mat P.professores P.dias 0 := by
    rw [hA]
    unfold posR1R5
    exact foldl_pres (fun acc => acc.2.r9) _ _ _ (fun a x => posR1R5Step_r9 P a x)
  have hr11 : A.2.r11 = mat P.dias (ND P) 0 := by
    rw [hA]
    unfold posR1R5
    exact foldl_pres (fun acc => acc.2.r11) _ _ _ (fun a x => posR1R5Step_r11 P a x)
  have h9 : posR9 P A = A := by
    have h := posR9_fo_zeros P A.1 A.2 hr9
    simpa using h
  have h11 : posR11 P A = A := by
    have h := posR11_fo_zeros P A.1 A.2 hr11
    simpa using h
  rw [h9, h11, h1]

/-- C5 counterexample: on the 1×1 instance `Pa` (one course, 1 lecture,
min-days 1) the all-empty grid evaluates to 1000005 — the extra 5 is the
R5 minimum-days penalty — while the claimed formula
`Σ_c 1e6 · lecture_count[c]` gives 1000000. -/
theorem c5_grade_vazia_cex :
    (calcula_FO Pa cfgSemSemente default (gradeVazia Pa)).1 = 1000005 ∧
    foVaziaSpec Pa = 1000000 ∧
    (calcula_FO Pa cfgSemSemente default (gradeVazia Pa)).1 ≠ foVaziaSpec Pa :=
  ⟨by decide, by decide, by decide⟩

/-! ## C8 — width of the objective accumulator -/

theorem modulo_nonneg (a b : Int) : 0 ≤ modulo a b := by
  unfold modulo; split_ifs <;> omega

theorem passoR4_fst_mono (P : Problem) (c : Int) (i j : Nat) (acc : Int × Est) :
    acc.1 ≤ (passoR4 P c i j acc).1 := by
  simp only [passoR4]; split_ifs <;> simp

theorem restricaoR6_fst_nonneg (P : Problem) (g : Grid) (dis : Int) (per sal : Nat)
    (s : Est) : 0 ≤ (restricaoR6 P g dis per sal s).1 := by
  unfold restricaoR6
  refine foldl_inv (fun acc : Int × Est => 0 ≤ acc.1) _ _ _ ?_ (le_refl 0)
  intro a k ha
  simp only [restricaoR6Step]
  split_ifs <;> (try dsimp only) <;> omega

theorem passoR7_fst_mono (P : Problem) (cn i j : Nat) (dsc : Disciplina)
    (acc : Int × Est) : acc.1 ≤ (passoR7 P cn i j dsc acc).1 := by
  simp only [passoR7]; split_ifs <;> (try dsimp only) <;> omega

theorem passoR8_fst_mono (P : Problem) (cn i j : Nat) (acc : Int × Est) :
    acc.1 ≤ (passoR8 P cn i j acc).1 := by
  simp only [passoR8]; split_ifs <;> (try dsimp only) <;> omega

theorem passoR10_fst_mono (P : Problem) (cn i j : Nat) (dsc : Disciplina)
    (acc : Int × Est) : acc.1 ≤ (passoR10 P cn i j dsc acc).1 := by
  simp only [passoR10]; split_ifs <;> (try dsimp only) <;> omega

theorem passo_fst_mono (P : Problem) (g : Grid) (acc : Int × Est) (i j : Nat) :
    acc.1 ≤ (passo P g acc i j).1 := by
  by_cases h : getCell g i j = -1
  · simp [passo, h]
  · simp only [passo, if_neg h]
    refine le_trans ?_ (passoR10_fst_mono _ _ _ _ _ _)
    refine le_trans ?_ (passoR8_fst_mono _ _ _ _ _)
    refine le_trans ?_ (passoR7_fst_mono _ _ _ _ _ _)
    show acc.1 ≤ _ + _
    exact le_trans
      (passoR4_fst_mono P (getCell g i j) i j
        (acc.1, passoR22 P i j (getCell g i j).toNat
          (P.disc.getD (getCell g i j).toNat default)
          (passoR21 P i j (getCell g i j).toNat
            (P.disc.getD (getCell g i j).toNat default).prof
            (passoR1 (getCell g i j).toNat acc.2))))
      (le_add_of_nonneg_right (restricaoR6_fst_nonneg _ _ _ _ _ _))

theorem posR2Prof_fst_mono (P : Problem) (i : Nat) (acc : Int × Est) (j : Nat) :
    acc.1 ≤ (posR2Prof P i acc j).1 := by
  simp only [posR2Prof]; split_ifs with h <;> (try dsimp only) <;> omega

theorem posR2Cur_fst_mono (P : Problem) (i : Nat) (acc : Int × Est) (j : Nat) :
    acc.1 ≤ (posR2Cur P i acc j).1 := by
  simp only [posR2Cur]; split_ifs with h <;> (try dsimp only) <;> omega

theorem posR2_fst_mono (P : Problem) (acc : Int × Est) : acc.1 ≤ (posR2 P acc).1 := by
  unfold posR2
  refine foldl_fst_mono _ _ _ (fun a i => ?_)
  unfold posR2Per
  exact le_trans (foldl_fst_mono _ _ _ (posR2Prof_fst_mono P i))
    (foldl_fst_mono _ _ _ (posR2Cur_fst_mono P i))

theorem posR1R5_fst_mono (P : Problem) (acc : Int × Est) :
    acc.1 ≤ (posR1R5 P acc).1 := by
  unfold posR1R5
  refine foldl_fst_mono _ _ _ (fun a i => ?_)
  have hm := modulo_nonneg (a.2.r1.getD i 0) (P.disc.getD i default).aulas
  simp only [posR1R5Step]
  split_ifs <;> (try dsimp only) <;> omega

theorem posR9_fst_mono (P : Problem) (acc : Int × Est) : acc.1 ≤ (posR9 P acc).1 := by
  unfold posR9
  refine foldl_fst_mono _ _ _ (fun a i => ?_)
  simp only [posR9Step]
  split_ifs <;> (try dsimp only) <;> omega

theorem posR11_fst_mono (P : Problem) (acc : Int × Est) : acc.1 ≤ (posR11 P acc).1 := by
  unfold posR11
  refine foldl_fst_mono _ _ _ (fun a i => ?_)
  unfold posR11Dia
  refine foldl_fst_mono _ _ _ (fun b j => ?_)
  simp only [posR11Disc]
  split_ifs with h <;> (try dsimp only) <;> omega

/-- The objective is a sum of nonnegative penalties. -/
theorem calcFO_nonneg (P : Problem) (cfg : Cfg) (s0 : Est) (g : Grid) :
    0 ≤ (calcula_FO P cfg s0 g).1 := by
  simp only [calcula_FO]
  have h1 : (0 : Int) ≤ (List.foldl (passoCel P g) (0, resetEst P cfg) (celulas P)).1 :=
    foldl_fst_mono _ _ _ (fun a ij => passo_fst_mono P g a ij.1 ij.2)
  exact le_trans (le_trans (le_trans (le_trans h1 (posR2_fst_mono P _))
    (posR1R5_fst_mono P _)) (posR9_fst_mono P _)) (posR11_fst_mono P _)

theorem wrap32_id (x : Int) (h0 : -2 ^ 31 ≤ x) (h1 : x < 2 ^ 31) : wrap32 x = x := by
  unfold wrap32
  rw [Int.emod_eq_of_lt (by omega) (by omega)]
  omega

/-- C8 (amended): the objective accumulator is a C `int` — 32 bits on the
targeted platforms, not 64: the mathematical total is always nonnegative
and is stored exactly only while it stays below `2^31`; beyond that the
stored value wraps. -/
theorem c8_acumulador (P : Problem) (cfg : Cfg) (s0 : Est) (g : Grid) :
    0 ≤ (calcula_FO P cfg s0 g).1 ∧
    ((calcula_FO P cfg s0 g).1 < 2 ^ 31 →
      calcula_FO_int P cfg s0 g = (calcula_FO P cfg s0 g).1) :=
  ⟨calcFO_nonneg P cfg s0 g, fun h =>
    wrap32_id _ (le_trans (by omega) (calcFO_nonneg P cfg s0 g)) h⟩

/-- Witness for C8 (amended) at the concrete instance `Pa`. -/
theorem c8_acumulador_witness :
    calcula_FO_int Pa cfgSemSemente default (gradeVazia Pa) =
      (calcula_FO Pa cfgSemSemente default (gradeVazia Pa)).1 :=
  (c8_acumulador Pa cfgSemSemente default (gradeVazia Pa)).2 (by decide)

/-- C8 counterexample: on `P8` (one course with 3000 required lectures)
the empty grid's objective is `3·10⁹`, which does not fit in a 32-bit
signed `int`: the stored value wraps to a negative number, so compounded
1e6-weight penalties do overflow the accumulator the code actually uses. -/
theorem c8_transbordo_cex :
    (calcula_FO P8 cfgSemSemente default (gradeVazia P8)).1 = 3000000000 ∧
    calcula_FO_int P8 cfgSemSemente default (gradeVazia P8) = -1294967296 ∧
    calcula_FO_int P8 cfgSemSemente default (gradeVazia P8) ≠
      (calcula_FO P8 cfgSemSemente default (gradeVazia P8)).1 :=
  ⟨by decide, by decide, by decide⟩

/-! ## C2 — preservation of the seeded `r9` bitmap -/

theorem getD_append {α : Type} (l1 l2 : List α) (i : Nat) (d : α) :
    (l1 ++ l2).getD i d =
      if i < l1.length then l1.getD i d else l2.getD (i - l1.length) d := by
  induction l1 generalizing i with
  | nil => simp
  | cons a t ih =>
    cases i with
    | zero => simp
    | succ n =>
      simp only [List.cons_append, getD_cons_succ, List.length_cons,
        Nat.succ_lt_succ_iff, Nat.succ_sub_succ]
      exact ih n

theorem getD_map_range {α : Type} (f : Nat → α) (n i : Nat) (d : α) :
    ((List.range n).map f).getD i d = if i < n then f i else d := by
  induction n generalizing i with
  | zero => simp
  | succ m ih =>
    rw [List.range_succ, List.map_append, getD_append]
    simp only [List.length_map, List.length_range]
    by_cases h : i < m
    · rw [if_pos h, ih, if_pos h, if_pos (by omega)]
    · by_cases h2 : i = m
      · subst h2; simp
      · obtain ⟨k, hk⟩ : ∃ k, i - m = k + 1 := ⟨i - m - 1, by omega⟩
        rw [if_neg h, hk]
        simp only [List.map_cons, List.map_nil, getD_cons_succ, List.getD_nil]
        rw [if_neg (by omega)]

theorem getII_seedR9 (P : Problem) (cfg : Cfg) (dsi : List (List Int)) (t d : Nat)
    (husar : cfg.usar = true) (hseed : cfg.seed = some dsi)
    (ht1 : t < cfg.numProfs) (ht2 : t < P.professores) (hd : d < P.dias)
    (hsd : getII dsi t d 0 = 1) :
    getII (seedR9 P cfg) t d 0 = 1 := by
  obtain ⟨u, sd, np⟩ := cfg
  simp only at husar hseed ht1
  subst husar
  subst hseed
  show getII ((List.range P.professores).map _) t d 0 = 1
  unfold getII
  rw [getD_map_range, if_pos ht2, getD_map_range, if_pos hd, if_pos ht1]
  exact hsd

theorem passoR1_r9 (cn : Nat) (s : Est) : (passoR1 cn s).r9 = s.r9 := rfl

theorem passoR21_r9 (P : Problem) (i j cn pr : Nat) (s : Est) :
    (passoR21 P i j cn pr s).r9 = s.r9 := by
  simp only [passoR21]; split_ifs <;> rfl

theorem passoR22_r9 (P : Problem) (i j cn : Nat) (dsc : Disciplina) (s : Est) :
    (passoR22 P i j cn dsc s).r9 = s.r9 := by
  unfold passoR22
  exact foldl_pres Est.r9 _ _ _ (fun a k => by
    simp only [passoR22Step]; split_ifs <;> rfl)

theorem passoR4_snd_r9 (P : Problem) (c : Int) (i j : Nat) (acc : Int × Est) :
    (passoR4 P c i j acc).2.r9 = acc.2.r9 := by
  simp only [passoR4]; split_ifs <;> rfl

theorem restricaoR6_snd_r9 (P : Problem) (g : Grid) (dis : Int) (per sal : Nat)
    (s : Est) : (restricaoR6 P g dis per sal s).2.r9 = s.r9 := by
  unfold restricaoR6
  exact foldl_pres (fun acc : Int × Est => acc.2.r9) _ _ _ (fun a k => by
    simp only [restricaoR6Step]; split_ifs <;> rfl)

theorem passoR7_snd_r9 (P : Problem) (cn i j : Nat) (dsc : Disciplina)
    (acc : Int × Est) : (passoR7 P cn i j dsc acc).2.r9 = acc.2.r9 := by
  simp only [passoR7]; split_ifs <;> rfl

theorem passoR8_snd_r9 (P : Problem) (cn i j : Nat) (acc : Int × Est) :
    (passoR8 P cn i j acc).2.r9 = acc.2.r9 := by
  simp only [passoR8]; split_ifs <;> rfl

theorem passoR10_snd_r9 (P : Problem) (cn i j : Nat) (dsc : Disciplina)
    (acc : Int × Est) : (passoR10 P cn i j dsc acc).2.r9 = acc.2.r9 := by
  simp only [passoR10]; split_ifs <;> rfl

theorem passoR11_r9 (P : Problem) (c : Int) (cn i j : Nat) (s : Est) :
    (passoR11 P c cn i j s).r9 = s.r9 := by
  simp only [passoR11]; split_ifs <;> rfl

/-- A marked entry of `r9` is never cleared by the per-cell update: the
guard only turns `< 1` entries into 1. -/
theorem passoR9_pres (P : Problem) (pr i : Nat) (s : Est) (t d : Nat)
    (h : getII s.r9 t d 0 = 1) :
    getII (passoR9 P pr i s).r9 t d 0 = 1 := by
  simp only [passoR9]
  split_ifs with hc
  · by_cases he : pr = t ∧ i / P.periodos_dia = d
    · exfalso; rw [he.1, he.2] at hc; omega
    · rw [getII_setII_ne _ _ _ _ _ _ _ (by tauto)]
      exact h
  · exact h

theorem passo_r9_pres (P : Problem) (g : Grid) (acc : Int × Est) (i j t d : Nat)
    (h : getII acc.2.r9 t d 0 = 1) :
    getII (passo P g acc i j).2.r9 t d 0 = 1 := by
  by_cases hc : getCell g i j = -1
  · simpa [passo, hc] using h
  · simp only [passo, if_neg hc, passoR11_r9, passoR10_snd_r9]
    apply passoR9_pres
    simp only [passoR8_snd_r9, passoR7_snd_r9]
    show getII (restricaoR6 P g _ i j _).2.r9 t d 0 = 1
    simp only [restricaoR6_snd_r9]
    show getII (passoR4 P _ i j _).2.r9 t d 0 = 1
    simp only [passoR4_snd_r9, passoR22_r9, passoR21_r9, passoR1_r9]
    exact h

theorem posR2Prof_r9 (P : Problem) (i : Nat) (acc : Int × Est) (j : Nat) :
    (posR2Prof P i acc j).2.r9 = acc.2.r9 := by
  simp only [posR2Prof]; split_ifs <;> rfl

theorem posR2Cur_r9 (P : Problem) (i : Nat) (acc : Int × Est) (j : Nat) :
    (posR2Cur P i acc j).2.r9 = acc.2.r9 := by
  simp only [posR2Cur]; split_ifs <;> rfl

theorem posR2_r9 (P : Problem) (acc : Int × Est) : (posR2 P acc).2.r9 = acc.2.r9 := by
  unfold posR2
  refine foldl_pres (fun a : Int × Est => a.2.r9) _ _ _ (fun a i => ?_)
  unfold posR2Per
  exact (foldl_pres (fun a : Int × Est => a.2.r9) (posR2Cur P i) _ _
      (posR2Cur_r9 P i)).trans
    (foldl_pres (fun a : Int × Est => a.2.r9) (posR2Prof P i) _ _ (posR2Prof_r9 P i))

theorem posR1R5_r9 (P : Problem) (acc : Int × Est) :
    (posR1R5 P acc).2.r9 = acc.2.r9 := by
  unfold posR1R5
  exact foldl_pres (fun a : Int × Est => a.2.r9) _ _ _ (posR1R5Step_r9 P)

theorem posR9_r9 (P : Problem) (acc : Int × Est) : (posR9 P acc).2.r9 = acc.2.r9 := by
  unfold posR9
  refine foldl_pres (fun a : Int × Est => a.2.r9) _ _ _ (fun a i => ?_)
  simp only [posR9Step]; split_ifs <;> rfl

theorem posR11_r9 (P : Problem) (acc : Int × Est) : (posR11 P acc).2.r9 = acc.2.r9 := by
  unfold posR11
  refine foldl_pres (fun a : Int × Est => a.2.r9) _ _ _ (fun a i => ?_)
  unfold posR11Dia
  refine foldl_pres (fun a : Int × Est => a.2.r9) _ _ _ (fun b j => ?_)
  simp only [posR11Disc]; split_ifs <;> rfl

/-- C2: when phase 2 runs with a seed bitmap, every seeded
`teacher_days[t][d] = 1` entry with `t < num_profs_da_integral` is
re-applied before the pass and never erased by it: after every call to
`calcula_FO`, on any grid, `r9[t][d]` is still 1. -/
theorem c2_semente_preservada (P : Problem) (cfg : Cfg) (s0 : Est) (g : Grid)
    (dsi : List (List Int)) (t d : Nat)
    (husar : cfg.usar = true) (hseed : cfg.seed = some dsi)
    (ht1 : t < cfg.numProfs) (ht2 : t < P.professores) (hd : d < P.dias)
    (hsd : getII dsi t d 0 = 1) :
    getII (calcula_FO P cfg s0 g).2.r9 t d 0 = 1 := by
  simp only [calcula_FO, posR11_r9, posR9_r9, posR1R5_r9, posR2_r9]
  refine foldl_inv (fun acc : Int × Est => getII acc.2.r9 t d 0 = 1) _ _ _
    (fun a ij h => passo_r9_pres P g a ij.1 ij.2 t d h) ?_
  exact getII_seedR9 P cfg dsi t d husar hseed ht1 ht2 hd hsd

/-- Witness for C2: seeding `Pb` with teacher 0 busy on days 0 and 1, the
entry for day 1 survives evaluating a grid whose only lecture is on
day 0. -/
theorem c2_semente_preservada_witness :
    getII (calcula_FO Pb cfgB default [[0], [-1], [-1]]).2.r9 0 1 0 = 1 :=
  c2_semente_preservada Pb cfgB default [[0], [-1], [-1]] [[1, 1, 0]] 0 1
    rfl rfl (by decide) (by decide) (by decide) (by decide)

/-! ## C3 — the radix-1000 composition of `violations[2]` -/

theorem getD_mem {α : Type} (l : List α) (i : Nat) (d : α) (h : i < l.length) :
    l.getD i d ∈ l := by
  rw [List.getD_eq_getElem l d h]; exact List.getElem_mem h

theorem setII_shape (m : List (List Int)) (i j : Nat) (v : Int) (a b : Nat)
    (h : Shape2 m a b) : Shape2 (setII m i j v) a b := by
  unfold setII
  by_cases hi : i < m.length
  · refine ⟨by simpa using h.1, ?_⟩
    intro r hr
    rcases List.mem_or_eq_of_mem_set hr with hm | he
    · exact h.2 r hm
    · subst he
      simpa using h.2 _ (getD_mem m i [] hi)
  · rw [set_oob _ _ _ (le_of_not_lt hi)]
    exact h

theorem bumpII_shape (m : List (List Int)) (i j : Nat) (d : Int) (a b : Nat)
    (h : Shape2 m a b) : Shape2 (bumpII m i j d) a b :=
  setII_shape _ _ _ _ _ _ h

theorem mat_shape (a b : Nat) (v : Int) : Shape2 (mat a b v) a b := by
  constructor
  · simp [mat]
  · intro r hr
    rw [List.eq_of_mem_replicate hr]
    simp

theorem getII_bumpII_get (m : List (List Int)) (a b i q p t : Nat)
    (hsh : Shape2 m a b) (hp : p < a) (ht : t < b) :
    getII (bumpII m i q 1) p t 0 =
      getII m p t 0 + (if i = p ∧ q = t then 1 else 0) := by
  by_cases he : i = p ∧ q = t
  · obtain ⟨h1, h2⟩ := he
    subst h1; subst h2
    rw [if_pos ⟨rfl, rfl⟩]
    unfold bumpII
    rw [getII_setII_self]
    · rw [hsh.1]; exact hp
    · rw [hsh.2 _ (getD_mem m i [] (by rw [hsh.1]; exact hp))]; exact ht
  · rw [if_neg he]
    unfold bumpII
    rw [getII_setII_ne _ _ _ _ _ _ _ (by tauto)]
    simp

/-! Frame lemmas: which cell sub-steps leave `r21`, `r22` and
`violations[2]` untouched. -/

theorem passoR21_r22 (P : Problem) (i j cn pr : Nat) (s : Est) :
    (passoR21 P i j cn pr s).r22 = s.r22 := by
  simp only [passoR21]; split_ifs <;> rfl

theorem passoR21_r21_get (P : Problem) (i j cn pr : Nat) (s : Est) (p t : Nat)
    (hsh : Shape2 s.r21 (TP P) P.professores) (hp : p < TP P) (ht : t < P.professores) :
    getII (passoR21 P i j cn pr s).r21 p t 0 =
      getII s.r21 p t 0 + (if i = p ∧ pr = t then 1 else 0) := by
  have hb := getII_bumpII_get s.r21 (TP P) P.professores i pr p t hsh hp ht
  simp only [passoR21]
  by_cases hcond : 1 < getII (bumpII s.r21 i pr 1) i pr 0
  · rw [if_pos hcond]; exact hb
  · rw [if_neg hcond]; exact hb

theorem passoR21_shape (P : Problem) (i j cn pr : Nat) (s : Est)
    (hsh : Shape2 s.r21 (TP P) P.professores) :
    Shape2 (passoR21 P i j cn pr s).r21 (TP P) P.professores := by
  simp only [passoR21]
  split_ifs <;> exact bumpII_shape _ _ _ _ _ _ hsh

theorem passoR22Step_r21 (P : Problem) (i j cn : Nat) (dsc : Disciplina) (s : Est)
    (k : Nat) : (passoR22Step P i j cn dsc s k).r21 = s.r21 := by
  simp only [passoR22Step]; split_ifs <;> rfl

theorem passoR22_r21 (P : Problem) (i j cn : Nat) (dsc : Disciplina) (s : Est) :
    (passoR22 P i j cn dsc s).r21 = s.r21 := by
  unfold passoR22
  exact foldl_pres Est.r21 _ _ _ (passoR22Step_r21 P i j cn dsc)

theorem passoR4_snd_r21 (P : Problem) (c : Int) (i j : Nat) (acc : Int × Est) :
    (passoR4 P c i j acc).2.r21 = acc.2.r21 ∧
    (passoR4 P c i j acc).2.r22 = acc.2.r22 := by
  simp only [passoR4]; split_ifs <;> exact ⟨rfl, rfl⟩

theorem restricaoR6_snd_r21 (P : Problem) (g : Grid) (dis : Int) (per sal : Nat)
    (s : Est) :
    (restricaoR6 P g dis per sal s).2.r21 = s.r21 ∧
    (restricaoR6 P g dis per sal s).2.r22 = s.r22 := by
  unfold restricaoR6
  have h := foldl_pres (fun acc : Int × Est => (acc.2.r21, acc.2.r22))
    (restricaoR6Step P g dis per sal) (List.range P.cursos) (0, s)
    (fun a k => by simp only [restricaoR6Step]; split_ifs <;> rfl)
  exact ⟨congrArg Prod.fst h, congrArg Prod.snd h⟩

theorem passoR7_snd_r21 (P : Problem) (cn i j : Nat) (dsc : Disciplina)
    (acc : Int × Est) :
    (passoR7 P cn i j dsc acc).2.r21 = acc.2.r21 ∧
    (passoR7 P cn i j dsc acc).2.r22 = acc.2.r22 := by
  simp only [passoR7]; split_ifs <;> exact ⟨rfl, rfl⟩

theorem passoR8_snd_r21 (P : Problem) (cn i j : Nat) (acc : Int × Est) :
    (passoR8 P cn i j acc).2.r21 = acc.2.r21 ∧
    (passoR8 P cn i j acc).2.r22 = acc.2.r22 := by
  simp only [passoR8]; split_ifs <;> exact ⟨rfl, rfl⟩

theorem passoR9_r21 (P : Problem) (pr i : Nat) (s : Est) :
    (passoR9 P pr i s).r21 = s.r21 ∧ (passoR9 P pr i s).r22 = s.r22 := by
  simp only [passoR9]; split_ifs <;> exact ⟨rfl, rfl⟩

theorem passoR10_snd_r21 (P : Problem) (cn i j : Nat) (dsc : Disciplina)
    (acc : Int × Est) :
    (passoR10 P cn i j dsc acc).2.r21 = acc.2.r21 ∧
    (passoR10 P cn i j dsc acc).2.r22 = acc.2.r22 := by
  simp only [passoR10]; split_ifs <;> exact ⟨rfl, rfl⟩

theorem passoR11_r21 (P : Problem) (c : Int) (cn i j : Nat) (s : Est) :
    (passoR11 P c cn i j s).r21 = s.r21 ∧ (passoR11 P c cn i j s).r22 = s.r22 := by
  simp only [passoR11]; split_ifs <;> exact ⟨rfl, rfl⟩

theorem passoR1_r21 (cn : Nat) (s : Est) :
    (passoR1 cn s).r21 = s.r21 ∧ (passoR1 cn s).r22 = s.r22 := ⟨rfl, rfl⟩

theorem passoR22Step_r22_get (P : Problem) (i j cn : Nat) (dsc : Disciplina)
    (s : Est) (k p t : Nat) (hsh : Shape2 s.r22 (TP P) P.cursos)
    (hp : p < TP P) (ht : t < P.cursos) :
    getII (passoR22Step P i j cn dsc s k).r22 p t 0 =
      getII s.r22 p t 0 +
        (if k = t ∧ i = p ∧ dsc.cursos.getD k 0 = 1 then 1 else 0) := by
  by_cases hm : dsc.cursos.getD k 0 = 1
  · have hb := getII_bumpII_get s.r22 (TP P) P.cursos i k p t hsh hp ht
    have hite : (if i = p ∧ k = t then (1 : Int) else 0) =
        (if k = t ∧ i = p ∧ dsc.cursos.getD k 0 = 1 then 1 else 0) := by
      by_cases h2 : i = p ∧ k = t
      · rw [if_pos h2, if_pos ⟨h2.2, h2.1, hm⟩]
      · rw [if_neg h2, if_neg (by tauto)]
    simp only [passoR22Step, if_pos hm]
    by_cases hcond : 1 < getII (bumpII s.r22 i k 1) i k 0
    · rw [if_pos hcond]
      show getII (bumpII s.r22 i k 1) p t 0 = _
      rw [hb, hite]
    · rw [if_neg hcond]
      show getII (bumpII s.r22 i k 1) p t 0 = _
      rw [hb, hite]
  · simp only [passoR22Step, if_neg hm]
    rw [if_neg (by tauto : ¬(k = t ∧ i = p ∧ dsc.cursos.getD k 0 = 1))]
    by_cases hcond : 1 < getII s.r22 i k 0
    · rw [if_pos hcond]; simp
    · rw [if_neg hcond]; simp

theorem passoR22Step_shape (P : Problem) (i j cn : Nat) (dsc : Disciplina)
    (s : Est) (k : Nat) (hsh : Shape2 s.r22 (TP P) P.cursos) :
    Shape2 (passoR22Step P i j cn dsc s k).r22 (TP P) P.cursos := by
  simp only [passoR22Step]
  split_ifs <;> first
    | exact bumpII_shape _ _ _ _ _ _ hsh
    | exact hsh

theorem passoR22_fold_get (P : Problem) (i j cn : Nat) (dsc : Disciplina)
    (ks : List Nat) (hnd : ks.Nodup) (s : Est) (p t : Nat)
    (hsh : Shape2 s.r22 (TP P) P.cursos) (hp : p < TP P) (ht : t < P.cursos) :
    getII (List.foldl (passoR22Step P i j cn dsc) s ks).r22 p t 0 =
      getII s.r22 p t 0 +
        (if t ∈ ks ∧ i = p ∧ dsc.cursos.getD t 0 = 1 then 1 else 0) := by
  induction ks generalizing s with
  | nil => simp
  | cons k ks ih =>
    rw [List.foldl_cons]
    have hstep := passoR22Step_r22_get P i j cn dsc s k p t hsh hp ht
    have hsh2 := passoR22Step_shape P i j cn dsc s k hsh
    rw [ih (List.Nodup.of_cons hnd) _ hsh2, hstep]
    by_cases hkt : k = t
    · subst hkt
      have hkn : k ∉ ks := (List.nodup_cons.mp hnd).1
      rw [if_neg (by tauto : ¬(k ∈ ks ∧ i = p ∧ dsc.cursos.getD k 0 = 1))]
      by_cases h2 : i = p ∧ dsc.cursos.getD k 0 = 1
      · rw [if_pos ⟨rfl, h2⟩, if_pos ⟨List.mem_cons_self k ks, h2⟩]
        omega
      · rw [if_neg (by tauto), if_neg (by tauto)]
        omega
    · rw [if_neg (by tauto : ¬(k = t ∧ i = p ∧ dsc.cursos.getD k 0 = 1))]
      have hmem : (t ∈ k :: ks) ↔ (t ∈ ks) := by
        constructor
        · intro h; rcases List.mem_cons.mp h with h | h
          · exact absurd h.symm hkt
          · exact h
        · exact fun h => List.mem_cons_of_mem k h
      by_cases h2 : t ∈ ks ∧ i = p ∧ dsc.cursos.getD t 0 = 1
      · rw [if_pos h2, if_pos ⟨hmem.mpr h2.1, h2.2⟩]; omega
      · rw [if_neg h2, if_neg (by rw [hmem]; tauto)]; omega

theorem passo_r21_get (P : Problem) (g : Grid) (acc : Int × Est) (i j p t : Nat)
    (hp : p < TP P) (ht : t < P.professores)
    (hsh : Shape2 acc.2.r21 (TP P) P.professores) :
    getII (passo P g acc i j).2.r21 p t 0 =
      getII acc.2.r21 p t 0 +
        (if getCell g i j ≠ -1 ∧ i = p ∧
            (P.disc.getD (getCell g i j).toNat default).prof = t then 1 else 0) := by
  by_cases hc : getCell g i j = -1
  · simp [passo, hc]
  · simp only [passo, if_neg hc]
    rw [(passoR11_r21 _ _ _ _ _ _).1, (passoR10_snd_r21 _ _ _ _ _ _).1,
      (passoR9_r21 _ _ _ _).1, (passoR8_snd_r21 _ _ _ _ _).1,
      (passoR7_snd_r21 _ _ _ _ _ _).1]
    show getII (restricaoR6 P g _ i j _).2.r21 p t 0 = _
    rw [(restricaoR6_snd_r21 _ _ _ _ _ _).1]
    show getII (passoR4 P _ i j _).2.r21 p t 0 = _
    rw [(passoR4_snd_r21 _ _ _ _ _).1, passoR22_r21]
    rw [passoR21_r21_get P i j (getCell g i j).toNat
      (P.disc.getD (getCell g i j).toNat default).prof
      (passoR1 (getCell g i j).toNat acc.2) p t hsh hp ht]
    show getII acc.2.r21 p t 0 + _ = _
    by_cases h2 : i = p ∧ (P.disc.getD (getCell g i j).toNat default).prof = t
    · rw [if_pos h2, if_pos ⟨hc, h2⟩]
    · rw [if_neg h2, if_neg (by tauto)]

theorem passo_r22_get (P : Problem) (g : Grid) (acc : Int × Est) (i j p t : Nat)
    (hp : p < TP P) (ht : t < P.cursos)
    (hsh : Shape2 acc.2.r22 (TP P) P.cursos) :
    getII (passo P g acc i j).2.r22 p t 0 =
      getII acc.2.r22 p t 0 +
        (if getCell g i j ≠ -1 ∧ i = p ∧
            (P.disc.getD (getCell g i j).toNat default).cursos.getD t 0 = 1
         then 1 else 0) := by
  by_cases hc : getCell g i j = -1
  · simp [passo, hc]
  · simp only [passo, if_neg hc]
    rw [(passoR11_r21 _ _ _ _ _ _).2, (passoR10_snd_r21 _ _ _ _ _ _).2,
      (passoR9_r21 _ _ _ _).2, (passoR8_snd_r21 _ _ _ _ _).2,
      (passoR7_snd_r21 _ _ _ _ _ _).2]
    show getII (restricaoR6 P g _ i j _).2.r22 p t 0 = _
    rw [(restricaoR6_snd_r21 _ _ _ _ _ _).2]
    show getII (passoR4 P _ i j _).2.r22 p t 0 = _
    rw [(passoR4_snd_r21 _ _ _ _ _).2]
    unfold passoR22
    rw [passoR22_fold_get P i j _ _ _ (List.nodup_range P.cursos) _ p t
      (by rw [(passoR21_r22 _ _ _ _ _ _)]; exact hsh) hp ht]
    rw [passoR21_r22]
    by_cases h2 : i = p ∧
        (P.disc.getD (getCell g i j).toNat default).cursos.getD t 0 = 1
    · rw [if_pos ⟨List.mem_range.mpr ht, h2⟩, if_pos ⟨hc, h2⟩]
      rfl
    · rw [if_neg (by tauto), if_neg (by tauto)]
      rfl

theorem passo_r21_shape (P : Problem) (g : Grid) (acc : Int × Est) (i j : Nat)
    (hsh : Shape2 acc.2.r21 (TP P) P.professores) :
    Shape2 (passo P g acc i j).2.r21 (TP P) P.professores := by
  by_cases hc : getCell g i j = -1
  · simpa [passo, hc] using hsh
  · simp only [passo, if_neg hc]
    rw [(passoR11_r21 _ _ _ _ _ _).1, (passoR10_snd_r21 _ _ _ _ _ _).1,
      (passoR9_r21 _ _ _ _).1, (passoR8_snd_r21 _ _ _ _ _).1,
      (passoR7_snd_r21 _ _ _ _ _ _).1]
    show Shape2 (restricaoR6 P g _ i j _).2.r21 _ _
    rw [(restricaoR6_snd_r21 _ _ _ _ _ _).1]
    show Shape2 (passoR4 P _ i j _).2.r21 _ _
    rw [(passoR4_snd_r21 _ _ _ _ _).1, passoR22_r21]
    exact passoR21_shape _ _ _ _ _ _ hsh

theorem passo_r22_shape (P : Problem) (g : Grid) (acc : Int × Est) (i j : Nat)
    (hsh : Shape2 acc.2.r22 (TP P) P.cursos) :
    Shape2 (passo P g acc i j).2.r22 (TP P) P.cursos := by
  by_cases hc : getCell g i j = -1
  · simpa [passo, hc] using hsh
  · simp only [passo, if_neg hc]
    rw [(passoR11_r21 _ _ _ _ _ _).2, (passoR10_snd_r21 _ _ _ _ _ _).2,
      (passoR9_r21 _ _ _ _).2, (passoR8_snd_r21 _ _ _ _ _).2,
      (passoR7_snd_r21 _ _ _ _ _ _).2]
    show Shape2 (restricaoR6 P g _ i j _).2.r22 _ _
    rw [(restricaoR6_snd_r21 _ _ _ _ _ _).2]
    show Shape2 (passoR4 P _ i j _).2.r22 _ _
    rw [(passoR4_snd_r21 _ _ _ _ _).2]
    unfold passoR22
    refine foldl_inv (fun s : Est => Shape2 s.r22 (TP P) P.cursos) _ _ _
      (fun s k hs => passoR22Step_shape P i j _ _ s k hs) ?_
    show Shape2 (passoR21 P i j _ _ _).r22 (TP P) P.cursos
    rw [passoR21_r22]
    exact hsh

theorem fold_r21_get (P : Problem) (g : Grid) (L : List (Nat × Nat))
    (acc : Int × Est) (p t : Nat) (hp : p < TP P) (ht : t < P.professores)
    (hsh : Shape2 acc.2.r21 (TP P) P.professores) :
    getII (List.foldl (passoCel P g) acc L).2.r21 p t 0 =
      getII acc.2.r21 p t 0 +
        (L.countP (fun ij => decide (getCell g ij.1 ij.2 ≠ -1 ∧ ij.1 = p ∧
          (P.disc.getD (getCell g ij.1 ij.2).toNat default).prof = t)) : Int) := by
  induction L generalizing acc with
  | nil => simp
  | cons ij L ih =>
    rw [List.foldl_cons,
      ih (passoCel P g acc ij) (passo_r21_shape P g acc ij.1 ij.2 hsh)]
    show getII (passo P g acc ij.1 ij.2).2.r21 p t 0 + _ = _
    rw [passo_r21_get P g acc ij.1 ij.2 p t hp ht hsh, List.countP_cons]
    by_cases hq : getCell g ij.1 ij.2 ≠ -1 ∧ ij.1 = p ∧
        (P.disc.getD (getCell g ij.1 ij.2).toNat default).prof = t
    · simp only [hq, decide_eq_true_eq, if_pos hq, if_true]
      push_cast
      ring
    · simp only [if_neg hq]
      rw [if_neg (by simpa using hq)]
      push_cast
      ring

theorem fold_r22_get (P : Problem) (g : Grid) (L : List (Nat × Nat))
    (acc : Int × Est) (p t : Nat) (hp : p < TP P) (ht : t < P.cursos)
    (hsh : Shape2 acc.2.r22 (TP P) P.cursos) :
    getII (List.foldl (passoCel P g) acc L).2.r22 p t 0 =
      getII acc.2.r22 p t 0 +
        (L.countP (fun ij => decide (getCell g ij.1 ij.2 ≠ -1 ∧ ij.1 = p ∧
          (P.disc.getD (getCell g ij.1 ij.2).toNat default).cursos.getD t 0 = 1)) : Int) := by
  induction L generalizing acc with
  | nil => simp
  | cons ij L ih =>
    rw [List.foldl_cons,
      ih (passoCel P g acc ij) (passo_r22_shape P g acc ij.1 ij.2 hsh)]
    show getII (passo P g acc ij.1 ij.2).2.r22 p t 0 + _ = _
    rw [passo_r22_get P g acc ij.1 ij.2 p t hp ht hsh, List.countP_cons]
    by_cases hq : getCell g ij.1 ij.2 ≠ -1 ∧ ij.1 = p ∧
        (P.disc.getD (getCell g ij.1 ij.2).toNat default).cursos.getD t 0 = 1
    · simp only [hq, decide_eq_true_eq, if_pos hq, if_true]
      push_cast
      ring
    · simp only [if_neg hq]
      rw [if_neg (by simpa using hq)]
      push_cast
      ring

theorem sum_map_range_single (n p : Nat) (c : Nat → Nat) (hp : p < n)
    (h0 : ∀ i, i < n → i ≠ p → c i = 0) : ((List.range n).map c).sum = c p := by
  induction n with
  | zero => omega
  | succ m ih =>
    rw [List.range_succ, List.map_append, List.sum_append]
    by_cases hpm : p = m
    · subst hpm
      have hz : ((List.range p).map c).sum = 0 := by
        refine List.sum_eq_zero (fun x hx => ?_)
        obtain ⟨i, hi, rfl⟩ := List.mem_map.mp hx
        have hip : i < p := List.mem_range.mp hi
        exact h0 i (by omega) (by omega)
      simp [hz]
    · have hplt : p < m := by omega
      rw [ih hplt (fun i hi hip => h0 i (by omega) hip)]
      have hcm : c m = 0 := h0 m (by omega) (by omega)
      simp [hcm]

theorem countP_celulas (P : Problem) (Q : Nat × Nat → Bool) (p : Nat)
    (hp : p < TP P) (hQ : ∀ i j, Q (i, j) = true → i = p) :
    (celulas P).countP Q = (List.range (NS P)).countP (fun j => Q (p, j)) := by
  unfold celulas
  have hbind : ∀ l : List Nat,
      ((l.bind (fun i => (List.range (NS P)).map (fun j => (i, j)))).countP Q)
        = (l.map (fun i => (List.range (NS P)).countP (fun j => Q (i, j)))).sum := by
    intro l
    induction l with
    | nil => simp
    | cons a tl ih =>
      have hc : ((a :: tl).bind fun i => List.map (fun j => (i, j)) (List.range (NS P))) =
          (List.map (fun j => (a, j)) (List.range (NS P))) ++
            (tl.bind fun i => List.map (fun j => (i, j)) (List.range (NS P))) :=
        List.flatMap_cons ..
      rw [hc, List.countP_append, ih, List.countP_map]
      simp only [List.map_cons, List.sum_cons]
      congr 1
  rw [hbind]
  exact sum_map_range_single (TP P) p _ hp (fun i _ hip =>
    List.countP_eq_zero.mpr (fun j _ hj => hip (hQ i j hj)))

theorem varre_r21 (P : Problem) (cfg : Cfg) (g : Grid) (p t : Nat)
    (hp : p < TP P) (ht : t < P.professores) :
    getII (List.foldl (passoCel P g) (0, resetEst P cfg) (celulas P)).2.r21 p t 0 =
      (contaProf P g p t : Int) := by
  rw [fold_r21_get P g (celulas P) _ p t hp ht (mat_shape _ _ _)]
  have hz : getII (resetEst P cfg).r21 p t 0 = 0 := getII_mat0 _ _ _ _
  rw [show ((0 : Int), resetEst P cfg).2.r21 = (resetEst P cfg).r21 from rfl, hz]
  rw [countP_celulas P _ p hp (fun i j hq => by
    have := of_decide_eq_true hq
    exact this.2.1)]
  unfold contaProf
  norm_num

theorem varre_r22 (P : Problem) (cfg : Cfg) (g : Grid) (p t : Nat)
    (hp : p < TP P) (ht : t < P.cursos) :
    getII (List.foldl (passoCel P g) (0, resetEst P cfg) (celulas P)).2.r22 p t 0 =
      (contaCurso P g p t : Int) := by
  rw [fold_r22_get P g (celulas P) _ p t hp ht (mat_shape _ _ _)]
  have hz : getII (resetEst P cfg).r22 p t 0 = 0 := getII_mat0 _ _ _ _
  rw [show ((0 : Int), resetEst P cfg).2.r22 = (resetEst P cfg).r22 from rfl, hz]
  rw [countP_celulas P _ p hp (fun i j hq => by
    have := of_decide_eq_true hq
    exact this.2.1)]
  unfold contaCurso
  norm_num

theorem bumpI_viol2 (l : List Int) (i : Nat) (d : Int) (h : i ≠ 2) :
    (bumpI l i d).getD 2 0 = l.getD 2 0 ∧ (bumpI l i d).length = l.length :=
  ⟨getD_set_ne _ _ _ _ _ h, by simp [bumpI]⟩

theorem passoR21_viol (P : Problem) (i j cn pr : Nat) (s : Est) :
    (passoR21 P i j cn pr s).viol = s.viol := by
  simp only [passoR21]; split_ifs <;> rfl

theorem passoR22_viol (P : Problem) (i j cn : Nat) (dsc : Disciplina) (s : Est) :
    (passoR22 P i j cn dsc s).viol = s.viol := by
  unfold passoR22
  exact foldl_pres Est.viol _ _ _ (fun a k => by
    simp only [passoR22Step]; split_ifs <;> rfl)

theorem passoR4_viol2 (P : Problem) (c : Int) (i j : Nat) (acc : Int × Est) :
    (passoR4 P c i j acc).2.viol.getD 2 0 = acc.2.viol.getD 2 0 ∧
    (passoR4 P c i j acc).2.viol.length = acc.2.viol.length := by
  simp only [passoR4]
  split_ifs
  · exact bumpI_viol2 _ _ _ (by omega)
  · exact ⟨rfl, rfl⟩

theorem restricaoR6_viol2 (P : Problem) (g : Grid) (dis : Int) (per sal : Nat)
    (s : Est) :
    (restricaoR6 P g dis per sal s).2.viol.getD 2 0 = s.viol.getD 2 0 ∧
    (restricaoR6 P g dis per sal s).2.viol.length = s.viol.length := by
  unfold restricaoR6
  have h := foldl_pres
    (fun acc : Int × Est => (acc.2.viol.getD 2 0, acc.2.viol.length))
    (restricaoR6Step P g dis per sal) (List.range P.cursos) (0, s)
    (fun a k => by
      simp only [restricaoR6Step]
      split_ifs
      · rfl
      · show ((bumpI a.2.viol 6 1).getD 2 0, (bumpI a.2.viol 6 1).length) = _
        have hb := bumpI_viol2 a.2.viol 6 1 (by omega)
        rw [hb.1, hb.2]
      · rfl)
  exact ⟨congrArg Prod.fst h, congrArg Prod.snd h⟩

theorem passoR7_viol2 (P : Problem) (cn i j : Nat) (dsc : Disciplina)
    (acc : Int × Est) :
    (passoR7 P cn i j dsc acc).2.viol.getD 2 0 = acc.2.viol.getD 2 0 ∧
    (passoR7 P cn i j dsc acc).2.viol.length = acc.2.viol.length := by
  have hb := bumpI_viol2 acc.2.viol 7 (dsc.alunos - (P.salas.getD j default).capacidade)
    (by omega)
  simp only [passoR7]
  split_ifs <;> first
    | exact ⟨rfl, rfl⟩
    | exact ⟨hb.1, hb.2⟩

theorem passoR8_viol2 (P : Problem) (cn i j : Nat) (acc : Int × Est) :
    (passoR8 P cn i j acc).2.viol.getD 2 0 = acc.2.viol.getD 2 0 ∧
    (passoR8 P cn i j acc).2.viol.length = acc.2.viol.length := by
  have hb := bumpI_viol2 acc.2.viol 8 1 (by omega)
  simp only [passoR8]
  split_ifs <;> first
    | exact ⟨rfl, rfl⟩
    | exact ⟨hb.1, hb.2⟩

theorem passoR9_viol (P : Problem) (pr i : Nat) (s : Est) :
    (passoR9 P pr i s).viol = s.viol := by
  simp only [passoR9]; split_ifs <;> rfl

theorem passoR10_viol2 (P : Problem) (cn i j : Nat) (dsc : Disciplina)
    (acc : Int × Est) :
    (passoR10 P cn i j dsc acc).2.viol.getD 2 0 = acc.2.viol.getD 2 0 ∧
    (passoR10 P cn i j dsc acc).2.viol.length = acc.2.viol.length := by
  have hb := bumpI_viol2 acc.2.viol 10 1 (by omega)
  simp only [passoR10]
  split_ifs <;> first
    | exact ⟨rfl, rfl⟩
    | exact ⟨hb.1, hb.2⟩

theorem passoR11_viol (P : Problem) (c : Int) (cn i j : Nat) (s : Est) :
    (passoR11 P c cn i j s).viol = s.viol := by
  simp only [passoR11]; split_ifs <;> rfl

theorem passo_viol2 (P : Problem) (g : Grid) (acc : Int × Est) (i j : Nat) :
    (passo P g acc i j).2.viol.getD 2 0 = acc.2.viol.getD 2 0 ∧
    (passo P g acc i j).2.viol.length = acc.2.viol.length := by
  by_cases hc : getCell g i j = -1
  · simp [passo, hc]
  · simp only [passo, if_neg hc, passoR11_viol]
    constructor
    · rw [(passoR10_viol2 _ _ _ _ _ _).1]
      show (passoR9 P _ i _).viol.getD 2 0 = _
      rw [passoR9_viol, (passoR8_viol2 _ _ _ _ _).1, (passoR7_viol2 _ _ _ _ _ _).1]
      show (restricaoR6 P g _ i j _).2.viol.getD 2 0 = _
      rw [(restricaoR6_viol2 _ _ _ _ _ _).1]
      show (passoR4 P _ i j _).2.viol.getD 2 0 = _
      rw [(passoR4_viol2 _ _ _ _ _).1]
      show (passoR22 P i j _ _ _).viol.getD 2 0 = _
      rw [passoR22_viol, passoR21_viol]
      rfl
    · rw [(passoR10_viol2 _ _ _ _ _ _).2]
      show (passoR9 P _ i _).viol.length = _
      rw [passoR9_viol, (passoR8_viol2 _ _ _ _ _).2, (passoR7_viol2 _ _ _ _ _ _).2]
      show (restricaoR6 P g _ i j _).2.viol.length = _
      rw [(restricaoR6_viol2 _ _ _ _ _ _).2]
      show (passoR4 P _ i j _).2.viol.length = _
      rw [(passoR4_viol2 _ _ _ _ _).2]
      show (passoR22 P i j _ _ _).viol.length = _
      rw [passoR22_viol, passoR21_viol]
      rfl

theorem varre_viol2 (P : Problem) (cfg : Cfg) (g : Grid) :
    (List.foldl (passoCel P g) (0, resetEst P cfg) (celulas P)).2.viol.getD 2 0 = -1 ∧
    (List.foldl (passoCel P g) (0, resetEst P cfg) (celulas P)).2.viol.length = 12 := by
  have h := foldl_pres
    (fun acc : Int × Est => (acc.2.viol.getD 2 0, acc.2.viol.length))
    (passoCel P g) (celulas P) (0, resetEst P cfg)
    (fun a ij => by
      have hp := passo_viol2 P g a ij.1 ij.2
      show ((passo P g a ij.1 ij.2).2.viol.getD 2 0,
        (passo P g a ij.1 ij.2).2.viol.length) = _
      rw [hp.1, hp.2])
  have h1 := congrArg Prod.fst h
  have h2 := congrArg Prod.snd h
  simp only at h1 h2
  refine ⟨h1.trans ?_, h2.trans ?_⟩
  · show (fill 12 (-1)).getD 2 0 = -1
    unfold fill
    rw [getD_replicate]
    rfl
  · rfl

theorem applyN_succ (v d : Int) (n : Nat) (hd : 0 < d) :
    applyN (if v < 0 then d else v + d) d n = applyN v d (n + 1) := by
  unfold applyN
  rcases Nat.eq_zero_or_pos n with h | h
  · subst h
    split_ifs <;> first
      | contradiction
      | omega
      | (push_cast; ring_nf)
  · split_ifs <;> first
      | contradiction
      | omega
      | (push_cast; ring)

theorem applyN_encPar1 (A B a : Nat) : applyN (encPar A B) 1 a = encPar (A + a) B := by
  unfold applyN encPar
  split_ifs <;> push_cast <;> omega

theorem applyN_encPar1000 (A B b : Nat) :
    applyN (encPar A B) 1000 b = encPar A (B + b) := by
  unfold applyN encPar
  split_ifs <;> push_cast <;> omega

theorem bump2_get (viol : List Int) (d : Int) (h : 2 < viol.length) :
    (bump2 viol d).getD 2 0 = (if viol.getD 2 0 < 0 then d else viol.getD 2 0 + d) ∧
    (bump2 viol d).length = viol.length := by
  constructor
  · unfold bump2
    split_ifs <;> exact getD_set_self _ _ _ _ h
  · unfold bump2
    split_ifs <;> simp

/-- Folding the teacher half of the R2 post-pass over one period applies
`+1` (with the negative-start convention) once per conflicting teacher,
and leaves `r21`, `r22` and the length of `violations` unchanged. -/
theorem posR2Prof_fold (P : Problem) (i : Nat) (ks : List Nat) :
    ∀ acc : Int × Est, 2 < acc.2.viol.length →
    (ks.foldl (posR2Prof P i) acc).2.r21 = acc.2.r21 ∧
    (ks.foldl (posR2Prof P i) acc).2.r22 = acc.2.r22 ∧
    (ks.foldl (posR2Prof P i) acc).2.viol.length = acc.2.viol.length ∧
    (ks.foldl (posR2Prof P i) acc).2.viol.getD 2 0 =
      applyN (acc.2.viol.getD 2 0) 1
        (ks.countP (fun j => decide (1 < getII acc.2.r21 i j 0))) := by
  induction ks with
  | nil =>
    intro acc h2
    refine ⟨rfl, rfl, rfl, ?_⟩
    simp [applyN]
  | cons k ks ih =>
    intro acc h2
    rw [List.foldl_cons]
    by_cases hc : 1 < getII acc.2.r21 i k 0
    · have hb := bump2_get acc.2.viol 1 h2
      have hstep : posR2Prof P i acc k =
          (acc.1 + 1000000 * (getII acc.2.r21 i k 0 - 1),
           { acc.2 with viol := bump2 acc.2.viol 1 }) := by
        simp only [posR2Prof, if_pos hc]
      rw [hstep]
      have h2' : 2 < ((acc.1 + 1000000 * (getII acc.2.r21 i k 0 - 1),
          { acc.2 with viol := bump2 acc.2.viol 1 }) : Int × Est).2.viol.length := by
        show 2 < (bump2 acc.2.viol 1).length
        rw [hb.2]; exact h2
      obtain ⟨hr21, hr22, hlen, hget⟩ := ih _ h2'
      refine ⟨hr21, hr22, ?_, ?_⟩
      · rw [hlen]
        exact hb.2
      · rw [hget]
        show applyN ((bump2 acc.2.viol 1).getD 2 0) 1
            (ks.countP (fun j => decide (1 < getII acc.2.r21 i j 0))) =
          applyN (acc.2.viol.getD 2 0) 1
            ((k :: ks).countP (fun j => decide (1 < getII acc.2.r21 i j 0)))
        rw [hb.1, List.countP_cons]
        have hk : decide (1 < getII acc.2.r21 i k 0) = true := decide_eq_true hc
        rw [hk, if_pos rfl]
        exact applyN_succ _ 1 _ (by omega)
    · have hstep : posR2Prof P i acc k = acc := by
        simp only [posR2Prof, if_neg hc]
      have hk : decide (1 < getII acc.2.r21 i k 0) = false := decide_eq_false hc
      rw [hstep, List.countP_cons, hk]
      simpa using ih acc h2

/-- Folding the curriculum half of the R2 post-pass over one period applies
`+1000` once per conflicting curriculum, framing `r21`, `r22` and the
`violations` length. -/
theorem posR2Cur_fold (P : Problem) (i : Nat) (ks : List Nat) :
    ∀ acc : Int × Est, 2 < acc.2.viol.length →
    (ks.foldl (posR2Cur P i) acc).2.r21 = acc.2.r21 ∧
    (ks.foldl (posR2Cur P i) acc).2.r22 = acc.2.r22 ∧
    (ks.foldl (posR2Cur P i) acc).2.viol.length = acc.2.viol.length ∧
    (ks.foldl (posR2Cur P i) acc).2.viol.getD 2 0 =
      applyN (acc.2.viol.getD 2 0) 1000
        (ks.countP (fun j => decide (1 < getII acc.2.r22 i j 0))) := by
  induction ks with
  | nil =>
    intro acc h2
    refine ⟨rfl, rfl, rfl, ?_⟩
    simp [applyN]
  | cons k ks ih =>
    intro acc h2
    rw [List.foldl_cons]
    by_cases hc : 1 < getII acc.2.r22 i k 0
    · have hb := bump2_get acc.2.viol 1000 h2
      have hstep : posR2Cur P i acc k =
          (acc.1 + 1000000 * (getII acc.2.r22 i k 0 - 1),
           { acc.2 with viol := bump2 acc.2.viol 1000 }) := by
        simp only [posR2Cur, if_pos hc]
      rw [hstep]
      have h2' : 2 < ((acc.1 + 1000000 * (getII acc.2.r22 i k 0 - 1),
          { acc.2 with viol := bump2 acc.2.viol 1000 }) : Int × Est).2.viol.length := by
        show 2 < (bump2 acc.2.viol 1000).length
        rw [hb.2]; exact h2
      obtain ⟨hr21, hr22, hlen, hget⟩ := ih _ h2'
      refine ⟨hr21, hr22, ?_, ?_⟩
      · rw [hlen]
        exact hb.2
      · rw [hget]
        show applyN ((bump2 acc.2.viol 1000).getD 2 0) 1000
            (ks.countP (fun j => decide (1 < getII acc.2.r22 i j 0))) =
          applyN (acc.2.viol.getD 2 0) 1000
            ((k :: ks).countP (fun j => decide (1 < getII acc.2.r22 i j 0)))
        rw [hb.1, List.countP_cons]
        have hk : decide (1 < getII acc.2.r22 i k 0) = true := decide_eq_true hc
        rw [hk, if_pos rfl]
        exact applyN_succ _ 1000 _ (by omega)
    · have hstep : posR2Cur P i acc k = acc := by
        simp only [posR2Cur, if_neg hc]
      have hk : decide (1 < getII acc.2.r22 i k 0) = false := decide_eq_false hc
      rw [hstep, List.countP_cons, hk]
      simpa using ih acc h2

/-- One period of the R2 post-pass: teacher conflicts first (step 1), then
curriculum conflicts (step 1000). -/
theorem posR2Per_char (P : Problem) (acc : Int × Est) (i : Nat)
    (h2 : 2 < acc.2.viol.length) :
    (posR2Per P acc i).2.r21 = acc.2.r21 ∧
    (posR2Per P acc i).2.r22 = acc.2.r22 ∧
    (posR2Per P acc i).2.viol.length = acc.2.viol.length ∧
    (posR2Per P acc i).2.viol.getD 2 0 =
      applyN (applyN (acc.2.viol.getD 2 0) 1
          ((List.range P.professores).countP
            (fun j => decide (1 < getII acc.2.r21 i j 0)))) 1000
        ((List.range P.cursos).countP
          (fun j => decide (1 < getII acc.2.r22 i j 0))) := by
  obtain ⟨h1a, h1b, h1c, h1d⟩ :=
    posR2Prof_fold P i (List.range P.professores) acc h2
  have h2' : 2 < ((List.range P.professores).foldl (posR2Prof P i) acc).2.viol.length := by
    rw [h1c]; exact h2
  obtain ⟨h2a, h2b, h2c, h2d⟩ :=
    posR2Cur_fold P i (List.range P.cursos)
      ((List.range P.professores).foldl (posR2Prof P i) acc) h2'
  unfold posR2Per
  refine ⟨h2a.trans h1a, h2b.trans h1b, h2c.trans h1c, ?_⟩
  rw [h2d, h1b, h1d]

/-- The full R2 post-pass maintains the radix-1000 encoding: starting from
`encPar A B` it ends at `encPar` of the accumulated teacher and curriculum
conflict counts, and frames `r21`, `r22` and the `violations` length. -/
theorem posR2_fold (P : Problem) (ps : List Nat) :
    ∀ (acc : Int × Est) (A B : Nat), 2 < acc.2.viol.length →
    acc.2.viol.getD 2 0 = encPar A B →
    (ps.foldl (posR2Per P) acc).2.r21 = acc.2.r21 ∧
    (ps.foldl (posR2Per P) acc).2.r22 = acc.2.r22 ∧
    (ps.foldl (posR2Per P) acc).2.viol.length = acc.2.viol.length ∧
    (ps.foldl (posR2Per P) acc).2.viol.getD 2 0 =
      encPar (A + (ps.map (fun i => (List.range P.professores).countP
          (fun j => decide (1 < getII acc.2.r21 i j 0)))).sum)
        (B + (ps.map (fun i => (List.range P.cursos).countP
          (fun j => decide (1 < getII acc.2.r22 i j 0)))).sum) := by
  induction ps with
  | nil =>
    intro acc A B h2 hv
    exact ⟨rfl, rfl, rfl, by simpa using hv⟩
  | cons p ps ih =>
    intro acc A B h2 hv
    rw [List.foldl_cons]
    obtain ⟨ha, hb', hc, hd⟩ := posR2Per_char P acc p h2
    have h2' : 2 < (posR2Per P acc p).2.viol.length := by rw [hc]; exact h2
    have hv' : (posR2Per P acc p).2.viol.getD 2 0 =
        encPar (A + (List.range P.professores).countP
            (fun j => decide (1 < getII acc.2.r21 p j 0)))
          (B + (List.range P.cursos).countP
            (fun j => decide (1 < getII acc.2.r22 p j 0))) := by
      rw [hd, hv, applyN_encPar1, applyN_encPar1000]
    obtain ⟨ia, ib, ic, id2⟩ := ih (posR2Per P acc p) _ _ h2' hv'
    refine ⟨ia.trans ha, ib.trans hb', ic.trans hc, ?_⟩
    rw [id2, ha, hb']
    simp only [List.map_cons, List.sum_cons]
    rw [Nat.add_assoc, Nat.add_assoc]

/-- The R1/R5 post-pass touches only `violations[1]` and `violations[5]`. -/
theorem posR1R5Step_viol2 (P : Problem) (acc : Int × Est) (i : Nat) :
    (posR1R5Step P acc i).2.viol.getD 2 0 = acc.2.viol.getD 2 0 ∧
    (posR1R5Step P acc i).2.viol.length = acc.2.viol.length := by
  simp only [posR1R5Step]
  split_ifs <;> first
    | exact ⟨rfl, rfl⟩
    | exact ⟨(bumpI_viol2 _ 5 _ (by omega)).1, (bumpI_viol2 _ 5 _ (by omega)).2⟩

theorem posR1R5_viol2 (P : Problem) (acc : Int × Est) :
    (posR1R5 P acc).2.viol.getD 2 0 = acc.2.viol.getD 2 0 ∧
    (posR1R5 P acc).2.viol.length = acc.2.viol.length := by
  unfold posR1R5
  have h := foldl_pres
    (fun a : Int × Est => (a.2.viol.getD 2 0, a.2.viol.length))
    (posR1R5Step P) (List.range (ND P)) acc
    (fun a i => by
      have hp := posR1R5Step_viol2 P a i
      show ((posR1R5Step P a i).2.viol.getD 2 0,
        (posR1R5Step P a i).2.viol.length) = _
      rw [hp.1, hp.2])
  exact ⟨congrArg Prod.fst h, congrArg Prod.snd h⟩

/-- The R9 post-pass touches only `violations[9]`. -/
theorem posR9Step_viol2 (P : Problem) (acc : Int × Est) (i : Nat) :
    (posR9Step P acc i).2.viol.getD 2 0 = acc.2.viol.getD 2 0 ∧
    (posR9Step P acc i).2.viol.length = acc.2.viol.length := by
  simp only [posR9Step]
  split_ifs <;> first
    | exact ⟨rfl, rfl⟩
    | exact ⟨(bumpI_viol2 _ 9 _ (by omega)).1, (bumpI_viol2 _ 9 _ (by omega)).2⟩

theorem posR9_viol2 (P : Problem) (acc : Int × Est) :
    (posR9 P acc).2.viol.getD 2 0 = acc.2.viol.getD 2 0 ∧
    (posR9 P acc).2.viol.length = acc.2.viol.length := by
  unfold posR9
  have h := foldl_pres
    (fun a : Int × Est => (a.2.viol.getD 2 0, a.2.viol.length))
    (posR9Step P) (List.range P.professores) acc
    (fun a i => by
      have hp := posR9Step_viol2 P a i
      show ((posR9Step P a i).2.viol.getD 2 0,
        (posR9Step P a i).2.viol.length) = _
      rw [hp.1, hp.2])
  exact ⟨congrArg Prod.fst h, congrArg Prod.snd h⟩

/-- The R11 post-pass touches only `violations[11]`. -/
theorem posR11Disc_viol2 (P : Problem) (i : Nat) (acc : Int × Est) (j : Nat) :
    (posR11Disc P i acc j).2.viol.getD 2 0 = acc.2.viol.getD 2 0 ∧
    (posR11Disc P i acc j).2.viol.length = acc.2.viol.length := by
  simp only [posR11Disc]
  split_ifs <;> first
    | exact ⟨rfl, rfl⟩
    | exact ⟨(bumpI_viol2 _ 11 _ (by omega)).1, (bumpI_viol2 _ 11 _ (by omega)).2⟩

theorem posR11Dia_viol2 (P : Problem) (acc : Int × Est) (i : Nat) :
    (posR11Dia P acc i).2.viol.getD 2 0 = acc.2.viol.getD 2 0 ∧
    (posR11Dia P acc i).2.viol.length = acc.2.viol.length := by
  unfold posR11Dia
  have h := foldl_pres
    (fun a : Int × Est => (a.2.viol.getD 2 0, a.2.viol.length))
    (posR11Disc P i) (List.range (ND P)) acc
    (fun a j => by
      have hp := posR11Disc_viol2 P i a j
      show ((posR11Disc P i a j).2.viol.getD 2 0,
        (posR11Disc P i a j).2.viol.length) = _
      rw [hp.1, hp.2])
  exact ⟨congrArg Prod.fst h, congrArg Prod.snd h⟩

theorem posR11_viol2 (P : Problem) (acc : Int × Est) :
    (posR11 P acc).2.viol.getD 2 0 = acc.2.viol.getD 2 0 ∧
    (posR11 P acc).2.viol.length = acc.2.viol.length := by
  unfold posR11
  have h := foldl_pres
    (fun a : Int × Est => (a.2.viol.getD 2 0, a.2.viol.length))
    (posR11Dia P) (List.range P.dias) acc
    (fun a i => by
      have hp := posR11Dia_viol2 P a i
      show ((posR11Dia P a i).2.viol.getD 2 0,
        (posR11Dia P a i).2.viol.length) = _
      rw [hp.1, hp.2])
  exact ⟨congrArg Prod.fst h, congrArg Prod.snd h⟩

/-- C3: after any full evaluation of a grid, `violations[2]` equals
`tp + 1000·cp` whenever `tp + cp ≥ 1` and `-1` otherwise (the `encPar`
composition), where `tp` counts (period, teacher) pairs with more than one
lecture and `cp` counts (period, curriculum) pairs with more than one
lecture — independently of the traversal order, since both counts are
functions of the grid alone. -/
theorem c3_viol2_radix (P : Problem) (cfg : Cfg) (s0 : Est) (g : Grid) :
    (calcula_FO P cfg s0 g).2.viol.getD 2 0 = encPar (tpG P g) (cpG P g) := by
  simp only [calcula_FO]
  set a1 := (celulas P).foldl (passoCel P g) (0, resetEst P cfg) with ha1
  obtain ⟨hv1, hlen1⟩ := varre_viol2 P cfg g
  rw [← ha1] at hv1 hlen1
  have h2 : 2 < a1.2.viol.length := by rw [hlen1]; omega
  have hv : a1.2.viol.getD 2 0 = encPar 0 0 := by rw [hv1]; rfl
  obtain ⟨hr21, hr22, hlen2, hget2⟩ :=
    posR2_fold P (List.range (TP P)) a1 0 0 h2 hv
  rw [(posR11_viol2 P _).1, (posR9_viol2 P _).1, (posR1R5_viol2 P _).1]
  show ((List.range (TP P)).foldl (posR2Per P) a1).2.viol.getD 2 0 = _
  rw [hget2]
  have htp : ((List.range (TP P)).map (fun p => (List.range P.professores).countP
      (fun j => decide (1 < getII a1.2.r21 p j 0)))).sum = tpG P g := by
    unfold tpG
    congr 1
    apply List.map_congr_left
    intro p hp
    apply List.countP_congr
    intro j hj
    have hplt := List.mem_range.mp hp
    have hjlt := List.mem_range.mp hj
    have hvj := varre_r21 P cfg g p j hplt hjlt
    rw [← ha1] at hvj
    rw [hvj]
    simp [Nat.one_lt_cast]
  have hcp : ((List.range (TP P)).map (fun p => (List.range P.cursos).countP
      (fun j => decide (1 < getII a1.2.r22 p j 0)))).sum = cpG P g := by
    unfold cpG
    congr 1
    apply List.map_congr_left
    intro p hp
    apply List.countP_congr
    intro j hj
    have hplt := List.mem_range.mp hp
    have hjlt := List.mem_range.mp hj
    have hvj := varre_r22 P cfg g p j hplt hjlt
    rw [← ha1] at hvj
    rw [hvj]
    simp [Nat.one_lt_cast]
  rw [Nat.zero_add, Nat.zero_add, htp, hcp]

/-! ## C4 — monotonicity of `melhor.fo` in the SA driver -/

theorem passoSA_melhor_le (st : Sol × Sol) (viz : Sol) (b : Bool) :
    (passoSA st viz b).2.fo ≤ st.2.fo := by
  simp only [passoSA]
  split_ifs with h1 h2 h3 <;> simp <;> omega

theorem execSA_melhor_le (evs : List (Sol × Bool)) (st : Sol × Sol) :
    (execSA st evs).2.fo ≤ st.2.fo := by
  induction evs generalizing st with
  | nil => exact le_refl _
  | cons ev t ih =>
    exact le_trans (ih (passoSA st ev.1 ev.2)) (passoSA_melhor_le st ev.1 ev.2)

/-- C4: during one SA run `melhor.fo` is monotone non-increasing — it
starts as the initial solution, at every iteration it either stays or is
replaced by the accepted neighbor only when that neighbor's `fo` is
strictly smaller, and `SA` returns `melhor`.  The oracle event list covers
every cooling schedule, re-heating pattern and Metropolis outcome. -/
theorem c4_melhor_monotono (inicial : Sol) (evs evs2 : List (Sol × Bool)) :
    (execSA (inicial, inicial) (evs ++ evs2)).2.fo ≤
      (execSA (inicial, inicial) evs).2.fo ∧
    SA inicial (evs ++ evs2) = (execSA (inicial, inicial) (evs ++ evs2)).2 ∧
    (∀ st : Sol × Sol, ∀ viz : Sol, ∀ b : Bool,
      (passoSA st viz b).2 = st.2 ∨
        ((passoSA st viz b).2 = viz ∧ viz.fo < st.2.fo)) := by
  refine ⟨?_, rfl, ?_⟩
  · unfold execSA
    rw [List.foldl_append]
    exact execSA_melhor_le evs2 _
  · intro st viz b
    simp only [passoSA]
    split_ifs with h1 h2 h3
    · right; exact ⟨rfl, h2⟩
    · left; rfl
    · left; rfl
    · left; rfl


/-! ## C7 — the primary test and the failure counter of `solucaoInicial` -/

/-- Counterexample to the "3 consecutive failed draws per lecture" reading:
for the single course of `P7` (2 lectures, rooms of capacity 0 and 10),
after two failed draws the first lecture is placed (counter drops to -1,
not 0), and then three consecutive failed draws for the second lecture on
empty cells force no placement at all; only a fourth consecutive failure
triggers the forced placement, into the capacity-0 room. -/
theorem c7_contador_cex :
    (alocaCurso P7 0 (gradeVazia P7) 2 0 [0, 0, 1, 0, 0, 1, 0, 0, 0, 0, 1, 0] 6).1
        = [[-1, 0], [-1, -1]] ∧
    (alocaCurso P7 0 (gradeVazia P7) 2 0
        [0, 0, 1, 0, 0, 1, 0, 0, 0, 0, 1, 0, 0, 0] 7).1
        = [[0, 0], [-1, -1]] := by decide

/-- C7 (amended): one draw of the placement loop accepts the drawn cell by
the primary test exactly when the cell is empty, the room capacity covers
the student count, R4 does not forbid the period and the room type is at
least the required type (then the per-course failure counter decreases by
3, it is not reset); a failed draw increments the counter, and the forced
fallback placement happens exactly when the incremented counter exceeds 2
and the drawn cell is empty, regardless of capacity, type or R4. -/
theorem c7_construtor (P : Problem) (j : Nat) (g : Grid) (atr cont : Int)
    (o : List Nat) (hTP : 0 < TP P) (hNS : 0 < NS P) (hg : GradeOK P g) :
    passoInicial P j g atr cont o =
      (if getCell g (o.headD 0 % TP P) (o.tail.headD 0 % NS P) = -1 ∧
          (P.salas.getD (o.tail.headD 0 % NS P) default).capacidade ≥
            (P.disc.getD j default).alunos ∧
          restricaoR4 P (j : Int) (o.headD 0 % TP P) = false ∧
          (P.salas.getD (o.tail.headD 0 % NS P) default).tipo_sala ≥
            (P.disc.getD j default).tipo_sala
       then (setCell g (o.headD 0 % TP P) (o.tail.headD 0 % NS P) (j : Int),
             atr - 1, cont - 3, o.tail.tail)
       else if 2 < cont + 1 ∧
              getCell g (o.headD 0 % TP P) (o.tail.headD 0 % NS P) = -1
       then (setCell g (o.headD 0 % TP P) (o.tail.headD 0 % NS P) (j : Int),
             atr - 1, cont + 1 - 3, o.tail.tail)
       else (g, atr, cont + 1, o.tail.tail)) := by
  have hi : o.headD 0 % TP P < TP P := Nat.mod_lt _ hTP
  have hk : o.tail.headD 0 % NS P < NS P := Nat.mod_lt _ hNS
  have hiL : o.headD 0 % TP P < g.length := by rw [hg.1]; exact hi
  have hkL : o.tail.headD 0 % NS P < (g.getD (o.headD 0 % TP P) []).length := by
    rw [hg.2 _ (getD_mem g _ [] hiL)]; exact hk
  simp only [passoInicial, rnd0]
  by_cases hprim : getCell g (o.headD 0 % TP P) (o.tail.headD 0 % NS P) = -1 ∧
      (P.salas.getD (o.tail.headD 0 % NS P) default).capacidade ≥
        (P.disc.getD j default).alunos ∧
      restricaoR4 P (j : Int) (o.headD 0 % TP P) = false ∧
      (P.salas.getD (o.tail.headD 0 % NS P) default).tipo_sala ≥
        (P.disc.getD j default).tipo_sala
  · rw [if_pos hprim, if_pos hprim]
    have hset : getCell
        (setCell g (o.headD 0 % TP P) (o.tail.headD 0 % NS P) (j : Int))
        (o.headD 0 % TP P) (o.tail.headD 0 % NS P) = (j : Int) :=
      getII_setII_self g _ _ _ (-1) hiL hkL
    have hno : ¬(2 < cont - 3 ∧ getCell
        (setCell g (o.headD 0 % TP P) (o.tail.headD 0 % NS P) (j : Int))
        (o.headD 0 % TP P) (o.tail.headD 0 % NS P) = -1) := by
      rintro ⟨-, hcc⟩
      rw [hset] at hcc
      omega
    rw [if_neg hno]
  · rw [if_neg hprim, if_neg hprim]

/-- The amended C7 theorem at a concrete input: drawing cell (0, 1) of the
empty `P7` grid passes the primary test and places the lecture there. -/
theorem c7_construtor_witness :
    0 < TP P7 ∧ 0 < NS P7 ∧ GradeOK P7 (gradeVazia P7) ∧
    passoInicial P7 0 (gradeVazia P7) 2 0 [0, 1] =
      ([[-1, 0], [-1, -1]], 1, -3, []) := by
  refine ⟨by decide, by decide, by unfold GradeOK; decide, ?_⟩
  rw [c7_construtor P7 0 (gradeVazia P7) 2 0 [0, 1]
    (by decide) (by decide) (by unfold GradeOK; decide)]
  decide

/-! ## C9 — the `fo = -1` sentinel of `construcao` and the exit code of
`main` -/

theorem passoSA_melhor_nonneg (st : Sol × Sol) (viz : Sol) (b : Bool)
    (h0 : 0 ≤ st.2.fo) (hv : 0 ≤ viz.fo) : 0 ≤ (passoSA st viz b).2.fo := by
  simp only [passoSA]
  split_ifs <;> first
    | exact hv
    | exact h0

theorem execSA_melhor_nonneg (evs : List (Sol × Bool)) :
    ∀ st : Sol × Sol, 0 ≤ st.2.fo → (∀ ev ∈ evs, 0 ≤ ev.1.fo) →
    0 ≤ (execSA st evs).2.fo := by
  induction evs with
  | nil =>
    intro st h0 _
    exact h0
  | cons e t ih =>
    intro st h0 hev
    show 0 ≤ (execSA (passoSA st e.1 e.2) t).2.fo
    exact ih _ (passoSA_melhor_nonneg st e.1 e.2 h0 (hev e (List.mem_cons_self e t)))
      (fun ev h => hev ev (List.mem_cons_of_mem _ h))

/-- A phase that does read its input always ends with a nonnegative
objective: every solution fed to `SA` carries a `calcula_FO` value. -/
theorem construcao_fo_nonneg (P : Problem) (cfg : Cfg) (o : List Nat)
    (fuel : Nat) (evs : List (Grid × Bool)) :
    0 ≤ (construcao (some P) cfg o fuel evs).fo := by
  show 0 ≤ (SA (mkSol P cfg (solucaoInicial P o fuel).1)
    (evs.map (fun ev => (mkSol P cfg ev.1, ev.2)))).fo
  unfold SA
  apply execSA_melhor_nonneg
  · exact calcFO_nonneg P cfg default (solucaoInicial P o fuel).1
  · intro ev hev
    obtain ⟨e0, _, he⟩ := List.mem_map.mp hev
    rw [← he]
    exact calcFO_nonneg P cfg default e0.1

/-- C9: `construcao` returns the `fo = -1` sentinel exactly when its input
cannot be read (modelled as `entrada = none`, in which case no
construction or optimization happens), and `main` exits with 1 exactly
when one of the two phases got no input, with 0 when both completed. -/
theorem c9_sentinela (entrada : Option Problem) (cfg : Cfg) (o : List Nat)
    (fuel : Nat) (evs : List (Grid × Bool))
    (e1 e2 : Option Problem) (o1 o2 : List Nat) (evs1 evs2 : List (Grid × Bool)) :
    ((construcao entrada cfg o fuel evs).fo = -1 ↔ entrada = none) ∧
    (mainExit e1 e2 o1 o2 fuel evs1 evs2 = 1 ↔ e1 = none ∨ e2 = none) ∧
    (mainExit e1 e2 o1 o2 fuel evs1 evs2 = 0 ↔ e1 ≠ none ∧ e2 ≠ none) := by
  have hiff : ∀ (en : Option Problem) (c : Cfg) (oo : List Nat)
      (ev : List (Grid × Bool)),
      ((construcao en c oo fuel ev).fo = -1 ↔ en = none) := by
    intro en c oo ev
    cases en with
    | none => simp [construcao]
    | some P =>
      simp only [construcao]
      constructor
      · intro h
        have := construcao_fo_nonneg P c oo fuel ev
        simp only [construcao] at this
        omega
      · intro h
        cases h
  refine ⟨hiff entrada cfg o evs, ?_, ?_⟩
  · cases e1 with
    | none => simp [mainExit, construcao]
    | some P1 =>
      have h1 : ¬((construcao (some P1) cfgSemSemente o1 fuel evs1).fo = -1) := by
        rw [hiff]
        simp
      simp only [mainExit, if_neg h1]
      cases e2 with
      | none => simp [construcao]
      | some P2 =>
        have h2 : ¬((construcao (some P2)
            (fase2Cfg P1 (construcao (some P1) cfgSemSemente o1 fuel evs1).n)
            o2 fuel evs2).fo = -1) := by
          rw [hiff]
          simp
        simp [if_neg h2]
  · cases e1 with
    | none => simp [mainExit, construcao]
    | some P1 =>
      have h1 : ¬((construcao (some P1) cfgSemSemente o1 fuel evs1).fo = -1) := by
        rw [hiff]
        simp
      simp only [mainExit, if_neg h1]
      cases e2 with
      | none => simp [construcao]
      | some P2 =>
        have h2 : ¬((construcao (some P2)
            (fase2Cfg P1 (construcao (some P1) cfgSemSemente o1 fuel evs1).n)
            o2 fuel evs2).fo = -1) := by
          rw [hiff]
          simp
        simp [if_neg h2]

/-! ## C6 — bookkeeping of the targeted move classes of `geraViz` -/

/-- Counterexample: dispatching `geraViz` into the R9 move class (draw
400 with `violations[9] = 1`) on the `Pb` instance moves the single
lecture from day 0 to day 1 — the grid changes — while the index state is
returned entirely unchanged: no witness is cleared and no `violations[]`
entry is decremented by this targeted class. -/
theorem c6_sem_baixa_cex :
    (geraViz Pb 2 g6 s6 [400, 0, 0, 1, 0, 0] 10).1 = [[-1], [0], [-1]] ∧
    (geraViz Pb 2 g6 s6 [400, 0, 0, 1, 0, 0] 10).2.1 = s6 ∧ g6 ≠ [[-1], [0], [-1]] := by
  decide

/-- C6 (amended): the per-class bookkeeping of the targeted moves on
their success paths.  The R2-teacher, R2-curriculum, R6, R7 and R10
classes clear the witness entry they used and lower `violations[2]` (by 1
resp. 1000), `violations[6]` (by 2), `violations[7]` and `violations[10]`
(by 1).  The R8 class lowers `violations[8]` but clears `r8[aux]` instead
of its `aux_mov_r8` witness, which is left untouched; the R9 class
performs its move with no bookkeeping at all; the R11 class clears its
witness but never decrements `violations[11]`. -/
theorem c6_movimentos (P : Problem) (tent fuel : Nat) :
    (∀ g s o aux o1 g1 o2,
      1 < (s.viol.getD 2 0).tmod 1000 →
      buscaTest (fun j => decide (s.amR21.getD j (-1) ≠ -1)) (ND P) o 0 fuel
        = some (aux, o1) →
      alvo1 P s (decodPer P (s.amR21.getD aux (-1)))
        (decodSal P (s.amR21.getD aux (-1))) g o1 fuel = some (g1, o2) →
      aux < s.amR21.length → 2 < s.viol.length →
      (mov1 P tent g s o fuel).1 = g1 ∧
      (mov1 P tent g s o fuel).2.1.amR21.getD aux (-1) = -1 ∧
      (mov1 P tent g s o fuel).2.1.viol.getD 2 0 = s.viol.getD 2 0 - 1) ∧
    (∀ g s o aux o1 g1 o2,
      1000 < s.viol.getD 2 0 →
      buscaTest (fun j => decide (s.amR22.getD j (-1) ≠ -1)) (ND P) o 0 fuel
        = some (aux, o1) →
      alvo2 P (decodPer P (s.amR22.getD aux (-1)))
        (decodSal P (s.amR22.getD aux (-1))) g o1 fuel = some (g1, o2) →
      aux < s.amR22.length → 2 < s.viol.length →
      (mov2 P tent g s o fuel).1 = g1 ∧
      (mov2 P tent g s o fuel).2.1.amR22.getD aux (-1) = -1 ∧
      (mov2 P tent g s o fuel).2.1.viol.getD 2 0 = s.viol.getD 2 0 - 1000) ∧
    (∀ g s o ri rj o1 g2 am2 o2,
      buscaR6 s.amR6 (TP P) (NS P) o 0 0 fuel = some ((ri, rj), o1) →
      alvoR6 P tent ri rj g s.amR6 o1 0 fuel = (true, g2, am2, o2) →
      ri < am2.length → rj < (am2.getD ri []).length → 6 < s.viol.length →
      (mov3 P tent g s o fuel).1 = g2 ∧
      getII (mov3 P tent g s o fuel).2.1.amR6 ri rj (-1) = -1 ∧
      (mov3 P tent g s o fuel).2.1.viol.getD 6 0 = s.viol.getD 6 0 - 2) ∧
    (∀ g s o aux o1 g2 o2,
      buscaTest (fun j => decide ((s.amR7.getD j (-1, -1)).1 ≠ -1)) (ND P) o 0 fuel
        = some (aux, o1) →
      alvo4 P tent s aux (decodPer P (s.amR7.getD aux (-1, -1)).2)
        (decodSal P (s.amR7.getD aux (-1, -1)).2) g o1 0 fuel = (true, g2, o2) →
      aux < s.amR7.length → 7 < s.viol.length →
      (mov4 P tent g s o fuel).1 = g2 ∧
      (mov4 P tent g s o fuel).2.1.amR7.getD aux (-1, -1) = (-1, -1) ∧
      (mov4 P tent g s o fuel).2.1.viol.getD 7 0 = s.viol.getD 7 0 - 1) ∧
    (∀ g s o aux g2 o2,
      aux = (if (TP P : Int) ≤ s.viol.getD 8 0 then o.headD 0 % TP P
             else o.headD 0 % ((s.viol.getD 8 0).toNat + 1)) →
      alvo5 P tent s (decodPer P (s.amR8.getD aux (-1)))
        (decodSal P (s.amR8.getD aux (-1))) g o.tail 0 fuel = (true, g2, o2) →
      8 < s.viol.length →
      (mov5 P tent g s o fuel).1 = g2 ∧
      (mov5 P tent g s o fuel).2.1.amR8 = s.amR8 ∧
      (mov5 P tent g s o fuel).2.1.r8 = s.r8.set aux (-1) ∧
      (mov5 P tent g s o fuel).2.1.viol.getD 8 0 = s.viol.getD 8 0 - 1) ∧
    (∀ g s o fl, (mov6 P tent g s o fl).2.1 = s) ∧
    (∀ g s o aux o1 g2 o2,
      buscaTest (fun j => decide ((s.amR10.getD j (-1, -1)).1 ≠ -1)) (ND P) o 0 fuel
        = some (aux, o1) →
      alvo7 P tent aux (decodPer P (s.amR10.getD aux (-1, -1)).2)
        (decodSal P (s.amR10.getD aux (-1, -1)).2) g o1 0 fuel = (true, g2, o2) →
      aux < s.amR10.length → 10 < s.viol.length →
      (mov7 P tent g s o fuel).1 = g2 ∧
      (mov7 P tent g s o fuel).2.1.amR10.getD aux (-1, -1) = (-1, -1) ∧
      (mov7 P tent g s o fuel).2.1.viol.getD 10 0 = s.viol.getD 10 0 - 1) ∧
    (∀ g s o, (mov8 P tent g s o).2.1.viol = s.viol) ∧
    (∀ g s o pr sr,
      buscaR11 s.amR11 (TP P) (NS P) = some (pr, sr) →
      pr < s.amR11.length → sr < (s.amR11.getD pr []).length →
      getII (mov8 P tent g s o).2.1.amR11 pr sr (-1) = -1) := by
  refine ⟨?_, ?_, ?_, ?_, ?_, ?_, ?_, ?_, ?_⟩
  · intro g s o aux o1 g1 o2 hguard hb ha haux hlen
    simp only [mov1, if_pos hguard, hb, ha]
    refine ⟨by trivial, ?_, ?_⟩
    · exact getD_set_self _ _ _ _ haux
    · exact getD_set_self _ _ _ _ hlen
  · intro g s o aux o1 g1 o2 hguard hb ha haux hlen
    simp only [mov2, if_pos hguard, hb, ha]
    refine ⟨by trivial, ?_, ?_⟩
    · exact getD_set_self _ _ _ _ haux
    · exact getD_set_self _ _ _ _ hlen
  · intro g s o ri rj o1 g2 am2 o2 hb ha hri hrj hlen
    simp only [mov3, hb, ha]
    refine ⟨by trivial, ?_, ?_⟩
    · exact getII_setII_self _ _ _ _ _ hri hrj
    · exact getD_set_self _ _ _ _ hlen
  · intro g s o aux o1 g2 o2 hb ha haux hlen
    simp only [mov4, hb, ha]
    refine ⟨by trivial, ?_, ?_⟩
    · exact getD_set_self _ _ _ _ haux
    · exact getD_set_self _ _ _ _ hlen
  · intro g s o aux g2 o2 haux ha hlen
    have hr0 : (if (TP P : Int) ≤ s.viol.getD 8 0 then rnd0 o (TP P)
        else rnd0 o ((s.viol.getD 8 0).toNat + 1)) = (aux, o.tail) := by
      rw [haux]
      by_cases hc : (TP P : Int) ≤ s.viol.getD 8 0
      · rw [if_pos hc, if_pos hc]; rfl
      · rw [if_neg hc, if_neg hc]; rfl
    simp only [mov5, hr0, ha]
    refine ⟨by trivial, by trivial, by trivial, ?_⟩
    exact getD_set_self _ _ _ _ hlen
  · intro g s o fl
    simp only [mov6, rnd0]
    split
    · rfl
    · split <;> rfl
  · intro g s o aux o1 g2 o2 hb ha haux hlen
    simp only [mov7, hb, ha]
    refine ⟨by trivial, ?_, ?_⟩
    · exact getD_set_self _ _ _ _ haux
    · exact getD_set_self _ _ _ _ hlen
  · intro g s o
    unfold mov8
    rcases hb : buscaR11 s.amR11 (TP P) (NS P) with _ | pr
    · rfl
    · rfl
  · intro g s o pr sr hb hpr hsr
    simp only [mov8, hb]
    exact getII_setII_self _ _ _ _ _ hpr hsr

/-- The amended C6 theorem exercised on concrete success runs of every
targeted move class over the `Pb` instance. -/
theorem c6_movimentos_witness :
    ((mov1 Pb 2 g6 sb1 [0, 1, 0] 10).1 = [[-1], [0], [-1]] ∧
     (mov1 Pb 2 g6 sb1 [0, 1, 0] 10).2.1.amR21.getD 0 (-1) = -1 ∧
     (mov1 Pb 2 g6 sb1 [0, 1, 0] 10).2.1.viol.getD 2 0 = sb1.viol.getD 2 0 - 1) ∧
    ((mov2 Pb 2 g6 sb2 [0, 1, 0] 10).1 = [[-1], [0], [-1]] ∧
     (mov2 Pb 2 g6 sb2 [0, 1, 0] 10).2.1.amR22.getD 0 (-1) = -1 ∧
     (mov2 Pb 2 g6 sb2 [0, 1, 0] 10).2.1.viol.getD 2 0 = sb2.viol.getD 2 0 - 1000) ∧
    ((mov3 Pb 2 g6 sb3 [0, 0, 1, 0] 10).1 = [[-1], [0], [-1]] ∧
     getII (mov3 Pb 2 g6 sb3 [0, 0, 1, 0] 10).2.1.amR6 0 0 (-1) = -1 ∧
     (mov3 Pb 2 g6 sb3 [0, 0, 1, 0] 10).2.1.viol.getD 6 0 = sb3.viol.getD 6 0 - 2) ∧
    ((mov4 Pb 2 g6 sb4 [0, 1, 0] 10).1 = [[-1], [0], [-1]] ∧
     (mov4 Pb 2 g6 sb4 [0, 1, 0] 10).2.1.amR7.getD 0 (-1, -1) = (-1, -1) ∧
     (mov4 Pb 2 g6 sb4 [0, 1, 0] 10).2.1.viol.getD 7 0 = sb4.viol.getD 7 0 - 1) ∧
    ((mov5 Pb 2 g6 sb5 [0, 1] 10).1 = [[-1], [0], [-1]] ∧
     (mov5 Pb 2 g6 sb5 [0, 1] 10).2.1.amR8 = sb5.amR8 ∧
     (mov5 Pb 2 g6 sb5 [0, 1] 10).2.1.r8 = sb5.r8.set 0 (-1) ∧
     (mov5 Pb 2 g6 sb5 [0, 1] 10).2.1.viol.getD 8 0 = sb5.viol.getD 8 0 - 1) ∧
    (mov6 Pb 2 g6 s6 [0] 10).2.1 = s6 ∧
    ((mov7 Pb 2 g6 sb7 [0, 1, 0] 10).1 = [[-1], [0], [-1]] ∧
     (mov7 Pb 2 g6 sb7 [0, 1, 0] 10).2.1.amR10.getD 0 (-1, -1) = (-1, -1) ∧
     (mov7 Pb 2 g6 sb7 [0, 1, 0] 10).2.1.viol.getD 10 0 = sb7.viol.getD 10 0 - 1) ∧
    (mov8 Pb 2 g6 sb8 [1, 0]).2.1.viol = sb8.viol ∧
    getII (mov8 Pb 2 g6 sb8 [1, 0]).2.1.amR11 0 0 (-1) = -1 := by
  obtain ⟨h1, h2, h3, h4, h5, h6, h7, h8, h9⟩ := c6_movimentos Pb 2 10
  refine ⟨?_, ?_, ?_, ?_, ?_, ?_, ?_, ?_, ?_⟩
  · exact h1 g6 sb1 [0, 1, 0] 0 [1, 0] [[-1], [0], [-1]] []
      (by decide) (by decide) (by decide) (by decide) (by decide)
  · exact h2 g6 sb2 [0, 1, 0] 0 [1, 0] [[-1], [0], [-1]] []
      (by decide) (by decide) (by decide) (by decide) (by decide)
  · exact h3 g6 sb3 [0, 0, 1, 0] 0 0 [1, 0] [[-1], [0], [-1]] sb3.amR6 []
      (by decide) (by decide) (by decide) (by decide) (by decide)
  · exact h4 g6 sb4 [0, 1, 0] 0 [1, 0] [[-1], [0], [-1]] []
      (by decide) (by decide) (by decide) (by decide)
  · exact h5 g6 sb5 [0, 1] 0 [[-1], [0], [-1]] []
      (by decide) (by decide) (by decide)
  · exact h6 g6 s6 [0] 10
  · exact h7 g6 sb7 [0, 1, 0] 0 [1, 0] [[-1], [0], [-1]] []
      (by decide) (by decide) (by decide) (by decide)
  · exact h8 g6 sb8 [1, 0]
  · exact h9 g6 sb8 [1, 0] 0 0 (by decide) (by decide) (by decide)

/-! ## C10 — cell-count toolkit for the grid mutations of `geraViz` -/

theorem conta_set (l : List Int) (j : Nat) (v x : Int) (hj : j < l.length) :
    conta x (l.set j v) + (if l.getD j (-1) = x then 1 else 0) =
      conta x l + (if v = x then 1 else 0) := by
  induction l generalizing j with
  | nil => simp at hj
  | cons a t ih =>
    cases j with
    | zero =>
      simp only [List.set_cons_zero, conta, List.getD_cons_zero]
      omega
    | succ m =>
      have hm : m < t.length := by simpa using hj
      simp only [List.set_cons_succ, conta, getD_cons_succ]
      have := ih m hm
      omega

theorem sum_map_set {α : Type} (g : List α) (i : Nat) (r : α) (f : α → Nat)
    (d : α) (hi : i < g.length) :
    ((g.set i r).map f).sum + f (g.getD i d) = (g.map f).sum + f r := by
  induction g generalizing i with
  | nil => simp at hi
  | cons a t ih =>
    cases i with
    | zero =>
      simp only [List.set_cons_zero, List.map_cons, List.sum_cons,
        List.getD_cons_zero]
      omega
    | succ m =>
      have hm : m < t.length := by simpa using hi
      simp only [List.set_cons_succ, List.map_cons, List.sum_cons,
        getD_cons_succ]
      have := ih m hm
      omega

theorem contaG_setCell (g : Grid) (i j : Nat) (v x : Int)
    (hi : i < g.length) (hj : j < (g.getD i []).length) :
    contaG x (setCell g i j v) + (if getCell g i j = x then 1 else 0) =
      contaG x g + (if v = x then 1 else 0) := by
  unfold contaG setCell
  have h1 := sum_map_set g i ((g.getD i []).set j v) (conta x) [] hi
  have h2 := conta_set (g.getD i []) j v x hj
  have hgc : getCell g i j = (g.getD i []).getD j (-1) := rfl
  rw [hgc]
  omega

/-- The value sitting at an in-range cell after a same-cell or
different-cell write. -/
theorem getCell_setCell (g : Grid) (i j k l : Nat) (v : Int) :
    getCell (setCell g i j v) k l =
      if i = k ∧ j = l ∧ i < g.length ∧ j < (g.getD i []).length then v
      else getCell g k l := by
  split_ifs with h
  · obtain ⟨h1, h2, h3, h4⟩ := h
    subst h1; subst h2
    exact getII_setII_self g i j v (-1) h3 h4
  · by_cases hik : i = k
    · by_cases hjl : j = l
      · subst hik; subst hjl
        by_cases h3 : i < g.length
        · by_cases h4 : j < (g.getD i []).length
          · exact absurd ⟨rfl, rfl, h3, h4⟩ h
          · show ((setII g i j v).getD i []).getD j (-1) =
              (List.getD g i []).getD j (-1)
            unfold setII
            rw [getD_set_self _ _ _ _ h3,
              List.getD_eq_default _ _ (by simpa using le_of_not_lt h4),
              List.getD_eq_default _ _ (le_of_not_lt h4)]
        · show ((setII g i j v).getD i []).getD j (-1) =
            (List.getD g i []).getD j (-1)
          unfold setII
          rw [set_oob _ _ _ (le_of_not_lt h3)]
      · exact getII_setII_ne g i j k l v (-1) (Or.inr hjl)
    · exact getII_setII_ne g i j k l v (-1) (Or.inl hik)

theorem setCell_grade (P : Problem) (g : Grid) (i j : Nat) (v : Int)
    (h : GradeOK P g) : GradeOK P (setCell g i j v) :=
  setII_shape g i j v (TP P) (NS P) h

/-- A swap of two in-range cells never changes any cell count. -/
theorem troca_conta (P : Problem) (g : Grid) (i j k l : Nat)
    (hG : GradeOK P g) (hi : i < TP P) (hj : j < NS P)
    (hk : k < TP P) (hl : l < NS P) :
    (∀ x, contaG x (troca g i j k l) = contaG x g) ∧
    GradeOK P (troca g i j k l) := by
  have hiL : i < g.length := by rw [hG.1]; exact hi
  have hjL : j < (g.getD i []).length := by
    rw [hG.2 _ (getD_mem g i [] hiL)]; exact hj
  have hG1 : GradeOK P (setCell g i j (getCell g k l)) :=
    setCell_grade P g i j _ hG
  have hkL1 : k < (setCell g i j (getCell g k l)).length := by
    rw [hG1.1]; exact hk
  have hlL1 : l < ((setCell g i j (getCell g k l)).getD k []).length := by
    rw [hG1.2 _ (getD_mem _ k [] hkL1)]; exact hl
  refine ⟨?_, setCell_grade P _ k l _ hG1⟩
  intro x
  have e1 := contaG_setCell g i j (getCell g k l) x hiL hjL
  have e2 := contaG_setCell (setCell g i j (getCell g k l)) k l
    (getCell g i j) x hkL1 hlL1
  have hmid : getCell (setCell g i j (getCell g k l)) k l = getCell g k l := by
    rw [getCell_setCell]
    split_ifs with h
    · obtain ⟨h1, h2, -⟩ := h
      subst h1; subst h2
      rfl
    · rfl
  rw [hmid] at e2
  show contaG x (setCell (setCell g i j (getCell g k l)) k l (getCell g i j)) = _
  omega

/-- `aux2 = n[p]; n[p] = -1; n[q] = aux2` with an EMPTY target preserves
every cell count. -/
theorem moveCell_conta (P : Problem) (g : Grid) (pi2 pj qi qj : Nat)
    (hG : GradeOK P g) (hp : pi2 < TP P) (hq : pj < NS P)
    (hk : qi < TP P) (hl : qj < NS P) (hempty : getCell g qi qj = -1) :
    (∀ x, contaG x (moveCell g pi2 pj qi qj) = contaG x g) ∧
    GradeOK P (moveCell g pi2 pj qi qj) := by
  have hpL : pi2 < g.length := by rw [hG.1]; exact hp
  have hqL : pj < (g.getD pi2 []).length := by
    rw [hG.2 _ (getD_mem g pi2 [] hpL)]; exact hq
  have hG1 : GradeOK P (setCell g pi2 pj (-1)) := setCell_grade P g pi2 pj _ hG
  have hkL1 : qi < (setCell g pi2 pj (-1)).length := by rw [hG1.1]; exact hk
  have hlL1 : qj < ((setCell g pi2 pj (-1)).getD qi []).length := by
    rw [hG1.2 _ (getD_mem _ qi [] hkL1)]; exact hl
  refine ⟨?_, setCell_grade P _ qi qj _ hG1⟩
  intro x
  have e1 := contaG_setCell g pi2 pj (-1) x hpL hqL
  have e2 := contaG_setCell (setCell g pi2 pj (-1)) qi qj
    (getCell g pi2 pj) x hkL1 hlL1
  have hmid : getCell (setCell g pi2 pj (-1)) qi qj = -1 := by
    rw [getCell_setCell]
    split_ifs with h
    · rfl
    · exact hempty
  rw [hmid] at e2
  show contaG x (setCell (setCell g pi2 pj (-1)) qi qj (getCell g pi2 pj)) = _
  omega

/-- `n[q] = n[p]; n[p] = -1` with an EMPTY target preserves every cell
count. -/
theorem moveCell2_conta (P : Problem) (g : Grid) (pi2 pj qi qj : Nat)
    (hG : GradeOK P g) (hp : pi2 < TP P) (hq : pj < NS P)
    (hk : qi < TP P) (hl : qj < NS P) (hempty : getCell g qi qj = -1) :
    (∀ x, contaG x (moveCell2 g pi2 pj qi qj) = contaG x g) ∧
    GradeOK P (moveCell2 g pi2 pj qi qj) := by
  have hkL : qi < g.length := by rw [hG.1]; exact hk
  have hlL : qj < (g.getD qi []).length := by
    rw [hG.2 _ (getD_mem g qi [] hkL)]; exact hl
  have hG1 : GradeOK P (setCell g qi qj (getCell g pi2 pj)) :=
    setCell_grade P g qi qj _ hG
  have hpL1 : pi2 < (setCell g qi qj (getCell g pi2 pj)).length := by
    rw [hG1.1]; exact hp
  have hqL1 : pj < ((setCell g qi qj (getCell g pi2 pj)).getD pi2 []).length := by
    rw [hG1.2 _ (getD_mem _ pi2 [] hpL1)]; exact hq
  refine ⟨?_, setCell_grade P _ pi2 pj _ hG1⟩
  intro x
  have e1 := contaG_setCell g qi qj (getCell g pi2 pj) x hkL hlL
  have e2 := contaG_setCell (setCell g qi qj (getCell g pi2 pj)) pi2 pj
    (-1) x hpL1 hqL1
  have hmid : getCell (setCell g qi qj (getCell g pi2 pj)) pi2 pj =
      getCell g pi2 pj := by
    rw [getCell_setCell]
    split_ifs with h
    · obtain ⟨h1, h2, -⟩ := h
      subst h1; subst h2
      rfl
    · rfl
  rw [hempty] at e1
  rw [hmid] at e2
  show contaG x (setCell (setCell g qi qj (getCell g pi2 pj)) pi2 pj (-1)) = _
  omega

theorem entradaTP (P : Problem) (hE : EntradaOK P) : 0 < TP P :=
  Nat.mul_pos hE.1 hE.2.1

theorem entradaNS (P : Problem) (hE : EntradaOK P) : 0 < NS P :=
  hE.2.2

/-- A packed witness (including the cleared value `-1`) always decodes to
an in-grid position. -/
theorem decod_bounds (P : Problem) (w : Int) (hw : TestemunhaOK P w)
    (hTP : 0 < TP P) (hNS : 0 < NS P) :
    decodPer P w < TP P ∧ decodSal P w < NS P := by
  rcases hw with h | ⟨h0, h1⟩
  · subst h
    have hd0 : 0 ≤ (1 : Int).tdiv (TP P) :=
      Int.tdiv_nonneg (by omega) (by exact_mod_cast Nat.zero_le _)
    have hd1 : (1 : Int).tdiv (TP P) ≤ 1 := by
      rw [Int.tdiv_eq_ediv (by omega) (by exact_mod_cast Nat.zero_le _)]
      exact Int.ediv_le_self _ (by omega)
    constructor
    · unfold decodPer
      rw [Int.neg_tdiv, neg_mul]
      have hmul0 : 0 ≤ (1 : Int).tdiv (TP P) * (TP P : Int) :=
        mul_nonneg hd0 (by exact_mod_cast Nat.zero_le _)
      have hmul1 : (1 : Int).tdiv (TP P) * (TP P : Int) ≤ (TP P : Int) := by
        calc (1 : Int).tdiv (TP P) * (TP P : Int)
            ≤ 1 * (TP P : Int) :=
              mul_le_mul_of_nonneg_right hd1 (by exact_mod_cast Nat.zero_le _)
          _ = (TP P : Int) := one_mul _
      omega
    · unfold decodSal
      rw [Int.neg_tdiv, Int.toNat_of_nonpos (by omega)]
      exact hNS
  · have hTPz : (0 : Int) < (TP P : Int) := by exact_mod_cast hTP
    have ht : w.tdiv (TP P : Int) = w / (TP P : Int) :=
      Int.tdiv_eq_ediv h0 (by omega)
    constructor
    · unfold decodPer
      rw [ht]
      have hm : w % (TP P : Int) = w - (TP P : Int) * (w / (TP P : Int)) :=
        Int.emod_def w _
      have hm0 : 0 ≤ w % (TP P : Int) := Int.emod_nonneg w (by omega)
      have hm1 : w % (TP P : Int) < (TP P : Int) := Int.emod_lt_of_pos w hTPz
      have he : w - w / (TP P : Int) * (TP P : Int) = w % (TP P : Int) := by
        rw [hm]; ring
      rw [he]
      omega
    · unfold decodSal
      rw [ht]
      have hlt : w / (TP P : Int) < (NS P : Int) := by
        rw [Int.ediv_lt_iff_lt_mul hTPz]
        calc w < ((NS P * TP P : Nat) : Int) := h1
          _ = (NS P : Int) * (TP P : Int) := by push_cast; ring
      have hge : 0 ≤ w / (TP P : Int) := Int.ediv_nonneg h0 (by omega)
      omega

theorem testemunha_getD (P : Problem) (L : List Int)
    (hL : ∀ v ∈ L, TestemunhaOK P v) (aux : Nat) :
    TestemunhaOK P (L.getD aux (-1)) := by
  by_cases h : aux < L.length
  · exact hL _ (getD_mem L aux (-1) h)
  · rw [List.getD_eq_default _ _ (le_of_not_lt h)]
    exact Or.inl rfl

theorem testemunha_getD2 (P : Problem) (L : List (Int × Int))
    (hL : ∀ v ∈ L, TestemunhaOK P v.2) (aux : Nat) :
    TestemunhaOK P (L.getD aux (-1, -1)).2 := by
  by_cases h : aux < L.length
  · exact hL _ (getD_mem L aux (-1, -1) h)
  · rw [List.getD_eq_default _ _ (le_of_not_lt h)]
    exact Or.inl rfl

theorem r8_bound (P : Problem) (L : List Int)
    (hL : ∀ v ∈ L, v.toNat < NS P) (hNS : 0 < NS P) (idx : Nat) :
    (L.getD idx (-1)).toNat < NS P := by
  by_cases h : idx < L.length
  · exact hL _ (getD_mem L idx (-1) h)
  · rw [List.getD_eq_default _ _ (le_of_not_lt h)]
    exact hNS

theorem buscaTest_prop (tst : Nat → Bool) (nd : Nat) :
    ∀ (fuel : Nat) (o : List Nat) (i aux : Nat) (o1 : List Nat),
    buscaTest tst nd o i fuel = some (aux, o1) → tst aux = true := by
  intro fuel
  induction fuel with
  | zero => intro o i aux o1 h; exact absurd h (by simp [buscaTest])
  | succ n ih =>
    intro o i aux o1 h
    simp only [buscaTest] at h
    split_ifs at h with h1 h2
    · obtain ⟨ha, -⟩ := Prod.mk.injEq .. ▸ Option.some.injEq .. ▸ h
      exact ha ▸ h1
    · obtain ⟨ha, -⟩ := Prod.mk.injEq .. ▸ Option.some.injEq .. ▸ h
      exact ha ▸ h2
    · exact ih _ _ _ _ h

theorem buscaR6_bounds (am : List (List Int)) (tp ns : Nat) :
    ∀ (fuel : Nat) (o : List Nat) (k l : Nat) (i j : Nat) (o1 : List Nat),
    buscaR6 am tp ns o k l fuel = some ((i, j), o1) →
    k < tp → l < ns → i < tp ∧ j < ns := by
  intro fuel
  induction fuel with
  | zero => intro o k l i j o1 h; exact absurd h (by simp [buscaR6])
  | succ n ih =>
    intro o k l i j o1 h hk hl
    simp only [buscaR6, rnd0] at h
    split_ifs at h with h1 h2
    · obtain ⟨hp, -⟩ := Prod.mk.injEq .. ▸ Option.some.injEq .. ▸ h
      obtain ⟨hi, hj⟩ := Prod.mk.injEq .. ▸ hp
      subst hi; subst hj
      exact ⟨Nat.mod_lt _ (by omega), Nat.mod_lt _ (by omega)⟩
    · obtain ⟨hp, -⟩ := Prod.mk.injEq .. ▸ Option.some.injEq .. ▸ h
      obtain ⟨hi, hj⟩ := Prod.mk.injEq .. ▸ hp
      subst hi; subst hj
      exact ⟨hk, hl⟩
    · exact ih _ _ _ _ _ _ h (Nat.mod_lt _ (by omega)) (Nat.mod_lt _ (by omega))
    · exact ih _ _ _ _ _ _ h hk (Nat.mod_lt _ (by omega))

theorem buscaR11_bounds (am : List (List Int)) (tp ns pr sr : Nat)
    (h : buscaR11 am tp ns = some (pr, sr)) : pr < tp ∧ sr < ns := by
  unfold buscaR11 at h
  have hmem := List.mem_of_find?_eq_some h
  obtain ⟨per, hper, hin⟩ := List.mem_bind.mp hmem
  obtain ⟨sl, hsl, he⟩ := List.mem_map.mp hin
  obtain ⟨h1, h2⟩ := Prod.mk.injEq .. ▸ he
  subst h1; subst h2
  exact ⟨List.mem_range.mp hper, List.mem_range.mp hsl⟩

theorem dia_period_bound (pd ds dd q : Nat) (hq : q < pd) (hd : dd < ds) :
    dd * pd + q < pd * ds := by
  calc dd * pd + q < dd * pd + pd := by omega
    _ = (dd + 1) * pd := by ring
    _ ≤ ds * pd := Nat.mul_le_mul_right pd (by omega)
    _ = pd * ds := Nat.mul_comm _ _

theorem achaAula_bounds (P : Problem) (g : Grid) (pv df pf sf : Nat)
    (h : achaAula P g pv df = some (pf, sf)) (hdf : df < P.dias) :
    pf < TP P ∧ sf < NS P := by
  unfold achaAula at h
  have hmem := List.mem_of_find?_eq_some h
  obtain ⟨q, hq, hin⟩ := List.mem_bind.mp hmem
  obtain ⟨sl, hsl, he⟩ := List.mem_map.mp hin
  obtain ⟨h1, h2⟩ := Prod.mk.injEq .. ▸ he
  subst h1; subst h2
  exact ⟨dia_period_bound _ _ _ _ (List.mem_range.mp hq) hdf,
    List.mem_range.mp hsl⟩

theorem filter_range_getD (n i : Nat) (p : Nat → Bool) (hn : 0 < n) :
    ((List.range n).filter p).getD i 0 < n := by
  by_cases h : i < ((List.range n).filter p).length
  · have hm := getD_mem ((List.range n).filter p) i 0 h
    exact List.mem_range.mp (List.mem_of_mem_filter hm)
  · rw [List.getD_eq_default _ _ (le_of_not_lt h)]
    exact hn

theorem escolheDestino_bound (dt : List Nat) (df nd ds : Nat)
    (hdt : ∀ r, dt.getD r 0 < ds) :
    ∀ (fuel : Nat) (dd : Nat) (o : List Nat), dd < ds →
    (escolheDestino dt df nd dd o fuel).1 < ds := by
  intro fuel
  induction fuel with
  | zero => intro dd o hdd; exact hdd
  | succ n ih =>
    intro dd o hdd
    simp only [escolheDestino, rnd0]
    split_ifs with h
    · exact ih _ _ (hdt _)
    · exact hdd

/-- The fully random swap loop preserves every cell count and the grid
shape. -/
theorem trocasQualquer_pres (P : Problem) (hTP : 0 < TP P) (hNS : 0 < NS P) :
    ∀ (fuel : Nat) (g : Grid) (o : List Nat) (cnt : Nat), GradeOK P g →
    (∀ x, contaG x (trocasQualquer P g o cnt fuel).1 = contaG x g) ∧
    GradeOK P (trocasQualquer P g o cnt fuel).1 := by
  intro fuel
  induction fuel with
  | zero => intro g o cnt hG; exact ⟨fun _ => rfl, hG⟩
  | succ n ih =>
    intro g o cnt hG
    simp only [trocasQualquer, rnd0]
    split_ifs with h1 h2
    · exact ⟨fun _ => rfl, hG⟩
    · have ht := troca_conta P g (o.headD 0 % TP P) (o.tail.headD 0 % NS P)
        (o.tail.tail.headD 0 % TP P) (o.tail.tail.tail.headD 0 % NS P) hG
        (Nat.mod_lt _ hTP) (Nat.mod_lt _ hNS) (Nat.mod_lt _ hTP) (Nat.mod_lt _ hNS)
      have hrec := ih _ o.tail.tail.tail.tail (cnt - 1) ht.2
      exact ⟨fun x => (hrec.1 x).trans (ht.1 x), hrec.2⟩
    · exact ih g o.tail.tail.tail.tail cnt hG

/-- The same-period swap loop preserves every cell count and the shape. -/
theorem trocasMesmoPeriodo_pres (P : Problem) (hTP : 0 < TP P) (hNS : 0 < NS P) :
    ∀ (fuel : Nat) (g : Grid) (o : List Nat) (cnt : Nat), GradeOK P g →
    (∀ x, contaG x (trocasMesmoPeriodo P g o cnt fuel).1 = contaG x g) ∧
    GradeOK P (trocasMesmoPeriodo P g o cnt fuel).1 := by
  intro fuel
  induction fuel with
  | zero => intro g o cnt hG; exact ⟨fun _ => rfl, hG⟩
  | succ n ih =>
    intro g o cnt hG
    simp only [trocasMesmoPeriodo, rnd0]
    split_ifs with h1 h2
    · exact ⟨fun _ => rfl, hG⟩
    · have ht := troca_conta P g (o.headD 0 % TP P) (o.tail.headD 0 % NS P)
        (o.headD 0 % TP P) (o.tail.tail.headD 0 % NS P) hG
        (Nat.mod_lt _ hTP) (Nat.mod_lt _ hNS) (Nat.mod_lt _ hTP) (Nat.mod_lt _ hNS)
      have hrec := ih _ o.tail.tail.tail (cnt - 1) ht.2
      exact ⟨fun x => (hrec.1 x).trans (ht.1 x), hrec.2⟩
    · exact ih g o.tail.tail.tail cnt hG

/-- The same-room swap loop preserves every cell count and the shape. -/
theorem trocasMesmaSala_pres (P : Problem) (hTP : 0 < TP P) (hNS : 0 < NS P) :
    ∀ (fuel : Nat) (g : Grid) (o : List Nat) (cnt : Nat), GradeOK P g →
    (∀ x, contaG x (trocasMesmaSala P g o cnt fuel).1 = contaG x g) ∧
    GradeOK P (trocasMesmaSala P g o cnt fuel).1 := by
  intro fuel
  induction fuel with
  | zero => intro g o cnt hG; exact ⟨fun _ => rfl, hG⟩
  | succ n ih =>
    intro g o cnt hG
    simp only [trocasMesmaSala, rnd0]
    split_ifs with h1 h2
    · exact ⟨fun _ => rfl, hG⟩
    · have ht := troca_conta P g (o.headD 0 % TP P) (o.tail.headD 0 % NS P)
        (o.tail.tail.headD 0 % TP P) (o.tail.headD 0 % NS P) hG
        (Nat.mod_lt _ hTP) (Nat.mod_lt _ hNS) (Nat.mod_lt _ hTP) (Nat.mod_lt _ hNS)
      have hrec := ih _ o.tail.tail.tail (cnt - 1) ht.2
      exact ⟨fun x => (hrec.1 x).trans (ht.1 x), hrec.2⟩
    · exact ih g o.tail.tail.tail cnt hG

/-- The R2-teacher target loop preserves every cell count and the shape. -/
theorem alvo1_pres (P : Problem) (s : Est) (per sal : Nat)
    (hTP : 0 < TP P) (hNS : 0 < NS P) (hper : per < TP P) (hsal : sal < NS P) :
    ∀ (fuel : Nat) (g : Grid) (o : List Nat) (g1 : Grid) (o1 : List Nat),
    GradeOK P g → alvo1 P s per sal g o fuel = some (g1, o1) →
    (∀ x, contaG x g1 = contaG x g) ∧ GradeOK P g1 := by
  intro fuel
  induction fuel with
  | zero => intro g o g1 o1 hG h; exact absurd h (by simp [alvo1])
  | succ n ih =>
    intro g o g1 o1 hG h
    simp only [alvo1, rnd0] at h
    split_ifs at h with h1 h2 h3 h4
    · have hm := moveCell_conta P g per sal (o.headD 0 % TP P)
        (o.tail.headD 0 % NS P) hG hper hsal (Nat.mod_lt _ hTP) (Nat.mod_lt _ hNS) h1
      have hrec := ih _ _ _ _ hm.2 h
      exact ⟨fun x => (hrec.1 x).trans (hm.1 x), hrec.2⟩
    · obtain ⟨hg, -⟩ := Prod.mk.injEq .. ▸ Option.some.injEq .. ▸ h
      subst hg
      exact moveCell_conta P g per sal (o.headD 0 % TP P)
        (o.tail.headD 0 % NS P) hG hper hsal (Nat.mod_lt _ hTP) (Nat.mod_lt _ hNS) h1
    · have ht := troca_conta P g (o.headD 0 % TP P) (o.tail.headD 0 % NS P)
        per sal hG (Nat.mod_lt _ hTP) (Nat.mod_lt _ hNS) hper hsal
      have hrec := ih _ _ _ _ ht.2 h
      exact ⟨fun x => (hrec.1 x).trans (ht.1 x), hrec.2⟩
    · obtain ⟨hg, -⟩ := Prod.mk.injEq .. ▸ Option.some.injEq .. ▸ h
      subst hg
      exact troca_conta P g (o.headD 0 % TP P) (o.tail.headD 0 % NS P)
        per sal hG (Nat.mod_lt _ hTP) (Nat.mod_lt _ hNS) hper hsal
    · exact ih _ _ _ _ hG h

/-- The R2-curriculum target loop preserves every cell count and the
shape. -/
theorem alvo2_pres (P : Problem) (per sal : Nat)
    (hTP : 0 < TP P) (hNS : 0 < NS P) (hper : per < TP P) (hsal : sal < NS P) :
    ∀ (fuel : Nat) (g : Grid) (o : List Nat) (g1 : Grid) (o1 : List Nat),
    GradeOK P g → alvo2 P per sal g o fuel = some (g1, o1) →
    (∀ x, contaG x g1 = contaG x g) ∧ GradeOK P g1 := by
  intro fuel
  induction fuel with
  | zero => intro g o g1 o1 hG h; exact absurd h (by simp [alvo2])
  | succ n ih =>
    intro g o g1 o1 hG h
    simp only [alvo2, rnd0] at h
    split_ifs at h with h1 h2 h3 h4
    · have hm := moveCell_conta P g per sal (o.headD 0 % TP P)
        (o.tail.headD 0 % NS P) hG hper hsal (Nat.mod_lt _ hTP) (Nat.mod_lt _ hNS) h1
      have hrec := ih _ _ _ _ hm.2 h
      exact ⟨fun x => (hrec.1 x).trans (hm.1 x), hrec.2⟩
    · obtain ⟨hg, -⟩ := Prod.mk.injEq .. ▸ Option.some.injEq .. ▸ h
      subst hg
      exact moveCell_conta P g per sal (o.headD 0 % TP P)
        (o.tail.headD 0 % NS P) hG hper hsal (Nat.mod_lt _ hTP) (Nat.mod_lt _ hNS) h1
    · have ht := troca_conta P g (o.headD 0 % TP P) (o.tail.headD 0 % NS P)
        per sal hG (Nat.mod_lt _ hTP) (Nat.mod_lt _ hNS) hper hsal
      have hrec := ih _ _ _ _ ht.2 h
      exact ⟨fun x => (hrec.1 x).trans (ht.1 x), hrec.2⟩
    · obtain ⟨hg, -⟩ := Prod.mk.injEq .. ▸ Option.some.injEq .. ▸ h
      subst hg
      exact troca_conta P g (o.headD 0 % TP P) (o.tail.headD 0 % NS P)
        per sal hG (Nat.mod_lt _ hTP) (Nat.mod_lt _ hNS) hper hsal
    · exact ih _ _ _ _ hG h

/-- The R6 target loop preserves every cell count and the shape. -/
theorem alvoR6_pres (P : Problem) (tent ri rj : Nat)
    (hTP : 0 < TP P) (hNS : 0 < NS P) (hri : ri < TP P) (hrj : rj < NS P) :
    ∀ (fuel : Nat) (g : Grid) (am : List (List Int)) (o : List Nat) (aux3 : Nat),
    GradeOK P g →
    (∀ x, contaG x (alvoR6 P tent ri rj g am o aux3 fuel).2.1 = contaG x g) ∧
    GradeOK P (alvoR6 P tent ri rj g am o aux3 fuel).2.1 := by
  intro fuel
  induction fuel with
  | zero => intro g am o aux3 hG; exact ⟨fun _ => rfl, hG⟩
  | succ n ih =>
    intro g am o aux3 hG
    simp only [alvoR6, rnd0]
    split_ifs with h1 h2 h3 h4 h5 h6 h7
    · exact moveCell2_conta P g ri rj (o.headD 0 % TP P)
        (o.tail.headD 0 % NS P) hG hri hrj (Nat.mod_lt _ hTP) (Nat.mod_lt _ hNS) h1.1
    · have ht := troca_conta P g (o.headD 0 % TP P) (o.tail.headD 0 % NS P)
        ri rj hG (Nat.mod_lt _ hTP) (Nat.mod_lt _ hNS) hri hrj
      exact ⟨fun x => ((ih _ _ _ _ ht.2).1 x).trans (ht.1 x), (ih _ _ _ _ ht.2).2⟩
    · exact troca_conta P g (o.headD 0 % TP P) (o.tail.headD 0 % NS P)
        ri rj hG (Nat.mod_lt _ hTP) (Nat.mod_lt _ hNS) hri hrj
    · have ht := troca_conta P g (o.headD 0 % TP P) (o.tail.headD 0 % NS P)
        ri rj hG (Nat.mod_lt _ hTP) (Nat.mod_lt _ hNS) hri hrj
      exact ⟨fun x => ((ih _ _ _ _ ht.2).1 x).trans (ht.1 x), (ih _ _ _ _ ht.2).2⟩
    · exact troca_conta P g (o.headD 0 % TP P) (o.tail.headD 0 % NS P)
        ri rj hG (Nat.mod_lt _ hTP) (Nat.mod_lt _ hNS) hri hrj
    · have ht := troca_conta P g ri rj (o.headD 0 % TP P)
        (o.tail.headD 0 % NS P) hG hri hrj (Nat.mod_lt _ hTP) (Nat.mod_lt _ hNS)
      exact ⟨fun x => ((ih _ _ _ _ ht.2).1 x).trans (ht.1 x), (ih _ _ _ _ ht.2).2⟩
    · exact troca_conta P g ri rj (o.headD 0 % TP P)
        (o.tail.headD 0 % NS P) hG hri hrj (Nat.mod_lt _ hTP) (Nat.mod_lt _ hNS)
    · exact ih _ _ _ _ hG

/-- The R7 target loop preserves every cell count and the shape. -/
theorem alvo4_pres (P : Problem) (tent : Nat) (s : Est) (auxd per sal : Nat)
    (hTP : 0 < TP P) (hNS : 0 < NS P) (hper : per < TP P) (hsal : sal < NS P) :
    ∀ (fuel : Nat) (g : Grid) (o : List Nat) (aux3 : Nat), GradeOK P g →
    (∀ x, contaG x (alvo4 P tent s auxd per sal g o aux3 fuel).2.1 = contaG x g) ∧
    GradeOK P (alvo4 P tent s auxd per sal g o aux3 fuel).2.1 := by
  intro fuel
  induction fuel with
  | zero => intro g o aux3 hG; exact ⟨fun _ => rfl, hG⟩
  | succ n ih =>
    intro g o aux3 hG
    have hk : o.headD 0 % TP P < TP P := Nat.mod_lt _ hTP
    have hl : o.tail.headD 0 % NS P < NS P := Nat.mod_lt _ hNS
    have hmv : getCell g (o.headD 0 % TP P) (o.tail.headD 0 % NS P) = -1 →
        (∀ x, contaG x (moveCell g per sal (o.headD 0 % TP P)
          (o.tail.headD 0 % NS P)) = contaG x g) ∧
        GradeOK P (moveCell g per sal (o.headD 0 % TP P) (o.tail.headD 0 % NS P)) :=
      fun he => moveCell_conta P g per sal _ _ hG hper hsal hk hl he
    have htr := troca_conta P g per sal (o.headD 0 % TP P)
      (o.tail.headD 0 % NS P) hG hper hsal hk hl
    simp only [alvo4, rnd0]
    split_ifs with h1 h2 h3 h4 h5 h6 h7 h8 h9 h10
    · have hm := hmv h1.1
      exact ⟨fun x => ((ih _ _ _ hm.2).1 x).trans (hm.1 x), (ih _ _ _ hm.2).2⟩
    · exact hmv h1.1
    · exact ⟨fun x => ((ih _ _ _ htr.2).1 x).trans (htr.1 x), (ih _ _ _ htr.2).2⟩
    · exact htr
    · exact ⟨fun x => ((ih _ _ _ htr.2).1 x).trans (htr.1 x), (ih _ _ _ htr.2).2⟩
    · exact htr
    · exact ⟨fun x => ((ih _ _ _ htr.2).1 x).trans (htr.1 x), (ih _ _ _ htr.2).2⟩
    · exact htr
    · exact ⟨fun x => ((ih _ _ _ htr.2).1 x).trans (htr.1 x), (ih _ _ _ htr.2).2⟩
    · exact htr
    · exact ih _ _ _ hG

/-- The R8 target loop preserves every cell count and the shape. -/
theorem alvo5_pres (P : Problem) (tent : Nat) (s : Est) (per sal : Nat)
    (hTP : 0 < TP P) (hNS : 0 < NS P) (hper : per < TP P) (hsal : sal < NS P)
    (hr8 : ∀ v ∈ s.r8, v.toNat < NS P) :
    ∀ (fuel : Nat) (g : Grid) (o : List Nat) (aux3 : Nat), GradeOK P g →
    (∀ x, contaG x (alvo5 P tent s per sal g o aux3 fuel).2.1 = contaG x g) ∧
    GradeOK P (alvo5 P tent s per sal g o aux3 fuel).2.1 := by
  intro fuel
  induction fuel with
  | zero => intro g o aux3 hG; exact ⟨fun _ => rfl, hG⟩
  | succ n ih =>
    intro g o aux3 hG
    have hi : o.headD 0 % TP P < TP P := Nat.mod_lt _ hTP
    have hj : (s.r8.getD (getCell g per sal).toNat (-1)).toNat < NS P :=
      r8_bound P s.r8 hr8 hNS _
    simp only [alvo5, rnd0]
    split_ifs with h1 h2 h3
    · exact moveCell2_conta P g per sal (o.headD 0 % TP P)
        (s.r8.getD (getCell g per sal).toNat (-1)).toNat hG hper hsal hi hj h1
    · have ht := troca_conta P g per sal (o.headD 0 % TP P)
        (s.r8.getD (getCell g per sal).toNat (-1)).toNat hG hper hsal hi hj
      exact ⟨fun x => ((ih _ _ _ ht.2).1 x).trans (ht.1 x), (ih _ _ _ ht.2).2⟩
    · exact troca_conta P g per sal (o.headD 0 % TP P)
        (s.r8.getD (getCell g per sal).toNat (-1)).toNat hG hper hsal hi hj
    · exact ih _ _ _ hG

/-- The R9 target loop preserves every cell count and the shape. -/
theorem alvo6_pres (P : Problem) (tent : Nat) (am9 : List Int) (pf sf dd : Nat)
    (hE : EntradaOK P) (hpf : pf < TP P) (hsf : sf < NS P) (hdd : dd < P.dias) :
    ∀ (fuel : Nat) (g : Grid) (o : List Nat) (aux3 : Nat), GradeOK P g →
    (∀ x, contaG x (alvo6 P tent am9 pf sf dd g o aux3 fuel).1 = contaG x g) ∧
    GradeOK P (alvo6 P tent am9 pf sf dd g o aux3 fuel).1 := by
  have hTP : 0 < TP P := entradaTP P hE
  have hNS : 0 < NS P := entradaNS P hE
  intro fuel
  induction fuel with
  | zero => intro g o aux3 hG; exact ⟨fun _ => rfl, hG⟩
  | succ n ih =>
    intro g o aux3 hG
    have hk : dd * P.periodos_dia + o.headD 0 % P.periodos_dia < TP P :=
      dia_period_bound _ _ _ _ (Nat.mod_lt _ hE.1) hdd
    have hl : o.tail.headD 0 % NS P < NS P := Nat.mod_lt _ hNS
    simp only [alvo6, rnd0]
    split_ifs with h1 h2 h3 h4 h5
    · exact moveCell2_conta P g pf sf _ _ hG hpf hsf hk hl h1
    · have ht := troca_conta P g (dd * P.periodos_dia + o.headD 0 % P.periodos_dia)
        (o.tail.headD 0 % NS P) pf sf hG hk hl hpf hsf
      exact ⟨fun x => ((ih _ _ _ ht.2).1 x).trans (ht.1 x), (ih _ _ _ ht.2).2⟩
    · exact troca_conta P g (dd * P.periodos_dia + o.headD 0 % P.periodos_dia)
        (o.tail.headD 0 % NS P) pf sf hG hk hl hpf hsf
    · have ht := troca_conta P g (dd * P.periodos_dia + o.headD 0 % P.periodos_dia)
        (o.tail.headD 0 % NS P) pf sf hG hk hl hpf hsf
      exact ⟨fun x => ((ih _ _ _ ht.2).1 x).trans (ht.1 x), (ih _ _ _ ht.2).2⟩
    · exact troca_conta P g (dd * P.periodos_dia + o.headD 0 % P.periodos_dia)
        (o.tail.headD 0 % NS P) pf sf hG hk hl hpf hsf
    · exact ih _ _ _ hG

/-- The R10 target loop preserves every cell count and the shape. -/
theorem alvo7_pres (P : Problem) (tent auxd per sal : Nat)
    (hTP : 0 < TP P) (hNS : 0 < NS P) (hper : per < TP P) (hsal : sal < NS P) :
    ∀ (fuel : Nat) (g : Grid) (o : List Nat) (aux3 : Nat), GradeOK P g →
    (∀ x, contaG x (alvo7 P tent auxd per sal g o aux3 fuel).2.1 = contaG x g) ∧
    GradeOK P (alvo7 P tent auxd per sal g o aux3 fuel).2.1 := by
  intro fuel
  induction fuel with
  | zero => intro g o aux3 hG; exact ⟨fun _ => rfl, hG⟩
  | succ n ih =>
    intro g o aux3 hG
    have hk : o.headD 0 % TP P < TP P := Nat.mod_lt _ hTP
    have hl : o.tail.headD 0 % NS P < NS P := Nat.mod_lt _ hNS
    have htr := troca_conta P g per sal (o.headD 0 % TP P)
      (o.tail.headD 0 % NS P) hG hper hsal hk hl
    simp only [alvo7, rnd0]
    split_ifs with h1 h2 h3 h4 h5 h6 h7 h8
    · have hm := moveCell_conta P g per sal _ _ hG hper hsal hk hl h1.1
      exact ⟨fun x => ((ih _ _ _ hm.2).1 x).trans (hm.1 x), (ih _ _ _ hm.2).2⟩
    · exact moveCell_conta P g per sal _ _ hG hper hsal hk hl h1.1
    · exact ⟨fun x => ((ih _ _ _ htr.2).1 x).trans (htr.1 x), (ih _ _ _ htr.2).2⟩
    · exact htr
    · exact ⟨fun x => ((ih _ _ _ htr.2).1 x).trans (htr.1 x), (ih _ _ _ htr.2).2⟩
    · exact htr
    · exact ⟨fun x => ((ih _ _ _ htr.2).1 x).trans (htr.1 x), (ih _ _ _ htr.2).2⟩
    · exact htr
    · exact ih _ _ _ hG

/-- The R11 target loop preserves every cell count and the shape. -/
theorem alvo8_pres (P : Problem) (tent pr sr dia : Nat)
    (hTP : 0 < TP P) (hNS : 0 < NS P) (hpr : pr < TP P) (hsr : sr < NS P) :
    ∀ (fuel : Nat) (g : Grid) (o : List Nat) (aux3 : Nat), GradeOK P g →
    (∀ x, contaG x (alvo8 P tent pr sr dia g o aux3 fuel).1 = contaG x g) ∧
    GradeOK P (alvo8 P tent pr sr dia g o aux3 fuel).1 := by
  intro fuel
  induction fuel with
  | zero => intro g o aux3 hG; exact ⟨fun _ => rfl, hG⟩
  | succ n ih =>
    intro g o aux3 hG
    have hk : o.headD 0 % TP P < TP P := Nat.mod_lt _ hTP
    have hl : o.tail.headD 0 % NS P < NS P := Nat.mod_lt _ hNS
    have htr := troca_conta P g (o.headD 0 % TP P) (o.tail.headD 0 % NS P)
      pr sr hG hk hl hpr hsr
    simp only [alvo8, rnd0]
    split_ifs with h1 h2 h3 h4 h5 h6
    · have hm := moveCell_conta P g pr sr _ _ hG hpr hsr hk hl h1.2
      exact ⟨fun x => ((ih _ _ _ hm.2).1 x).trans (hm.1 x), (ih _ _ _ hm.2).2⟩
    · exact moveCell_conta P g pr sr _ _ hG hpr hsr hk hl h1.2
    · exact ⟨fun x => ((ih _ _ _ htr.2).1 x).trans (htr.1 x), (ih _ _ _ htr.2).2⟩
    · exact htr
    · exact ⟨fun x => ((ih _ _ _ htr.2).1 x).trans (htr.1 x), (ih _ _ _ htr.2).2⟩
    · exact htr
    · exact ih _ _ _ hG

/-- Movement 1 preserves every cell count and the shape. -/
theorem mov1_pres (P : Problem) (tent fuel : Nat) (g : Grid) (s : Est)
    (o : List Nat) (hE : EntradaOK P) (hS : EstadoOK P s) (hG : GradeOK P g) :
    (∀ x, contaG x (mov1 P tent g s o fuel).1 = contaG x g) ∧
    GradeOK P (mov1 P tent g s o fuel).1 := by
  have hTP := entradaTP P hE
  have hNS := entradaNS P hE
  simp only [mov1]
  split_ifs with hguard
  · rcases hb : buscaTest (fun j => decide (s.amR21.getD j (-1) ≠ -1)) (ND P)
        o 0 fuel with _ | ⟨aux, o1⟩
    · exact ⟨fun _ => rfl, hG⟩
    · dsimp only
      have hw := testemunha_getD P s.amR21 hS.1 aux
      have hd := decod_bounds P (s.amR21.getD aux (-1)) hw hTP hNS
      rcases ha : alvo1 P s (decodPer P (s.amR21.getD aux (-1)))
          (decodSal P (s.amR21.getD aux (-1))) g o1 fuel with _ | ⟨g1, o2⟩
      · exact ⟨fun _ => rfl, hG⟩
      · dsimp only
        exact alvo1_pres P s _ _ hTP hNS hd.1 hd.2 fuel g o1 g1 o2 hG ha
  · exact ⟨fun x => (trocasQualquer_pres P hTP hNS fuel g _ _ hG).1 x,
      (trocasQualquer_pres P hTP hNS fuel g _ _ hG).2⟩

/-- Movement 2 preserves every cell count and the shape. -/
theorem mov2_pres (P : Problem) (tent fuel : Nat) (g : Grid) (s : Est)
    (o : List Nat) (hE : EntradaOK P) (hS : EstadoOK P s) (hG : GradeOK P g) :
    (∀ x, contaG x (mov2 P tent g s o fuel).1 = contaG x g) ∧
    GradeOK P (mov2 P tent g s o fuel).1 := by
  have hTP := entradaTP P hE
  have hNS := entradaNS P hE
  simp only [mov2]
  split_ifs with hguard
  · rcases hb : buscaTest (fun j => decide (s.amR22.getD j (-1) ≠ -1)) (ND P)
        o 0 fuel with _ | ⟨aux, o1⟩
    · exact ⟨fun _ => rfl, hG⟩
    · dsimp only
      have hw := testemunha_getD P s.amR22 hS.2.1 aux
      have hd := decod_bounds P (s.amR22.getD aux (-1)) hw hTP hNS
      rcases ha : alvo2 P (decodPer P (s.amR22.getD aux (-1)))
          (decodSal P (s.amR22.getD aux (-1))) g o1 fuel with _ | ⟨g1, o2⟩
      · exact ⟨fun _ => rfl, hG⟩
      · dsimp only
        exact alvo2_pres P _ _ hTP hNS hd.1 hd.2 fuel g o1 g1 o2 hG ha
  · exact ⟨fun x => (trocasQualquer_pres P hTP hNS fuel g _ _ hG).1 x,
      (trocasQualquer_pres P hTP hNS fuel g _ _ hG).2⟩

/-- Movement 3 preserves every cell count and the shape. -/
theorem mov3_pres (P : Problem) (tent fuel : Nat) (g : Grid) (s : Est)
    (o : List Nat) (hE : EntradaOK P) (hG : GradeOK P g) :
    (∀ x, contaG x (mov3 P tent g s o fuel).1 = contaG x g) ∧
    GradeOK P (mov3 P tent g s o fuel).1 := by
  have hTP := entradaTP P hE
  have hNS := entradaNS P hE
  simp only [mov3]
  rcases hb : buscaR6 s.amR6 (TP P) (NS P) o 0 0 fuel with _ | ⟨⟨ri, rj⟩, o1⟩
  · exact ⟨fun _ => rfl, hG⟩
  · dsimp only
    have hd := buscaR6_bounds s.amR6 (TP P) (NS P) fuel o 0 0 ri rj o1 hb hTP hNS
    split_ifs with hflag
    · exact ⟨fun x => (alvoR6_pres P tent ri rj hTP hNS hd.1 hd.2 fuel g s.amR6
        o1 0 hG).1 x,
        (alvoR6_pres P tent ri rj hTP hNS hd.1 hd.2 fuel g s.amR6 o1 0 hG).2⟩
    · exact ⟨fun x => (alvoR6_pres P tent ri rj hTP hNS hd.1 hd.2 fuel g s.amR6
        o1 0 hG).1 x,
        (alvoR6_pres P tent ri rj hTP hNS hd.1 hd.2 fuel g s.amR6 o1 0 hG).2⟩

/-- Movement 4 preserves every cell count and the shape. -/
theorem mov4_pres (P : Problem) (tent fuel : Nat) (g : Grid) (s : Est)
    (o : List Nat) (hE : EntradaOK P) (hS : EstadoOK P s) (hG : GradeOK P g) :
    (∀ x, contaG x (mov4 P tent g s o fuel).1 = contaG x g) ∧
    GradeOK P (mov4 P tent g s o fuel).1 := by
  have hTP := entradaTP P hE
  have hNS := entradaNS P hE
  simp only [mov4]
  rcases hb : buscaTest (fun j => decide ((s.amR7.getD j (-1, -1)).1 ≠ -1)) (ND P)
      o 0 fuel with _ | ⟨aux, o1⟩
  · exact ⟨fun _ => rfl, hG⟩
  · dsimp only
    have hw := testemunha_getD2 P s.amR7 hS.2.2.1 aux
    have hd := decod_bounds P (s.amR7.getD aux (-1, -1)).2 hw hTP hNS
    split_ifs with hflag
    · exact ⟨fun x => (alvo4_pres P tent s aux _ _ hTP hNS hd.1 hd.2 fuel g o1 0
        hG).1 x,
        (alvo4_pres P tent s aux _ _ hTP hNS hd.1 hd.2 fuel g o1 0 hG).2⟩
    · exact ⟨fun x => (alvo4_pres P tent s aux _ _ hTP hNS hd.1 hd.2 fuel g o1 0
        hG).1 x,
        (alvo4_pres P tent s aux _ _ hTP hNS hd.1 hd.2 fuel g o1 0 hG).2⟩

/-- Movement 5 preserves every cell count and the shape. -/
theorem mov5_pres (P : Problem) (tent fuel : Nat) (g : Grid) (s : Est)
    (o : List Nat) (hE : EntradaOK P) (hS : EstadoOK P s) (hG : GradeOK P g) :
    (∀ x, contaG x (mov5 P tent g s o fuel).1 = contaG x g) ∧
    GradeOK P (mov5 P tent g s o fuel).1 := by
  have hTP := entradaTP P hE
  have hNS := entradaNS P hE
  have hr8 : ∀ v ∈ s.r8, v.toNat < NS P := hS.2.2.2.2.2
  simp only [mov5, rnd0]
  have hwit : ∀ aux : Nat,
      (∀ x, contaG x (alvo5 P tent s (decodPer P (s.amR8.getD aux (-1)))
        (decodSal P (s.amR8.getD aux (-1))) g o.tail 0 fuel).2.1 = contaG x g) ∧
      GradeOK P (alvo5 P tent s (decodPer P (s.amR8.getD aux (-1)))
        (decodSal P (s.amR8.getD aux (-1))) g o.tail 0 fuel).2.1 := by
    intro aux
    have hw := testemunha_getD P s.amR8 hS.2.2.2.2.1 aux
    have hd := decod_bounds P (s.amR8.getD aux (-1)) hw hTP hNS
    exact alvo5_pres P tent s _ _ hTP hNS hd.1 hd.2 hr8 fuel g o.tail 0 hG
  by_cases hc : (TP P : Int) ≤ s.viol.getD 8 0
  · simp only [if_pos hc]
    split_ifs with hflag
    · exact ⟨fun x => (hwit _).1 x, (hwit _).2⟩
    · exact ⟨fun x => (hwit _).1 x, (hwit _).2⟩
  · simp only [if_neg hc]
    split_ifs with hflag
    · exact ⟨fun x => (hwit _).1 x, (hwit _).2⟩
    · exact ⟨fun x => (hwit _).1 x, (hwit _).2⟩

/-- Movement 6 preserves every cell count and the shape. -/
theorem mov6_pres (P : Problem) (tent fuel : Nat) (g : Grid) (s : Est)
    (o : List Nat) (hE : EntradaOK P) (hG : GradeOK P g) :
    (∀ x, contaG x (mov6 P tent g s o fuel).1 = contaG x g) ∧
    GradeOK P (mov6 P tent g s o fuel).1 := by
  have hdias : 0 < P.dias := hE.2.1
  simp only [mov6, rnd0]
  rcases hb : (buscaProf s.amR9 P.professores o 100).1 with _ | pv
  · exact ⟨fun _ => rfl, hG⟩
  · dsimp only
    set bp := buscaProf s.amR9 P.professores o 100 with hbp
    set dt := (List.range P.dias).filter
      (fun d => decide (getII s.r9 pv d 0 = 1)) with hdtd
    split
    · exact ⟨fun _ => rfl, hG⟩
    · rename_i pf sf heq
      have hdf : dt.getD (bp.2.headD 0 % dt.length) 0 < P.dias := by
        rw [hdtd]
        exact filter_range_getD P.dias _ _ hdias
      have hpfsf := achaAula_bounds P g pv _ pf sf heq hdf
      have hdd : (escolheDestino dt (dt.getD (bp.2.headD 0 % dt.length) 0)
          dt.length (dt.getD (bp.2.tail.headD 0 % dt.length) 0) bp.2.tail.tail
          fuel).1 < P.dias := by
        apply escolheDestino_bound
        · intro r
          rw [hdtd]
          exact filter_range_getD P.dias _ _ hdias
        · rw [hdtd]
          exact filter_range_getD P.dias _ _ hdias
      exact ⟨fun x => (alvo6_pres P tent s.amR9 pf sf _ hE hpfsf.1 hpfsf.2 hdd
          (tent * 2) g _ 0 hG).1 x,
        (alvo6_pres P tent s.amR9 pf sf _ hE hpfsf.1 hpfsf.2 hdd
          (tent * 2) g _ 0 hG).2⟩

/-- Movement 7 preserves every cell count and the shape. -/
theorem mov7_pres (P : Problem) (tent fuel : Nat) (g : Grid) (s : Est)
    (o : List Nat) (hE : EntradaOK P) (hS : EstadoOK P s) (hG : GradeOK P g) :
    (∀ x, contaG x (mov7 P tent g s o fuel).1 = contaG x g) ∧
    GradeOK P (mov7 P tent g s o fuel).1 := by
  have hTP := entradaTP P hE
  have hNS := entradaNS P hE
  simp only [mov7]
  rcases hb : buscaTest (fun j => decide ((s.amR10.getD j (-1, -1)).1 ≠ -1)) (ND P)
      o 0 fuel with _ | ⟨aux, o1⟩
  · exact ⟨fun _ => rfl, hG⟩
  · dsimp only
    have hw := testemunha_getD2 P s.amR10 hS.2.2.2.1 aux
    have hd := decod_bounds P (s.amR10.getD aux (-1, -1)).2 hw hTP hNS
    split_ifs with hflag
    · exact ⟨fun x => (alvo7_pres P tent aux _ _ hTP hNS hd.1 hd.2 fuel g o1 0
        hG).1 x,
        (alvo7_pres P tent aux _ _ hTP hNS hd.1 hd.2 fuel g o1 0 hG).2⟩
    · exact ⟨fun x => (alvo7_pres P tent aux _ _ hTP hNS hd.1 hd.2 fuel g o1 0
        hG).1 x,
        (alvo7_pres P tent aux _ _ hTP hNS hd.1 hd.2 fuel g o1 0 hG).2⟩

/-- Movement 8 preserves every cell count and the shape. -/
theorem mov8_pres (P : Problem) (tent : Nat) (g : Grid) (s : Est)
    (o : List Nat) (hE : EntradaOK P) (hG : GradeOK P g) :
    (∀ x, contaG x (mov8 P tent g s o).1 = contaG x g) ∧
    GradeOK P (mov8 P tent g s o).1 := by
  have hTP := entradaTP P hE
  have hNS := entradaNS P hE
  simp only [mov8]
  rcases hb : buscaR11 s.amR11 (TP P) (NS P) with _ | ⟨pr, sr⟩
  · exact ⟨fun _ => rfl, hG⟩
  · dsimp only
    have hd := buscaR11_bounds s.amR11 (TP P) (NS P) pr sr hb
    exact ⟨fun x => (alvo8_pres P tent pr sr _ hTP hNS hd.1 hd.2 (tent * 3) g o 0
        hG).1 x,
      (alvo8_pres P tent pr sr _ hTP hNS hd.1 hd.2 (tent * 3) g o 0 hG).2⟩

/-- C10: every call of the neighborhood generator `geraViz` preserves the
multiset of course occurrences in the grid — for every value `v`
(course id or EMPTY) the number of cells holding `v` is unchanged — and
preserves the grid dimensions.  Each of the eleven move branches only
swaps two in-range cells or relocates a cell into one checked to be
EMPTY. -/
theorem c10_multiconjunto (P : Problem) (tent : Nat) (g : Grid) (s : Est)
    (o : List Nat) (fuel : Nat) (hE : EntradaOK P) (hS : EstadoOK P s)
    (hG : GradeOK P g) :
    (∀ v, contaG v (geraViz P tent g s o fuel).1 = contaG v g) ∧
    GradeOK P (geraViz P tent g s o fuel).1 := by
  have hTP := entradaTP P hE
  have hNS := entradaNS P hE
  have aux : ∀ r, geraViz P tent g s o fuel = r →
      (∀ v, contaG v r.1 = contaG v g) ∧ GradeOK P r.1 := by
    intro r h
    unfold geraViz at h
    split at h
    rename_i m0 o2 heq
    have ho2 : o2 = o.tail := by
      have := congrArg Prod.snd heq
      simpa [rnd0] using this.symm
    subst ho2
    dsimp only [rnd1] at h
    by_cases hc1 : s.viol.getD 2 0 ≠ -1 ∧
        (m0 : Int) < 100 + (s.viol.getD 2 0).tmod 1000 * 128
    · rw [if_pos hc1] at h
      rw [← h]; exact mov1_pres P tent fuel g s _ hE hS hG
    · rw [if_neg hc1] at h
      by_cases hc2 : s.viol.getD 2 0 ≠ -1 ∧
          (m0 : Int) < 100 + (s.viol.getD 2 0).tdiv 8
      · rw [if_pos hc2] at h
        rw [← h]; exact mov2_pres P tent fuel g s _ hE hS hG
      · rw [if_neg hc2] at h
        by_cases hc3 : s.viol.getD 6 0 ≠ -1 ∧ 100 ≤ (m0 : Int) ∧
            (m0 : Int) < 200 + 2 * s.viol.getD 6 0
        · rw [if_pos hc3] at h
          rw [← h]; exact mov3_pres P tent fuel g s _ hE hG
        · rw [if_neg hc3] at h
          by_cases hc4 : s.viol.getD 7 0 ≠ -1 ∧ 200 ≤ (m0 : Int) ∧
              (m0 : Int) < 300 + s.viol.getD 7 0
          · rw [if_pos hc4] at h
            rw [← h]; exact mov4_pres P tent fuel g s _ hE hS hG
          · rw [if_neg hc4] at h
            by_cases hc5 : s.viol.getD 8 0 ≠ -1 ∧ 300 ≤ (m0 : Int) ∧
                (m0 : Int) < 400 + s.viol.getD 8 0
            · rw [if_pos hc5] at h
              rw [← h]; exact mov5_pres P tent fuel g s _ hE hS hG
            · rw [if_neg hc5] at h
              by_cases hc6 : s.viol.getD 9 0 ≠ -1 ∧ 400 ≤ (m0 : Int) ∧
                  (m0 : Int) < 500 + s.viol.getD 9 0 * 20
              · rw [if_pos hc6] at h
                rw [← h]; exact mov6_pres P tent fuel g s _ hE hG
              · rw [if_neg hc6] at h
                by_cases hc7 : s.viol.getD 10 0 ≠ -1 ∧ 500 ≤ (m0 : Int) ∧
                    (m0 : Int) < 600 + s.viol.getD 10 0
                · rw [if_pos hc7] at h
                  rw [← h]; exact mov7_pres P tent fuel g s _ hE hS hG
                · rw [if_neg hc7] at h
                  by_cases hc8 : s.viol.getD 11 0 ≠ -1 ∧ 600 ≤ (m0 : Int) ∧
                      (m0 : Int) < 700 + s.viol.getD 11 0 * 100
                  · rw [if_pos hc8] at h
                    rw [← h]; exact mov8_pres P tent g s _ hE hG
                  · rw [if_neg hc8] at h
                    by_cases hc9 : 700 ≤ (m0 : Int) ∧ (m0 : Int) < 800
                    · rw [if_pos hc9] at h
                      rw [← h]
                      exact ⟨fun x =>
                        (trocasMesmoPeriodo_pres P hTP hNS fuel g _ _ hG).1 x,
                        (trocasMesmoPeriodo_pres P hTP hNS fuel g _ _ hG).2⟩
                    · rw [if_neg hc9] at h
                      by_cases hc10 : 800 ≤ (m0 : Int) ∧ (m0 : Int) < 900
                      · rw [if_pos hc10] at h
                        rw [← h]
                        exact ⟨fun x =>
                          (trocasMesmaSala_pres P hTP hNS fuel g _ _ hG).1 x,
                          (trocasMesmaSala_pres P hTP hNS fuel g _ _ hG).2⟩
                      · rw [if_neg hc10] at h
                        rw [← h]
                        exact ⟨fun x =>
                          (trocasQualquer_pres P hTP hNS fuel g _ _ hG).1 x,
                          (trocasQualquer_pres P hTP hNS fuel g _ _ hG).2⟩
  exact aux _ rfl

/-- The C10 theorem at a concrete input: the R9 move of the `Pb` instance
relocates the single lecture and both counts and shape are preserved. -/
theorem c10_multiconjunto_witness :
    EntradaOK Pb ∧ EstadoOK Pb s6 ∧ GradeOK Pb g6 ∧
    contaG 0 (geraViz Pb 2 g6 s6 [400, 0, 0, 1, 0, 0] 10).1 = contaG 0 g6 ∧
    GradeOK Pb (geraViz Pb 2 g6 s6 [400, 0, 0, 1, 0, 0] 10).1 := by
  have hE : EntradaOK Pb := by unfold EntradaOK; decide
  have hS : EstadoOK Pb s6 := by unfold EstadoOK TestemunhaOK; decide
  have hG : GradeOK Pb g6 := by unfold GradeOK; decide
  have h := c10_multiconjunto Pb 2 g6 s6 [400, 0, 0, 1, 0, 0] 10 hE hS hG
  exact ⟨hE, hS, hG, h.1 0, h.2⟩

end Grades
